import Mathlib

/-!
Delaunay-set bookkeeping, timestep driver and force/motility engine of `spv2d.cpp`.

A shallow embedding of the class `SPV2D` (self-propelled Voronoi model) and of the methods
`getDelSets`, `allDelSets`, `resetLists`, `setExclusions`, `performTimestep`,
`performTimestepCPU`, `performTimestepGPU`, `spatialSorting`, `calculateDispCPU`,
`computeGeometryCPU` and `computeSPVForceCPU`.

Conventions.
* A `GPUArray<T>` is a total map `Int → T` from the flat offset to the stored value; a
  write is `Function.update`.
* A C++ `int` is an `Int`. The counter `Timestep` is incremented as the compiled code
  does it, in 32-bit two's complement (`wrapInt`); for the other integers, which are cell
  ids, neighbour counts and offsets into the arrays, overflow is not modelled.
  Each `%` of the source either has non-negative operands and a positive modulus, where the
  C++ remainder and `Int.emod` agree, or is only compared with 0 (line 189), which both
  remainders decide alike.
* `Dscalar` is an arbitrary type `F` carrying the arithmetic it is used with; no algebraic
  law is assumed unless a theorem says so.
* A `for` loop with bound `n` is a structural recursion on the number `n.toNat` of
  iterations that remain.
* A method that may throw returns an `Outcome`; the step routines return, next to the
  state, the list of the calls they issued (`Logged`), which is how a statement that a
  method is or is not called is expressed.
-/

namespace CellGPU

/-! Data model. -/

/-- CUDA vector type `int2`. -/
structure int2 where
  x : Int
  y : Int
deriving DecidableEq

/-- CUDA vector type `Dscalar2` (`double2` or `float2`). -/
structure Dscalar2 (F : Type) where
  x : F
  y : F
deriving DecidableEq

/-- CUDA vector type `Dscalar4`. -/
structure Dscalar4 (F : Type) where
  x : F
  y : F
  z : F
  w : F
deriving DecidableEq

/-- The class `Matrix2x2` of the repository's `Matrix.h`: four entries. -/
structure Matrix2x2 (F : Type) where
  x11 : F
  x12 : F
  x21 : F
  x22 : F
deriving DecidableEq

/-- Modelled from the spec: the NeighborIndex `n_idx` (an `Index2D` declared outside the
source files at hand) maps (local neighbour slot, cell id) to a flat offset; the lists are
stored contiguously, one cell after the other, with stride `neighMax`. -/
def n_idx (neighMax : Int) (nn i : Int) : Int := i * neighMax + nn

/-- The value that a 32-bit two's-complement `int` holds for the arithmetic result `x`: `x`
itself from -2147483648 to 2147483647, and `x` reduced modulo 2^32 into that range
otherwise. -/
def wrapInt (x : Int) : Int := (x + 2147483648) % 4294967296 - 2147483648

/-- State of the base class `DelaunayMD` that the methods of `SPV2D` read or write. The
component `hidden` stands for the members that only the base class uses (box, cell list,
sorting maps, `NeighIdxs`, ...). -/
structure DelaunayMD (F X : Type) where
  Ncells : Int
  neighMax : Int
  cellPositions : Int → Dscalar2 F
  cellNeighborNum : Int → Int
  cellNeighbors : Int → Int
  anyCircumcenterTestFailed : Int
  completeRetriangulationPerformed : Bool
  neighMaxChange : Bool
  NeedsFixing : List Int
  GPUcompute : Bool
  hidden : X

/-- State of the class `SPV2D`, which derives from `DelaunayMD`. -/
structure SPV2D (F X : Type) extends DelaunayMD F X where
  Timestep : Int
  sortPeriod : Int
  spatialSortThisStep : Bool
  particleExclusions : Bool
  deltaT : F
  v0 : F
  Dr : F
  Motility : Int → Dscalar2 F
  Moduli : Int → Dscalar2 F
  AreaPeriPreferences : Int → Dscalar2 F
  AreaPeri : Int → Dscalar2 F
  cellDirectors : Int → F
  CellType : Int → Int
  exclusions : Int → Int
  forces : Int → Dscalar2 F
  external_forces : Int → Dscalar2 F
  displacements : Int → Dscalar2 F
  voroCur : Int → Dscalar2 F
  voroLastNext : Int → Dscalar4 F
  forceSets : Int → Dscalar2 F
  delSets : Int → int2
  delOther : Int → Int

/-! The method `getDelSets` (lines 112-151). -/

/-- Inner loop of `getDelSets` (lines 129-137): scan the neighbour list of `n1` for the
first entry equal to `nm1`; `some v` is the value `v` the loop writes to `delOther` before
its `break`, `none` means the loop ended without writing. -/
def findDelOther (neighMax : Int) (ns : Int → Int) (n1 nm1 nextNeighs : Int) :
    Nat → Int → Option Int
  | 0, _ => none
  | rem + 1, nn2 =>
    let testPoint := ns (n_idx neighMax nn2 n1)
    if testPoint = nm1 then
      some (ns (n_idx neighMax ((nn2 + 1) % nextNeighs) n1))
    else findDelOther neighMax ns n1 nm1 nextNeighs rem (nn2 + 1)

/-- Outer loop of `getDelSets` (lines 125-150), started at slot `nn` with `rem` iterations
to go; the result is the returned flag with the arrays `delSets` and `delOther`. -/
def getDelSetsLoop (neighMax : Int) (neighnum ns : Int → Int) (i : Int) :
    Nat → Int → Int → Int → Int → (Int → int2) → (Int → Int) →
      Bool × (Int → int2) × (Int → Int)
  | 0, _, _, _, _, ds, dother => (true, ds, dother)
  | rem + 1, nn, _, nm1, n1, ds, dother =>
    let n2 := ns (n_idx neighMax nn i)
    let nextNeighs := neighnum n1
    let dother1 :=
      match findDelOther neighMax ns n1 nm1 nextNeighs nextNeighs.toNat 0 with
      | some v => Function.update dother (n_idx neighMax nn i) v
      | none => dother
    let ds1 := Function.update ds (n_idx neighMax nn i) ⟨nm1, n1⟩
    if nm1 = dother1 (n_idx neighMax nn i) ∨ n1 = dother1 (n_idx neighMax nn i)
        ∨ i = dother1 (n_idx neighMax nn i) then
      (false, ds1, dother1)
    else
      getDelSetsLoop neighMax neighnum ns i rem (nn + 1) nm1 n1 n2 ds1 dother1

/-- The first `bound` iterations of the slot loop of `getDelSets(i)` (the method itself
runs it with `bound = cellNeighborNum[i]`). -/
def getDelSetsUpTo {F X : Type} (s : SPV2D F X) (i : Int) (bound : Nat) :
    Bool × (Int → int2) × (Int → Int) :=
  let iNeighs := s.cellNeighborNum i
  let nm2 := s.cellNeighbors (n_idx s.neighMax (iNeighs - 3) i)
  let nm1 := s.cellNeighbors (n_idx s.neighMax (iNeighs - 2) i)
  let n1 := s.cellNeighbors (n_idx s.neighMax (iNeighs - 1) i)
  getDelSetsLoop s.neighMax s.cellNeighborNum s.cellNeighbors i bound 0 nm2 nm1 n1
    s.delSets s.delOther

/-- `bool SPV2D::getDelSets(int i)`: the returned flag and the state after the call. -/
def getDelSets {F X : Type} (s : SPV2D F X) (i : Int) : Bool × SPV2D F X :=
  let r := getDelSetsUpTo s i (s.cellNeighborNum i).toNat
  (r.1, { s with delSets := r.2.1, delOther := r.2.2 })

/-- Slot `nn` of cell `i` is reached by `getDelSets(i)`: the first `nn` iterations of the
slot loop end without `return false`. -/
def reachesSlot {F X : Type} (s : SPV2D F X) (i : Int) (nn : Nat) : Prop :=
  (getDelSetsUpTo s i nn).1 = true

instance {F X : Type} (s : SPV2D F X) (i : Int) (nn : Nat) : Decidable (reachesSlot s i nn) := by
  unfold reachesSlot; infer_instance

/-! Vocabulary of the statements on `getDelSets`. -/

/-- The result of the lookup of lines 128-137 for the pair `nm1`, `n1`: the entry that
follows, cyclically, the first occurrence of `nm1` in the neighbour list of `n1`. -/
def lookupDelOther (neighMax : Int) (neighnum ns : Int → Int) (nm1 n1 : Int) : Option Int :=
  findDelOther neighMax ns n1 nm1 (neighnum n1) (neighnum n1).toNat 0

/-- The test of line 142 on the value `d` of `delOther`. -/
def slotFails (i nm1 n1 d : Int) : Prop := nm1 = d ∨ n1 = d ∨ i = d

instance (i nm1 n1 d : Int) : Decidable (slotFails i nm1 n1 d) := by
  unfold slotFails; infer_instance

/-- Neighbour `n_m` of cell `i`: the entry of slot `m` of its list. -/
def nbr {F X : Type} (s : SPV2D F X) (i m : Int) : Int :=
  s.cellNeighbors (n_idx s.neighMax m i)

/-- The values of `nm1` and `n1` when the body of the slot loop of `getDelSets(i)` runs
for slot `nn`: they start as the last two neighbours and move on by one entry per slot. -/
def windowAt {F X : Type} (s : SPV2D F X) (i nn : Int) : int2 :=
  let k := s.cellNeighborNum i
  if nn = 0 then ⟨nbr s i (k - 2), nbr s i (k - 1)⟩
  else if nn = 1 then ⟨nbr s i (k - 1), nbr s i 0⟩
  else ⟨nbr s i (nn - 2), nbr s i (nn - 1)⟩

/-- The local-consistency test of line 142 read off a state: the `delOther` entry of slot
`nn` of cell `i` equals the cell or a member of the slot's `delSets` entry. -/
def slotInconsistent {F X : Type} (s : SPV2D F X) (i nn : Int) : Prop :=
  s.delOther (n_idx s.neighMax nn i) = i
    ∨ s.delOther (n_idx s.neighMax nn i) = (s.delSets (n_idx s.neighMax nn i)).x
    ∨ s.delOther (n_idx s.neighMax nn i) = (s.delSets (n_idx s.neighMax nn i)).y

instance {F X : Type} (s : SPV2D F X) (i nn : Int) : Decidable (slotInconsistent s i nn) := by
  unfold slotInconsistent; infer_instance

/-- Internally consistent neighbour lists: every cell has at least three neighbours, all of
them cells other than itself, no entry is repeated, and whenever `a`, `b` are cyclically
consecutive in the list of `c`, then `c`, `a` are cyclically consecutive in the list of `b`. -/
def ConsistentLists {F X : Type} (s : SPV2D F X) : Prop :=
  ∀ c : Int, 0 ≤ c → c < s.Ncells →
    3 ≤ s.cellNeighborNum c
    ∧ (∀ m : Int, 0 ≤ m → m < s.cellNeighborNum c →
        0 ≤ nbr s c m ∧ nbr s c m < s.Ncells ∧ nbr s c m ≠ c)
    ∧ (∀ m m' : Int, 0 ≤ m → m < s.cellNeighborNum c → 0 ≤ m' → m' < s.cellNeighborNum c →
        nbr s c m = nbr s c m' → m = m')
    ∧ (∀ m : Int, 0 ≤ m → m < s.cellNeighborNum c →
        ∃ p : Int, 0 ≤ p ∧ p < s.cellNeighborNum (nbr s c ((m + 1) % s.cellNeighborNum c))
          ∧ nbr s (nbr s c ((m + 1) % s.cellNeighborNum c)) p = c
          ∧ nbr s (nbr s c ((m + 1) % s.cellNeighborNum c))
              ((p + 1) % s.cellNeighborNum (nbr s c ((m + 1) % s.cellNeighborNum c)))
            = nbr s c m)

/-- The values of `nm1` and `n1` in the `m`-th iteration after an iteration of the slot
loop that runs for slot `nn` with the values `nm1`, `n1`. -/
def windowFrom (neighMax : Int) (ns : Int → Int) (i nn nm1 n1 : Int) (m : Nat) : int2 :=
  if m = 0 then ⟨nm1, n1⟩
  else if m = 1 then ⟨n1, ns (n_idx neighMax nn i)⟩
  else ⟨ns (n_idx neighMax (nn + m - 2) i), ns (n_idx neighMax (nn + m - 1) i)⟩

/-! Collaborators, list maintenance and the GPU step (lines 61-176, 208-227, 291-458). -/

/-- Everything the methods call that is declared outside the source files at hand: the
methods of the base class `DelaunayMD`, `GPUArray::resize`, the CUDA kernel launchers, the
geometric helper functions of the headers, the constant `THRESHOLD`, the mathematical
library and the Gaussian generator. Each is a parameter; a kernel launcher receives the
state read-only and returns the arrays it is handed with write access. -/
structure Env (F X : Type) where
  testAndRepairTriangulation : DelaunayMD F X → DelaunayMD F X
  globalTriangulationCGAL : DelaunayMD F X → DelaunayMD F X
  spatiallySortPoints : DelaunayMD F X → DelaunayMD F X
  movePointsCPU : DelaunayMD F X → (Int → Dscalar2 F) → DelaunayMD F X
  -- `updateNeighIdxs` rebuilds the list `NeighIdxs`, a member kept in `hidden`.
  updateNeighIdxs : DelaunayMD F X → X
  reIndexArray : {α : Type} → DelaunayMD F X → (Int → α) → (Int → α)
  resize : {α : Type} → (Int → α) → Int → (Int → α)
  gpu_compute_geometry : SPV2D F X → (Int → Dscalar2 F) × (Int → Dscalar2 F) × (Int → Dscalar4 F)
  gpu_force_sets : SPV2D F X → (Int → Dscalar2 F)
  gpu_sum_force_sets : SPV2D F X → (Int → Dscalar2 F)
  gpu_sum_force_sets_with_exclusions : SPV2D F X → (Int → Dscalar2 F) × (Int → Dscalar2 F)
  gpu_displace_and_rotate : SPV2D F X → (Int → Dscalar2 F) × (Int → F)
  -- `Box.minDist(p1, p2, out)`, the box being a member kept in `hidden`.
  minDist : X → Dscalar2 F → Dscalar2 F → Dscalar2 F
  -- `Circumcenter(rij, rik, out)`.
  Circumcenter : Dscalar2 F → Dscalar2 F → Dscalar2 F
  -- `Circumcenter(r1, r2, r3, out)`.
  Circumcenter3 : Dscalar2 F → Dscalar2 F → Dscalar2 F → Dscalar2 F
  TriangleArea : Dscalar2 F → Dscalar2 F → F
  dot : Dscalar2 F → Dscalar2 F → F
  dyad : Dscalar2 F → Dscalar2 F → Matrix2x2 F
  -- The default-constructed `Matrix2x2 Id`.
  Id : Matrix2x2 F
  matAdd : Matrix2x2 F → Matrix2x2 F → Matrix2x2 F
  matSub : Matrix2x2 F → Matrix2x2 F → Matrix2x2 F
  -- `Dscalar * Matrix2x2`.
  scalarMat : F → Matrix2x2 F → Matrix2x2 F
  -- `Dscalar2 * Matrix2x2`.
  vecMat : Dscalar2 F → Matrix2x2 F → Dscalar2 F
  THRESHOLD : F
  sqrt : F → F
  cos : F → F
  sin : F → F
  -- The sample `normal(gen)` draws at iteration `ii` of `calculateDispCPU`.
  normal : Int → F

/-- A call issued by `performTimestep`, `performTimestepCPU` or `performTimestepGPU`;
`getDelSets i r` is a call `getDelSets(i)` that returned `r`. -/
inductive Event where
  | computeGeometryCPU
  | computeSPVForceCPU (ii : Int)
  | calculateDispCPU
  | movePointsCPU
  | computeGeometryGPU
  | ComputeForceSetsGPU
  | SumForcesGPU
  | DisplacePointsAndRotate
  | testAndRepairTriangulation
  | resetLists
  | allDelSets
  | getDelSets (i : Int) (result : Bool)
  | globalTriangulationCGAL
  | spatialSorting
deriving DecidableEq

/-- A state together with the calls issued so far, oldest first. -/
structure Logged (F X : Type) where
  state : SPV2D F X
  log : List Event

/-- How a method that may raise `std::exception` ends: it returns, or the exception
propagates to the caller; either way with the state reached. -/
inductive Outcome (σ : Type) where
  | returned (s : σ)
  | threw (s : σ)

/-- The state an outcome carries. -/
def Outcome.get {σ : Type} : Outcome σ → σ
  | .returned s => s
  | .threw s => s

/-- Whether the outcome is a propagating exception. -/
def Outcome.thrown {σ : Type} : Outcome σ → Bool
  | .returned _ => false
  | .threw _ => true

/-- `void SPV2D::resetLists()`. -/
def resetLists {F X : Type} (E : Env F X) (s : SPV2D F X) : SPV2D F X :=
  { s with
    voroCur := E.resize s.voroCur (s.neighMax * s.Ncells)
    voroLastNext := E.resize s.voroLastNext (s.neighMax * s.Ncells)
    delSets := E.resize s.delSets (s.neighMax * s.Ncells)
    delOther := E.resize s.delOther (s.neighMax * s.Ncells)
    forceSets := E.resize s.forceSets (s.neighMax * s.Ncells) }

/-- The loop of `allDelSets` (lines 107-108); the flag `getDelSets` returns is dropped. -/
def allDelSetsLoop {F X : Type} : Nat → Int → SPV2D F X → SPV2D F X
  | 0, _, s => s
  | rem + 1, ii, s => allDelSetsLoop rem (ii + 1) (getDelSets s ii).2

/-- `void SPV2D::allDelSets()`. -/
def allDelSets {F X : Type} (E : Env F X) (s : SPV2D F X) : SPV2D F X :=
  let s1 : SPV2D F X := { s with hidden := E.updateNeighIdxs s.toDelaunayMD }
  allDelSetsLoop s1.Ncells.toNat 0 s1

/-- Apply a method of the base class `DelaunayMD` to the base part of the state. -/
def onBase {F X : Type} (f : DelaunayMD F X → DelaunayMD F X) (s : SPV2D F X) : SPV2D F X :=
  { s with toDelaunayMD := f s.toDelaunayMD }

/-- `void SPV2D::spatialSorting()`. -/
def spatialSorting {F X : Type} (E : Env F X) (s : SPV2D F X) : SPV2D F X :=
  let s1 := onBase E.spatiallySortPoints s
  let s2 := onBase E.globalTriangulationCGAL s1
  let s3 := resetLists E s2
  let s4 := allDelSets E s3
  let s5 := { s4 with Motility := E.reIndexArray s4.toDelaunayMD s4.Motility }
  let s6 := { s5 with Moduli := E.reIndexArray s5.toDelaunayMD s5.Moduli }
  let s7 := { s6 with AreaPeriPreferences := E.reIndexArray s6.toDelaunayMD s6.AreaPeriPreferences }
  let s8 := { s7 with cellDirectors := E.reIndexArray s7.toDelaunayMD s7.cellDirectors }
  let s9 := { s8 with exclusions := E.reIndexArray s8.toDelaunayMD s8.exclusions }
  { s9 with CellType := E.reIndexArray s9.toDelaunayMD s9.CellType }

/-- `void SPV2D::setExclusions(vector<int> &exes)`, loop of lines 165-175. -/
def setExclusionsLoop {F : Type} [OfScientific F] (exes : Int → Int) :
    Nat → Int → (Int → Dscalar2 F) → (Int → Int) → (Int → Dscalar2 F) × (Int → Int)
  | 0, _, h_mot, h_ex => (h_mot, h_ex)
  | rem + 1, ii, h_mot, h_ex =>
    let h_ex1 := Function.update h_ex ii 0
    if exes ii ≠ 0 then
      let h_mot1 := Function.update h_mot ii ⟨0.0, 0.0⟩
      let h_ex2 := Function.update h_ex1 ii 1
      setExclusionsLoop exes rem (ii + 1) h_mot1 h_ex2
    else
      setExclusionsLoop exes rem (ii + 1) h_mot h_ex1

/-- `void SPV2D::setExclusions(vector<int> &exes)`. -/
def setExclusions {F X : Type} [OfScientific F] (E : Env F X) (s : SPV2D F X)
    (exes : Int → Int) : SPV2D F X :=
  let external_forces := E.resize s.external_forces s.Ncells
  let exclusions := E.resize s.exclusions s.Ncells
  let r := setExclusionsLoop exes s.Ncells.toNat 0 s.Motility exclusions
  { s with
    particleExclusions := true
    external_forces := external_forces
    exclusions := r.2
    Motility := r.1 }

/-- `void SPV2D::computeGeometryGPU()`. -/
def computeGeometryGPU {F X : Type} (E : Env F X) (s : SPV2D F X) : SPV2D F X :=
  let r := E.gpu_compute_geometry s
  { s with AreaPeri := r.1, voroCur := r.2.1, voroLastNext := r.2.2 }

/-- `void SPV2D::computeSPVForceSetsGPU()`. -/
def computeSPVForceSetsGPU {F X : Type} (E : Env F X) (s : SPV2D F X) : SPV2D F X :=
  { s with forceSets := E.gpu_force_sets s }

/-- `void SPV2D::ComputeForceSetsGPU()`. -/
def ComputeForceSetsGPU {F X : Type} (E : Env F X) (s : SPV2D F X) : SPV2D F X :=
  computeSPVForceSetsGPU E s

/-- `void SPV2D::sumForceSets()`. -/
def sumForceSets {F X : Type} (E : Env F X) (s : SPV2D F X) : SPV2D F X :=
  { s with forces := E.gpu_sum_force_sets s }

/-- `void SPV2D::sumForceSetsWithExclusions()`. -/
def sumForceSetsWithExclusions {F X : Type} (E : Env F X) (s : SPV2D F X) : SPV2D F X :=
  let r := E.gpu_sum_force_sets_with_exclusions s
  { s with forces := r.1, external_forces := r.2 }

/-- `void SPV2D::SumForcesGPU()`. -/
def SumForcesGPU {F X : Type} (E : Env F X) (s : SPV2D F X) : SPV2D F X :=
  if !s.particleExclusions then sumForceSets E s else sumForceSetsWithExclusions E s

/-- `void SPV2D::DisplacePointsAndRotate()`. -/
def DisplacePointsAndRotate {F X : Type} (E : Env F X) (s : SPV2D F X) : SPV2D F X :=
  let r := E.gpu_displace_and_rotate s
  { s with cellPositions := r.1, cellDirectors := r.2 }

/-- The loop over `NeedsFixing` of `performTimestepGPU` (lines 337-341): the flag
`localFail`, the state, and the calls `getDelSets(NeedsFixing[jj])` with their results. -/
def localRepairLoop {F X : Type} :
    List Int → Bool → SPV2D F X → List Event → Bool × SPV2D F X × List Event
  | [], localFail, s, log => (localFail, s, log)
  | j :: rest, localFail, s, log =>
    let r := getDelSets s j
    let localFail1 := if !r.1 then true else localFail
    localRepairLoop rest localFail1 r.2 (log ++ [Event.getDelSets j r.1])

/-- The state of `performTimestepGPU` when `testAndRepairTriangulation()` has returned
(lines 311-320 on a step that does not sort). -/
def gpuAfterTest {F X : Type} (E : Env F X) (s : SPV2D F X) : SPV2D F X :=
  onBase E.testAndRepairTriangulation
    (DisplacePointsAndRotate E (SumForcesGPU E (ComputeForceSetsGPU E (computeGeometryGPU E s))))

/-- The calls of lines 311-314 of `performTimestepGPU`. -/
def gpuComputeLog : List Event :=
  [Event.computeGeometryGPU, Event.ComputeForceSetsGPU, Event.SumForcesGPU,
    Event.DisplacePointsAndRotate]

/-- `void SPV2D::performTimestepGPU()`. -/
def performTimestepGPU {F X : Type} (E : Env F X) (s : SPV2D F X) : Logged F X :=
  let s1 := computeGeometryGPU E s
  let s2 := ComputeForceSetsGPU E s1
  let s3 := SumForcesGPU E s2
  let s4 := DisplacePointsAndRotate E s3
  let log4 := gpuComputeLog
  if !s4.spatialSortThisStep then
    let s5 := onBase E.testAndRepairTriangulation s4
    let log5 := log4 ++ [Event.testAndRepairTriangulation]
    if s5.anyCircumcenterTestFailed = 1 then
      if s5.completeRetriangulationPerformed || s5.neighMaxChange then
        if s5.neighMaxChange then
          let s6 := resetLists E s5
          let s7 : SPV2D F X := { s6 with neighMaxChange := false }
          ⟨allDelSets E s7, log5 ++ [Event.resetLists, Event.allDelSets]⟩
        else
          ⟨allDelSets E s5, log5 ++ [Event.allDelSets]⟩
      else
        let r := localRepairLoop s5.NeedsFixing false s5 log5
        if r.1 then
          let s6 := onBase E.globalTriangulationCGAL r.2.1
          let s7 := resetLists E s6
          ⟨allDelSets E s7,
            r.2.2 ++ [Event.globalTriangulationCGAL, Event.resetLists, Event.allDelSets]⟩
        else
          ⟨r.2.1, r.2.2⟩
    else
      ⟨s5, log5⟩
  else
    ⟨s4, log4⟩
/-! Geometry, forces, displacements and the CPU step (lines 182-284, 461-736). -/

section Numeric

variable {F X : Type} [Add F] [Sub F] [Mul F] [Div F] [Neg F] [OfScientific F] [LT F]
  [DecidableRel (fun a b : F => a < b)]

/-- First loop of `computeGeometryCPU` for cell `i` (lines 490-499): the local vector
`voro` and the array `voroCur`. -/
def voroLoop (E : Env F X) (s : SPV2D F X) (i : Int) (pi : Dscalar2 F) :
    Nat → Int → Dscalar2 F → (Int → Dscalar2 F) → (Int → Dscalar2 F) →
      (Int → Dscalar2 F) × (Int → Dscalar2 F)
  | 0, _, _, voro, h_v => (voro, h_v)
  | rem + 1, nn, rij, voro, h_v =>
    let nnextp := s.cellPositions (s.cellNeighbors (n_idx s.neighMax nn i))
    let rik := E.minDist s.hidden nnextp pi
    let circumcent := E.Circumcenter rij rik
    let voro1 := Function.update voro nn circumcent
    let id := n_idx s.neighMax nn i
    voroLoop E s i pi rem (nn + 1) rik voro1 (Function.update h_v id (voro1 nn))

/-- Second loop of `computeGeometryCPU` (lines 506-514): `Varea` and `Vperi`. -/
def areaPeriLoop (E : Env F X) (voro : Int → Dscalar2 F) :
    Nat → Int → Dscalar2 F → F → F → F × F
  | 0, _, _, Varea, Vperi => (Varea, Vperi)
  | rem + 1, nn, vlast, Varea, Vperi =>
    let vnext := voro nn
    let Varea1 := Varea + E.TriangleArea vlast vnext
    let dx := vlast.x - vnext.x
    let dy := vlast.y - vnext.y
    let Vperi1 := Vperi + E.sqrt (dx * dx + dy * dy)
    areaPeriLoop E voro rem (nn + 1) vnext Varea1 Vperi1

/-- Body of the cell loop of `computeGeometryCPU` (lines 473-516) for cell `i`. -/
def computeGeometryCell (E : Env F X) (s : SPV2D F X) (i : Int) : SPV2D F X :=
  let neigh := s.cellNeighborNum i
  let pi := s.cellPositions i
  let nlastp := s.cellPositions (s.cellNeighbors (n_idx s.neighMax (neigh - 1) i))
  let rij := E.minDist s.hidden nlastp pi
  let r := voroLoop E s i pi neigh.toNat 0 rij (fun _ => ⟨0.0, 0.0⟩) s.voroCur
  let voro := r.1
  let vlast := voro (neigh - 1)
  let ap := areaPeriLoop E voro neigh.toNat 0 vlast 0.0 0.0
  { s with voroCur := r.2, AreaPeri := Function.update s.AreaPeri i ⟨ap.1, ap.2⟩ }

/-- The cell loop of `computeGeometryCPU` (line 471). -/
def computeGeometryLoop (E : Env F X) : Nat → Int → SPV2D F X → SPV2D F X
  | 0, _, s => s
  | rem + 1, i, s => computeGeometryLoop E rem (i + 1) (computeGeometryCell E s i)

/-- `void SPV2D::computeGeometryCPU()`. -/
def computeGeometryCPU (E : Env F X) (s : SPV2D F X) : SPV2D F X :=
  computeGeometryLoop E s.Ncells.toNat 0 s

/-- One iteration of the first loop of `computeSPVForceCPU` (lines 564-590): the matrix
`dhdri[nn]` from `rij` and `rik`. -/
def dhdriOf (E : Env F X) (rij rik : Dscalar2 F) : Matrix2x2 F :=
  let rjk : Dscalar2 F := ⟨rik.x - rij.x, rik.y - rij.y⟩
  let betaD := (-(E.dot rik rik)) * E.dot rij rjk
  let gammaD := E.dot rij rij * E.dot rik rjk
  let cp := rij.x * rjk.y - rij.y * rjk.x
  let D := 2.0 * cp * cp
  let z : Dscalar2 F := ⟨betaD * rij.x + gammaD * rik.x, betaD * rij.y + gammaD * rik.y⟩
  let dbDdri : Dscalar2 F :=
    ⟨2.0 * E.dot rij rjk * rik.x + E.dot rik rik * rjk.x,
      2.0 * E.dot rij rjk * rik.y + E.dot rik rik * rjk.y⟩
  let dgDdri : Dscalar2 F :=
    ⟨(-2.0) * E.dot rik rjk * rij.x - E.dot rij rij * rjk.x,
      (-2.0) * E.dot rik rjk * rij.y - E.dot rij rij * rjk.y⟩
  let dDdriOD : Dscalar2 F := ⟨((-2.0) * rjk.y) / cp, (2.0 * rjk.x) / cp⟩
  E.matAdd E.Id
    (E.scalarMat (1.0 / D)
      (E.matSub
        (E.matSub (E.matAdd (E.dyad rij dbDdri) (E.dyad rik dgDdri))
          (E.scalarMat (betaD + gammaD) E.Id))
        (E.dyad z dDdriOD)))

/-- First loop of `computeSPVForceCPU` (lines 562-593): the local vectors `voro` and
`dhdri`. -/
def dhdriLoop (E : Env F X) (s : SPV2D F X) (i : Int) (pi : Dscalar2 F) :
    Nat → Int → Dscalar2 F → (Int → Dscalar2 F) → (Int → Matrix2x2 F) →
      (Int → Dscalar2 F) × (Int → Matrix2x2 F)
  | 0, _, _, voro, dhdri => (voro, dhdri)
  | rem + 1, nn, rij, voro, dhdri =>
    let id := n_idx s.neighMax nn i
    let nnextp := s.cellPositions (s.cellNeighbors (n_idx s.neighMax nn i))
    let rik := E.minDist s.hidden nnextp pi
    let voro1 := Function.update voro nn (s.voroCur id)
    let dhdri1 := Function.update dhdri nn (dhdriOf E rij rik)
    dhdriLoop E s i pi rem (nn + 1) rik voro1 dhdri1

/-- The scan of lines 645-650 of `computeSPVForceCPU`: the value of `DT_other_idx` after
the loop over the neighbours of `baseNeigh` (no `break`: a later match overwrites). -/
def scanOther (neighMax : Int) (h_n : Int → Int) (baseNeigh otherNeigh neigh2 : Int) :
    Nat → Int → Int → Int
  | 0, _, DT_other_idx => DT_other_idx
  | rem + 1, n2, DT_other_idx =>
    let testPoint := h_n (n_idx neighMax n2 baseNeigh)
    let DT1 :=
      if testPoint = otherNeigh then h_n (n_idx neighMax ((n2 + 1) % neigh2) baseNeigh)
      else DT_other_idx
    scanOther neighMax h_n baseNeigh otherNeigh neigh2 rem (n2 + 1) DT1

/-- The clamped difference quotient of lines 624-638 (and 676-688, 694-706): from `dlast`
and `dnext` the pair `dlast/dlnorm - dnext/dnnorm` with both norms raised to `Pthreshold`. -/
def dPdv (E : Env F X) (dlast dnext : Dscalar2 F) : Dscalar2 F :=
  let Pthreshold := E.THRESHOLD
  let dlnorm := E.sqrt (dlast.x * dlast.x + dlast.y * dlast.y)
  let dnnorm := E.sqrt (dnext.x * dnext.x + dnext.y * dnext.y)
  let dnnorm1 := if dnnorm < Pthreshold then Pthreshold else dnnorm
  let dlnorm1 := if dlnorm < Pthreshold then Pthreshold else dlnorm
  ⟨dlast.x / dlnorm1 - dnext.x / dnnorm1, dlast.y / dlnorm1 - dnext.y / dnnorm1⟩

/-- Lines 656-719 of `computeSPVForceCPU`: the contribution `temp` of slot `nn` to
`forceSum`, once `DT_other_idx` has passed the test of line 651. -/
def slotForce (E : Env F X) (s : SPV2D F X) (pi : Dscalar2 F)
    (Adiff Pdiff : F) (vlast vcur vnext : Dscalar2 F) (dhdri_nn : Matrix2x2 F)
    (baseNeigh otherNeigh DT_other_idx : Int) : Dscalar2 F :=
  let KA : F := 1.0
  let KP : F := 1.0
  let dAidv : Dscalar2 F := ⟨0.5 * (vlast.y - vnext.y), 0.5 * (vnext.x - vlast.x)⟩
  let dPidv := dPdv E ⟨vlast.x - vcur.x, vlast.y - vcur.y⟩ ⟨vcur.x - vnext.x, vcur.y - vnext.y⟩
  let nl1 := s.cellPositions otherNeigh
  let nn1 := s.cellPositions baseNeigh
  let no1 := s.cellPositions DT_other_idx
  let r1 := E.minDist s.hidden nl1 pi
  let r2 := E.minDist s.hidden nn1 pi
  let r3 := E.minDist s.hidden no1 pi
  let vother := E.Circumcenter3 r1 r2 r3
  let Akdiff := KA * ((s.AreaPeri baseNeigh).x - (s.AreaPeriPreferences baseNeigh).x)
  let Pkdiff := KP * ((s.AreaPeri baseNeigh).y - (s.AreaPeriPreferences baseNeigh).y)
  let Ajdiff := KA * ((s.AreaPeri otherNeigh).x - (s.AreaPeriPreferences otherNeigh).x)
  let Pjdiff := KP * ((s.AreaPeri otherNeigh).y - (s.AreaPeriPreferences otherNeigh).y)
  let dAkdv : Dscalar2 F := ⟨0.5 * (vnext.y - vother.y), 0.5 * (vother.x - vnext.x)⟩
  let dPkdv := dPdv E ⟨vnext.x - vcur.x, vnext.y - vcur.y⟩ ⟨vcur.x - vother.x, vcur.y - vother.y⟩
  let dAjdv : Dscalar2 F := ⟨0.5 * (vother.y - vlast.y), 0.5 * (vlast.x - vother.x)⟩
  let dPjdv := dPdv E ⟨vother.x - vcur.x, vother.y - vcur.y⟩ ⟨vcur.x - vlast.x, vcur.y - vlast.y⟩
  let dEdv0 : Dscalar2 F :=
    ⟨2.0 * Adiff * dAidv.x + 2.0 * Pdiff * dPidv.x, 2.0 * Adiff * dAidv.y + 2.0 * Pdiff * dPidv.y⟩
  let dEdv1 : Dscalar2 F :=
    ⟨dEdv0.x + (2.0 * Akdiff * dAkdv.x + 2.0 * Pkdiff * dPkdv.x),
      dEdv0.y + (2.0 * Akdiff * dAkdv.y + 2.0 * Pkdiff * dPkdv.y)⟩
  let dEdv : Dscalar2 F :=
    ⟨dEdv1.x + (2.0 * Ajdiff * dAjdv.x + 2.0 * Pjdiff * dPjdv.x),
      dEdv1.y + (2.0 * Ajdiff * dAjdv.y + 2.0 * Pjdiff * dPjdv.y)⟩
  E.vecMat dEdv dhdri_nn

/-- Second loop of `computeSPVForceCPU` (lines 609-722): `some forceSum` when the loop
runs to its end, `none` when line 654 throws. -/
def forceLoop (E : Env F X) (s : SPV2D F X) (i : Int) (neigh : Int) (pi : Dscalar2 F)
    (Adiff Pdiff : F) (voro : Int → Dscalar2 F) (dhdri : Int → Matrix2x2 F) :
    Nat → Int → Dscalar2 F → Dscalar2 F → Option (Dscalar2 F)
  | 0, _, _, forceSum => some forceSum
  | rem + 1, nn, vlast, forceSum =>
    let vcur := voro nn
    let vnext := voro ((nn + 1) % neigh)
    let baseNeigh := s.cellNeighbors (n_idx s.neighMax nn i)
    let other_idx := nn - 1
    let other_idx1 := if other_idx < 0 then other_idx + neigh else other_idx
    let otherNeigh := s.cellNeighbors (n_idx s.neighMax other_idx1 i)
    let neigh2 := s.cellNeighborNum baseNeigh
    let DT_other_idx :=
      scanOther s.neighMax s.cellNeighbors baseNeigh otherNeigh neigh2 neigh2.toNat 0 (-1)
    if DT_other_idx = otherNeigh ∨ DT_other_idx = baseNeigh ∨ DT_other_idx = -1 then
      none
    else
      let temp := slotForce E s pi Adiff Pdiff vlast vcur vnext (dhdri nn)
        baseNeigh otherNeigh DT_other_idx
      forceLoop E s i neigh pi Adiff Pdiff voro dhdri rem (nn + 1) vcur
        ⟨forceSum.x + temp.x, forceSum.y + temp.y⟩

/-- Lines 543-722 of `computeSPVForceCPU(i)`: the value of `forceSum` when line 724 is
reached, `none` when the exception of line 654 is thrown. -/
def forceSumCPU (E : Env F X) (s : SPV2D F X) (i : Int) : Option (Dscalar2 F) :=
  let neigh := s.cellNeighborNum i
  let pi := s.cellPositions i
  let nlastp := s.cellPositions (s.cellNeighbors (n_idx s.neighMax (neigh - 1) i))
  let rij := E.minDist s.hidden nlastp pi
  let r := dhdriLoop E s i pi neigh.toNat 0 rij (fun _ => ⟨0.0, 0.0⟩) (fun _ => E.Id)
  let voro := r.1
  let dhdri := r.2
  let KA : F := 1.0
  let KP : F := 1.0
  let Adiff := KA * ((s.AreaPeri i).x - (s.AreaPeriPreferences i).x)
  let Pdiff := KP * ((s.AreaPeri i).y - (s.AreaPeriPreferences i).y)
  let vlast := voro (neigh - 1)
  forceLoop E s i neigh pi Adiff Pdiff voro dhdri neigh.toNat 0 vlast ⟨0.0, 0.0⟩

/-- `void SPV2D::computeSPVForceCPU(int i)`. -/
def computeSPVForceCPU (E : Env F X) (s : SPV2D F X) (i : Int) : Outcome (SPV2D F X) :=
  match forceSumCPU E s i with
  | none => Outcome.threw s
  | some forceSum =>
    let h_f := Function.update s.forces i forceSum
    if s.particleExclusions then
      if s.exclusions i ≠ 0 then
        Outcome.returned { s with
          forces := Function.update h_f i ⟨0.0, 0.0⟩
          external_forces := Function.update s.external_forces i ⟨-forceSum.x, -forceSum.y⟩ }
      else
        Outcome.returned { s with forces := h_f }
    else
      Outcome.returned { s with forces := h_f }

/-- The loop of `calculateDispCPU` (lines 243-258): the arrays `cellDirectors` and
`displacements`. -/
def calculateDispLoop (E : Env F X) (s : SPV2D F X) :
    Nat → Int → (Int → F) → (Int → Dscalar2 F) → (Int → F) × (Int → Dscalar2 F)
  | 0, _, h_cd, h_disp => (h_cd, h_disp)
  | rem + 1, ii, h_cd, h_disp =>
    let _v0i := (s.Motility ii).x
    let Dri := (s.Motility ii).y
    let directorx := E.cos (h_cd ii)
    let directory := E.sin (h_cd ii)
    let dx := s.deltaT * (s.v0 * directorx + (s.forces ii).x)
    let dy := s.deltaT * (s.v0 * directory + (s.forces ii).y)
    let h_disp1 := Function.update h_disp ii ⟨dx, dy⟩
    let h_cd1 := Function.update h_cd ii (h_cd ii + E.normal ii * E.sqrt (2.0 * s.deltaT * Dri))
    calculateDispLoop E s rem (ii + 1) h_cd1 h_disp1

/-- `void SPV2D::calculateDispCPU()`. -/
def calculateDispCPU (E : Env F X) (s : SPV2D F X) : SPV2D F X :=
  let r := calculateDispLoop E s s.Ncells.toNat 0 s.cellDirectors s.displacements
  { s with cellDirectors := r.1, displacements := r.2 }

/-- The loop of lines 266-267 of `performTimestepCPU`; an exception thrown by
`computeSPVForceCPU(ii)` ends it. -/
def forceLoopCPU (E : Env F X) : Nat → Int → Logged F X → Outcome (Logged F X)
  | 0, _, r => Outcome.returned r
  | rem + 1, ii, r =>
    match computeSPVForceCPU E r.state ii with
    | Outcome.returned s1 =>
      forceLoopCPU E rem (ii + 1) ⟨s1, r.log ++ [Event.computeSPVForceCPU ii]⟩
    | Outcome.threw s1 => Outcome.threw ⟨s1, r.log ++ [Event.computeSPVForceCPU ii]⟩

/-- Lines 265-270 of `performTimestepCPU`: geometry, forces, displacements and the move of
the points. -/
def cpuMove (E : Env F X) (s : SPV2D F X) : Outcome (Logged F X) :=
  let s1 := computeGeometryCPU E s
  match forceLoopCPU E s1.Ncells.toNat 0 ⟨s1, [Event.computeGeometryCPU]⟩ with
  | Outcome.threw r => Outcome.threw r
  | Outcome.returned r =>
    let s2 := calculateDispCPU E r.state
    let s3 : SPV2D F X := { s2 with toDelaunayMD := E.movePointsCPU s2.toDelaunayMD s2.displacements }
    Outcome.returned ⟨s3, r.log ++ [Event.calculateDispCPU, Event.movePointsCPU]⟩

/-- `void SPV2D::performTimestepCPU()`. -/
def performTimestepCPU (E : Env F X) (s : SPV2D F X) : Outcome (Logged F X) :=
  match cpuMove E s with
  | Outcome.threw r => Outcome.threw r
  | Outcome.returned r =>
    let s3 := r.state
    if !s3.spatialSortThisStep then
      let s4 := onBase E.testAndRepairTriangulation s3
      let log4 := r.log ++ [Event.testAndRepairTriangulation]
      if s4.neighMaxChange then
        let s5 := if s4.neighMaxChange then resetLists E s4 else s4
        let log5 := if s4.neighMaxChange then log4 ++ [Event.resetLists] else log4
        let s6 : SPV2D F X := { s5 with neighMaxChange := false }
        Outcome.returned ⟨allDelSets E s6, log5 ++ [Event.allDelSets]⟩
      else
        Outcome.returned ⟨s4, log4⟩
    else
      Outcome.returned ⟨s3, r.log⟩

end Numeric
/-! Vocabulary of the statements on the step routines. -/

/-- The flags that the calls `getDelSets(j)`, issued one after the other for the entries
`j` of a list, return. -/
def repairResults {F X : Type} : List Int → SPV2D F X → List Bool
  | [], _ => []
  | j :: rest, s => (getDelSets s j).1 :: repairResults rest (getDelSets s j).2

/-- The state after the calls `getDelSets(j)` for the entries `j` of a list. -/
def repairState {F X : Type} : List Int → SPV2D F X → SPV2D F X
  | [], s => s
  | j :: rest, s => repairState rest (getDelSets s j).2

/-- The members of `SPV2D` that steer `performTimestep`. -/
def control {F X : Type} (s : SPV2D F X) : Int × Int × Bool :=
  (s.Timestep, s.sortPeriod, s.spatialSortThisStep)

/-- Arrays of a state that stores the given neighbour counts and neighbour lists and has
every other member zero or false. -/
def topologyState (Ncells neighMax : Int) (neighnum ns : Int → Int) : SPV2D ℚ Unit where
  Ncells := Ncells
  neighMax := neighMax
  cellPositions := fun _ => ⟨0, 0⟩
  cellNeighborNum := neighnum
  cellNeighbors := ns
  anyCircumcenterTestFailed := 0
  completeRetriangulationPerformed := false
  neighMaxChange := false
  NeedsFixing := []
  GPUcompute := false
  hidden := ()
  Timestep := 0
  sortPeriod := 0
  spatialSortThisStep := false
  particleExclusions := false
  deltaT := 0
  v0 := 0
  Dr := 0
  Motility := fun _ => ⟨0, 0⟩
  Moduli := fun _ => ⟨0, 0⟩
  AreaPeriPreferences := fun _ => ⟨0, 0⟩
  AreaPeri := fun _ => ⟨0, 0⟩
  cellDirectors := fun _ => 0
  CellType := fun _ => 0
  exclusions := fun _ => 0
  forces := fun _ => ⟨0, 0⟩
  external_forces := fun _ => ⟨0, 0⟩
  displacements := fun _ => ⟨0, 0⟩
  voroCur := fun _ => ⟨0, 0⟩
  voroLastNext := fun _ => ⟨0, 0, 0, 0⟩
  forceSets := fun _ => ⟨0, 0⟩
  delSets := fun _ => ⟨0, 0⟩
  delOther := fun _ => 0

/-- Content of an `int` array given by the list of its first entries (zero elsewhere). -/
def arrayOf (l : List Int) : Int → Int := fun j => if 0 ≤ j then l.getD j.toNat 0 else 0

/-- The tetrahedral triangulation of four cells, stride 3: cell 0 has neighbours 1,2,3,
cell 1 has 0,3,2, cell 2 has 0,1,3 and cell 3 has 0,2,1. -/
def tetra : SPV2D ℚ Unit :=
  topologyState 4 3 (arrayOf [3, 3, 3, 3]) (arrayOf [1, 2, 3, 0, 3, 2, 0, 1, 3, 0, 2, 1])

/-- The tetrahedral triangulation with the list of cell 3 corrupted to 2,0,1: in it the
entry after 2 is 0. -/
def corruptTetra : SPV2D ℚ Unit :=
  topologyState 4 3 (arrayOf [3, 3, 3, 3]) (arrayOf [1, 2, 3, 0, 3, 2, 0, 1, 3, 2, 0, 1])

/-- An environment over the rationals in which every collaborator leaves its data as it
is; the mathematical functions are the constants the examples name. -/
def idleEnv (cosValue sinValue : ℚ) : Env ℚ Unit where
  testAndRepairTriangulation := fun d => d
  globalTriangulationCGAL := fun d => d
  spatiallySortPoints := fun d => d
  movePointsCPU := fun d _ => d
  updateNeighIdxs := fun _ => ()
  reIndexArray := fun _ a => a
  resize := fun a _ => a
  gpu_compute_geometry := fun s => (s.AreaPeri, s.voroCur, s.voroLastNext)
  gpu_force_sets := fun s => s.forceSets
  gpu_sum_force_sets := fun s => s.forces
  gpu_sum_force_sets_with_exclusions := fun s => (s.forces, s.external_forces)
  gpu_displace_and_rotate := fun s => (s.cellPositions, s.cellDirectors)
  minDist := fun _ p q => ⟨p.x - q.x, p.y - q.y⟩
  Circumcenter := fun _ _ => ⟨0, 0⟩
  Circumcenter3 := fun _ _ _ => ⟨0, 0⟩
  TriangleArea := fun _ _ => 0
  dot := fun a b => a.x * b.x + a.y * b.y
  dyad := fun a b => ⟨a.x * b.x, a.x * b.y, a.y * b.x, a.y * b.y⟩
  Id := ⟨1, 0, 0, 1⟩
  matAdd := fun a b => ⟨a.x11 + b.x11, a.x12 + b.x12, a.x21 + b.x21, a.x22 + b.x22⟩
  matSub := fun a b => ⟨a.x11 - b.x11, a.x12 - b.x12, a.x21 - b.x21, a.x22 - b.x22⟩
  scalarMat := fun c a => ⟨c * a.x11, c * a.x12, c * a.x21, c * a.x22⟩
  vecMat := fun v a => ⟨v.x * a.x11 + v.y * a.x21, v.x * a.x12 + v.y * a.x22⟩
  THRESHOLD := 1 / 1000000
  sqrt := fun _ => 0
  cos := fun _ => cosValue
  sin := fun _ => sinValue
  normal := fun _ => 0

/-- The idle environment with a triangulation test that reports the given flags and the
given list `NeedsFixing`. -/
def reportEnv (anyFailed : Int) (complete nmc : Bool) (needsFixing : List Int) : Env ℚ Unit :=
  { idleEnv 1 0 with
    testAndRepairTriangulation := fun d =>
      { d with
        anyCircumcenterTestFailed := anyFailed
        completeRetriangulationPerformed := complete
        neighMaxChange := nmc
        NeedsFixing := needsFixing } }

/-- The tetrahedral triangulation with a fifth cell whose list 4,4,4 names the cell itself;
`getDelSets` returns true on the cells 0 to 3 and false on cell 4. -/
def mixedTetra : SPV2D ℚ Unit :=
  topologyState 5 3 (arrayOf [3, 3, 3, 3, 3])
    (arrayOf [1, 2, 3, 0, 3, 2, 0, 1, 3, 0, 2, 1, 4, 4, 4])

/-- The idle environment in which `Dscalar2 * Matrix2x2` always yields (1, 2), so that every
slot adds (1, 2) to `forceSum`. -/
def unitForceEnv : Env ℚ Unit :=
  { idleEnv 1 0 with vecMat := fun _ _ => ⟨1, 2⟩ }

/-- The tetrahedral triangulation with exclusions active and cell 0 flagged. -/
def flaggedTetra : SPV2D ℚ Unit :=
  { tetra with particleExclusions := true, exclusions := arrayOf [1, 0, 0, 0] }

/-- The tetrahedral triangulation with system-wide speed `v0 = 1`, `deltaT = 1`, every
director at angle 0 and every motility pair equal to (1, 1). -/
def movingTetra : SPV2D ℚ Unit :=
  { tetra with v0 := 1, deltaT := 1, Motility := fun _ => ⟨1, 1⟩ }

/-- The state `movingTetra` after `setExclusions` with the vector 1,0,0,0: cell 0 is
excluded. -/
def excludedTetra : SPV2D ℚ Unit :=
  setExclusions unitForceEnv movingTetra (arrayOf [1, 0, 0, 0])

/-- The tetrahedral triangulation with system-wide speed `v0 = 1`, `deltaT = 1`, every
director at angle 0 and every cell with its own speed 5 in its motility pair (5, 1). -/
def unevenTetra : SPV2D ℚ Unit :=
  { tetra with v0 := 1, deltaT := 1, Motility := fun _ => ⟨5, 1⟩ }

/-- The value of `baseNeigh` in slot `nn` of the force loop of `computeSPVForceCPU(i)`
(line 614). -/
def baseNeighAt {F X : Type} (s : SPV2D F X) (i nn : Int) : Int :=
  s.cellNeighbors (n_idx s.neighMax nn i)

/-- The value of `otherNeigh` in slot `nn` of the force loop of `computeSPVForceCPU(i)`
(lines 615-617). -/
def otherNeighAt {F X : Type} (s : SPV2D F X) (i nn : Int) : Int :=
  s.cellNeighbors (n_idx s.neighMax
    (if nn - 1 < 0 then nn - 1 + s.cellNeighborNum i else nn - 1) i)

/-- The third point `DT_other_idx` that slot `nn` of the force loop of
`computeSPVForceCPU(i)` finds (lines 644-650). -/
def thirdPoint {F X : Type} (s : SPV2D F X) (i nn : Int) : Int :=
  scanOther s.neighMax s.cellNeighbors (baseNeighAt s i nn) (otherNeighAt s i nn)
    (s.cellNeighborNum (baseNeighAt s i nn)) (s.cellNeighborNum (baseNeighAt s i nn)).toNat 0 (-1)

/-- The test of line 651 in slot `nn` of the force loop of `computeSPVForceCPU(i)`. -/
def slotThrows {F X : Type} (s : SPV2D F X) (i nn : Int) : Prop :=
  thirdPoint s i nn = otherNeighAt s i nn ∨ thirdPoint s i nn = baseNeighAt s i nn
    ∨ thirdPoint s i nn = -1

instance {F X : Type} (s : SPV2D F X) (i nn : Int) : Decidable (slotThrows s i nn) := by
  unfold slotThrows; infer_instance


/-- Modelled from the spec: the Voronoi vertex of slot `nn` of cell `i`,
`Circumcenter(minDist(p[n_{(nn-1) mod k}], p_i), minDist(p[n_nn], p_i))`. -/
def voroVertex {F X : Type} (E : Env F X) (s : SPV2D F X) (i nn : Int) : Dscalar2 F :=
  E.Circumcenter
    (E.minDist s.hidden (s.cellPositions (nbr s i ((nn - 1) % s.cellNeighborNum i)))
      (s.cellPositions i))
    (E.minDist s.hidden (s.cellPositions (nbr s i nn)) (s.cellPositions i))

/-- Modelled from the spec: the sum over the slots `nn = 0 .. k-1`, in this order and
starting from `0.0`, of `TriangleArea(v_{(nn-1) mod k}, v_nn)`. -/
def polygonArea {F X : Type} [Add F] [OfScientific F] (E : Env F X) (s : SPV2D F X)
    (i : Int) : F :=
  (List.range (s.cellNeighborNum i).toNat).foldl
    (fun (acc : F) (m : Nat) => acc + E.TriangleArea
      (voroVertex E s i (((m : Int) - 1) % s.cellNeighborNum i)) (voroVertex E s i m)) 0.0

/-- Modelled from the spec: the sum over the slots `nn = 0 .. k-1`, in this order and
starting from `0.0`, of the Euclidean distance between `v_{(nn-1) mod k}` and `v_nn`. -/
def polygonPerimeter {F X : Type} [Add F] [Sub F] [Mul F] [OfScientific F] (E : Env F X)
    (s : SPV2D F X) (i : Int) : F :=
  (List.range (s.cellNeighborNum i).toNat).foldl
    (fun (acc : F) (m : Nat) => acc + E.sqrt
      (((voroVertex E s i (((m : Int) - 1) % s.cellNeighborNum i)).x - (voroVertex E s i m).x)
          * ((voroVertex E s i (((m : Int) - 1) % s.cellNeighborNum i)).x
            - (voroVertex E s i m).x)
        + ((voroVertex E s i (((m : Int) - 1) % s.cellNeighborNum i)).y
            - (voroVertex E s i m).y)
          * ((voroVertex E s i (((m : Int) - 1) % s.cellNeighborNum i)).y
            - (voroVertex E s i m).y))) 0.0

section JacobianVocabulary

variable {F X : Type} [Add F] [Sub F] [Mul F] [Div F] [Neg F] [OfScientific F] [LT F]
  [DecidableRel (fun a b : F => a < b)]

/-- The norm `sqrt(d.x*d.x + d.y*d.y)` after the two `if`s of lines 632-635 (and 683-686,
701-704): raised to `Pthreshold` when it is below it. -/
def clampedNorm (E : Env F X) (d : Dscalar2 F) : F :=
  if E.sqrt (d.x * d.x + d.y * d.y) < E.THRESHOLD then E.THRESHOLD
  else E.sqrt (d.x * d.x + d.y * d.y)

/-- The value of `cp` (line 573) for the vectors `rij` and `rik`. -/
def cpOf (rij rik : Dscalar2 F) : F :=
  rij.x * (rik.y - rij.y) - rij.y * (rik.x - rij.x)

/-- The value of `D` (line 574) for the vectors `rij` and `rik`. -/
def DOf (rij rik : Dscalar2 F) : F :=
  2.0 * cpOf rij rik * cpOf rij rik

/-- The value of `betaD` (line 571) for the vectors `rij` and `rik`. -/
def betaDOf (E : Env F X) (rij rik : Dscalar2 F) : F :=
  (-(E.dot rik rik)) * E.dot rij ⟨rik.x - rij.x, rik.y - rij.y⟩

/-- The value of `gammaD` (line 572) for the vectors `rij` and `rik`. -/
def gammaDOf (E : Env F X) (rij rik : Dscalar2 F) : F :=
  E.dot rij rij * E.dot rik ⟨rik.x - rij.x, rik.y - rij.y⟩

/-- The value of `rij` when the body of the first loop of `computeSPVForceCPU(i)` runs for
slot `nn` (lines 559-560 for slot 0, line 590 afterwards). -/
def rijAt (E : Env F X) (s : SPV2D F X) (i nn : Int) : Dscalar2 F :=
  E.minDist s.hidden
    (s.cellPositions (s.cellNeighbors (n_idx s.neighMax
      (if nn = 0 then s.cellNeighborNum i - 1 else nn - 1) i)))
    (s.cellPositions i)

/-- The value of `rik` in slot `nn` of the first loop of `computeSPVForceCPU(i)`
(lines 564-565). -/
def rikAt (E : Env F X) (s : SPV2D F X) (i nn : Int) : Dscalar2 F :=
  E.minDist s.hidden (s.cellPositions (s.cellNeighbors (n_idx s.neighMax nn i)))
    (s.cellPositions i)

/-- The entry `dhdri[nn]` after the first loop of `computeSPVForceCPU(i)` (lines 559-591). -/
def dhdriAt (E : Env F X) (s : SPV2D F X) (i nn : Int) : Matrix2x2 F :=
  (dhdriLoop E s i (s.cellPositions i) (s.cellNeighborNum i).toNat 0
    (E.minDist s.hidden
      (s.cellPositions (s.cellNeighbors (n_idx s.neighMax (s.cellNeighborNum i - 1) i)))
      (s.cellPositions i))
    (fun _ => ⟨0.0, 0.0⟩) (fun _ => E.Id)).2 nn

/-- Modelled from the spec: the point `r_i + (betaD*rij + gammaD*rik)/D` with
`rij = r_j - r_i` and `rik = r_k - r_i`. -/
def circumcenterFrom (E : Env F X) (ri rj rk : Dscalar2 F) : Dscalar2 F :=
  ⟨ri.x + (betaDOf E ⟨rj.x - ri.x, rj.y - ri.y⟩ ⟨rk.x - ri.x, rk.y - ri.y⟩ * (rj.x - ri.x)
      + gammaDOf E ⟨rj.x - ri.x, rj.y - ri.y⟩ ⟨rk.x - ri.x, rk.y - ri.y⟩ * (rk.x - ri.x))
      / DOf ⟨rj.x - ri.x, rj.y - ri.y⟩ ⟨rk.x - ri.x, rk.y - ri.y⟩,
    ri.y + (betaDOf E ⟨rj.x - ri.x, rj.y - ri.y⟩ ⟨rk.x - ri.x, rk.y - ri.y⟩ * (rj.y - ri.y)
      + gammaDOf E ⟨rj.x - ri.x, rj.y - ri.y⟩ ⟨rk.x - ri.x, rk.y - ri.y⟩ * (rk.y - ri.y))
      / DOf ⟨rj.x - ri.x, rj.y - ri.y⟩ ⟨rk.x - ri.x, rk.y - ri.y⟩⟩

/-- The squared Euclidean distance of two points. -/
def sqDist (a b : Dscalar2 F) : F :=
  (a.x - b.x) * (a.x - b.x) + (a.y - b.y) * (a.y - b.y)

end JacobianVocabulary
/-! Example states for the lookup and geometry statements. -/

/-- The tetrahedral triangulation with the list of cell 3 replaced by 0,0,1, in which
cell 2 does not occur. -/
def looseTetra : SPV2D ℚ Unit :=
  topologyState 4 3 (arrayOf [3, 3, 3, 3]) (arrayOf [1, 2, 3, 0, 3, 2, 0, 1, 3, 0, 0, 1])

/-- Four cells with stride 4 in which cell 1 lists cell 3 twice (3,2,3,0), the other
lists being those of the tetrahedral triangulation. -/
def repeatTetra : SPV2D ℚ Unit :=
  topologyState 4 4 (arrayOf [3, 4, 3, 3])
    (arrayOf [1, 2, 3, 0, 3, 2, 3, 0, 0, 1, 3, 0, 0, 2, 1, 0])

/-- An environment over any scalar type with the planar algebra written out: `minDist` is
the plain difference, `Circumcenter(rij, rik)` is `(betaD*rij + gammaD*rik)/D`,
`Circumcenter(r1, r2, r3)` is `r1` plus the circumcenter of the differences, `TriangleArea`
is half the cross product, and the matrix operations act entry by entry; the collaborators
leave their data as it is. -/
def planarEnv (F : Type) [Add F] [Sub F] [Mul F] [Div F] [Neg F] [OfScientific F]
    (sqrt : F → F) (threshold : F) : Env F Unit where
  testAndRepairTriangulation := fun d => d
  globalTriangulationCGAL := fun d => d
  spatiallySortPoints := fun d => d
  movePointsCPU := fun d _ => d
  updateNeighIdxs := fun _ => ()
  reIndexArray := fun _ a => a
  resize := fun a _ => a
  gpu_compute_geometry := fun s => (s.AreaPeri, s.voroCur, s.voroLastNext)
  gpu_force_sets := fun s => s.forceSets
  gpu_sum_force_sets := fun s => s.forces
  gpu_sum_force_sets_with_exclusions := fun s => (s.forces, s.external_forces)
  gpu_displace_and_rotate := fun s => (s.cellPositions, s.cellDirectors)
  minDist := fun _ p q => ⟨p.x - q.x, p.y - q.y⟩
  Circumcenter := fun a b =>
    ⟨(((-(b.x * b.x + b.y * b.y)) * (a.x * (b.x - a.x) + a.y * (b.y - a.y))) * a.x
        + ((a.x * a.x + a.y * a.y) * (b.x * (b.x - a.x) + b.y * (b.y - a.y))) * b.x)
        / DOf a b,
      (((-(b.x * b.x + b.y * b.y)) * (a.x * (b.x - a.x) + a.y * (b.y - a.y))) * a.y
        + ((a.x * a.x + a.y * a.y) * (b.x * (b.x - a.x) + b.y * (b.y - a.y))) * b.y)
        / DOf a b⟩
  Circumcenter3 := fun r1 r2 r3 =>
    ⟨r1.x + (((-((r3.x - r1.x) * (r3.x - r1.x) + (r3.y - r1.y) * (r3.y - r1.y)))
          * ((r2.x - r1.x) * ((r3.x - r1.x) - (r2.x - r1.x))
            + (r2.y - r1.y) * ((r3.y - r1.y) - (r2.y - r1.y)))) * (r2.x - r1.x)
        + (((r2.x - r1.x) * (r2.x - r1.x) + (r2.y - r1.y) * (r2.y - r1.y))
          * ((r3.x - r1.x) * ((r3.x - r1.x) - (r2.x - r1.x))
            + (r3.y - r1.y) * ((r3.y - r1.y) - (r2.y - r1.y)))) * (r3.x - r1.x))
        / DOf ⟨r2.x - r1.x, r2.y - r1.y⟩ ⟨r3.x - r1.x, r3.y - r1.y⟩,
      r1.y + (((-((r3.x - r1.x) * (r3.x - r1.x) + (r3.y - r1.y) * (r3.y - r1.y)))
          * ((r2.x - r1.x) * ((r3.x - r1.x) - (r2.x - r1.x))
            + (r2.y - r1.y) * ((r3.y - r1.y) - (r2.y - r1.y)))) * (r2.y - r1.y)
        + (((r2.x - r1.x) * (r2.x - r1.x) + (r2.y - r1.y) * (r2.y - r1.y))
          * ((r3.x - r1.x) * ((r3.x - r1.x) - (r2.x - r1.x))
            + (r3.y - r1.y) * ((r3.y - r1.y) - (r2.y - r1.y)))) * (r3.y - r1.y))
        / DOf ⟨r2.x - r1.x, r2.y - r1.y⟩ ⟨r3.x - r1.x, r3.y - r1.y⟩⟩
  TriangleArea := fun a b => 0.5 * (a.x * b.y - a.y * b.x)
  dot := fun a b => a.x * b.x + a.y * b.y
  dyad := fun a b => ⟨a.x * b.x, a.x * b.y, a.y * b.x, a.y * b.y⟩
  Id := ⟨1.0, 0.0, 0.0, 1.0⟩
  matAdd := fun a b => ⟨a.x11 + b.x11, a.x12 + b.x12, a.x21 + b.x21, a.x22 + b.x22⟩
  matSub := fun a b => ⟨a.x11 - b.x11, a.x12 - b.x12, a.x21 - b.x21, a.x22 - b.x22⟩
  scalarMat := fun c a => ⟨c * a.x11, c * a.x12, c * a.x21, c * a.x22⟩
  vecMat := fun v a => ⟨v.x * a.x11 + v.y * a.x21, v.x * a.x12 + v.y * a.x22⟩
  THRESHOLD := threshold
  sqrt := sqrt
  cos := fun _ => 1.0
  sin := fun _ => 0.0
  normal := fun _ => 0.0

/-- A state over any scalar type that stores the given neighbour counts, neighbour lists
and positions and has every other member zero or false. -/
def planarState (F : Type) [OfScientific F] (Ncells neighMax : Int) (neighnum ns : Int → Int)
    (positions : Int → Dscalar2 F) : SPV2D F Unit where
  Ncells := Ncells
  neighMax := neighMax
  cellPositions := positions
  cellNeighborNum := neighnum
  cellNeighbors := ns
  anyCircumcenterTestFailed := 0
  completeRetriangulationPerformed := false
  neighMaxChange := false
  NeedsFixing := []
  GPUcompute := false
  hidden := ()
  Timestep := 0
  sortPeriod := 0
  spatialSortThisStep := false
  particleExclusions := false
  deltaT := 0.0
  v0 := 0.0
  Dr := 0.0
  Motility := fun _ => ⟨0.0, 0.0⟩
  Moduli := fun _ => ⟨0.0, 0.0⟩
  AreaPeriPreferences := fun _ => ⟨0.0, 0.0⟩
  AreaPeri := fun _ => ⟨0.0, 0.0⟩
  cellDirectors := fun _ => 0.0
  CellType := fun _ => 0
  exclusions := fun _ => 0
  forces := fun _ => ⟨0.0, 0.0⟩
  external_forces := fun _ => ⟨0.0, 0.0⟩
  displacements := fun _ => ⟨0.0, 0.0⟩
  voroCur := fun _ => ⟨0.0, 0.0⟩
  voroLastNext := fun _ => ⟨0.0, 0.0, 0.0, 0.0⟩
  forceSets := fun _ => ⟨0.0, 0.0⟩
  delSets := fun _ => ⟨0, 0⟩
  delOther := fun _ => 0

/-- Positions given by the list of the first points (the origin elsewhere). -/
def pointsOf (F : Type) [OfScientific F] (l : List (Dscalar2 F)) : Int → Dscalar2 F :=
  fun j => if 0 ≤ j then l.getD j.toNat ⟨0.0, 0.0⟩ else ⟨0.0, 0.0⟩

/-- The tetrahedral triangulation with cell 0 at the origin and its neighbours 1, 2, 3 at
(1,0), (2,0), (3,0), on one line with it. -/
def collinearTetra : SPV2D ℚ Unit :=
  { tetra with cellPositions := pointsOf ℚ [⟨0, 0⟩, ⟨1, 0⟩, ⟨2, 0⟩, ⟨3, 0⟩] }

/-- The tetrahedral triangulation with the cells at (0,0), (3,1), (1,4) and (-2,-3). -/
def skewTetra : SPV2D ℚ Unit :=
  planarState ℚ 4 3 (arrayOf [3, 3, 3, 3]) (arrayOf [1, 2, 3, 0, 3, 2, 0, 1, 3, 0, 2, 1])
    (pointsOf ℚ [⟨0, 0⟩, ⟨3, 1⟩, ⟨1, 4⟩, ⟨-2, -3⟩])

/-- The planar environment with the identity in the place of `sqrt` and the threshold
`1.0e-6`. -/
def planarEnvOver (F : Type) [Add F] [Sub F] [Mul F] [Div F] [Neg F] [OfScientific F] :
    Env F Unit :=
  planarEnv F (fun x => x) 1.0e-6

/-- The tetrahedral triangulation over any scalar type, with the cells at the given
points. -/
def tetraOver (F : Type) [OfScientific F] (l : List (Dscalar2 F)) : SPV2D F Unit :=
  planarState F 4 3 (arrayOf [3, 3, 3, 3]) (arrayOf [1, 2, 3, 0, 3, 2, 0, 1, 3, 0, 2, 1])
    (pointsOf F l)

/-! Vocabulary of the statement on the net force. -/

section ForceVocabulary

variable {F X : Type} [Add F] [Sub F] [Mul F] [Div F] [Neg F] [OfScientific F] [LT F]
  [DecidableRel (fun a b : F => a < b)]

/-- The minimum-image vector `minDist(p_a, p_b)` of two cells. -/
def minImage (E : Env F X) (s : SPV2D F X) (a b : Int) : Dscalar2 F :=
  E.minDist s.hidden (s.cellPositions a) (s.cellPositions b)

/-- The value of `KA*(h_AP[c].x - h_APpref[c].x)` (lines 604, 667, 669). -/
def areaDiff (s : SPV2D F X) (c : Int) : F :=
  1.0 * ((s.AreaPeri c).x - (s.AreaPeriPreferences c).x)

/-- The value of `KP*(h_AP[c].y - h_APpref[c].y)` (lines 605, 668, 670). -/
def periDiff (s : SPV2D F X) (c : Int) : F :=
  1.0 * ((s.AreaPeri c).y - (s.AreaPeriPreferences c).y)

/-- The value of `vother` in slot `nn` of the force loop of `computeSPVForceCPU(i)`
(lines 656-665). -/
def votherAt (E : Env F X) (s : SPV2D F X) (i nn : Int) : Dscalar2 F :=
  E.Circumcenter3 (minImage E s (otherNeighAt s i nn) i) (minImage E s (baseNeighAt s i nn) i)
    (minImage E s (thirdPoint s i nn) i)

/-- The value of `temp` in slot `nn` of the force loop of `computeSPVForceCPU(i)`
(line 718), for a slot that passes the test of line 651. -/
def slotTemp (E : Env F X) (s : SPV2D F X) (i nn : Int) : Dscalar2 F :=
  slotForce E s (s.cellPositions i) (areaDiff s i) (periDiff s i)
    (s.voroCur (n_idx s.neighMax ((nn - 1) % s.cellNeighborNum i) i))
    (s.voroCur (n_idx s.neighMax nn i))
    (s.voroCur (n_idx s.neighMax ((nn + 1) % s.cellNeighborNum i) i))
    (dhdriAt E s i nn) (baseNeighAt s i nn) (otherNeighAt s i nn) (thirdPoint s i nn)

end ForceVocabulary

section CornerVocabulary

variable {F X : Type} [Add F] [Sub F] [Mul F] [Div F] [Neg F] [OfScientific F] [LT F]
  [DecidableRel (fun a b : F => a < b)]

end CornerVocabulary

/-! Vocabulary of the statement on rotated neighbour lists. -/

/-- Modelled from the spec: the state in which the neighbour list `n_0..n_{k-1}` of cell `i`
is replaced by its cyclic rotation by `sh` places, `n_sh..n_{k-1},n_0..n_{sh-1}`: slot `nn`
of cell `i` holds `n_{(nn+sh) mod k}`, and every other entry is as before. -/
def rotateNeighbors {F X : Type} (s : SPV2D F X) (i sh : Int) : SPV2D F X :=
  { s with
    cellNeighbors := fun y =>
      if n_idx s.neighMax 0 i ≤ y ∧ y < n_idx s.neighMax (s.cellNeighborNum i) i then
        nbr s i ((y - n_idx s.neighMax 0 i + sh) % s.cellNeighborNum i)
      else s.cellNeighbors y }


/-! Example state of the statement on a step that ends with the exception. -/

section DivisorVocabulary

variable {F X : Type} [Add F] [Sub F] [Mul F] [Div F] [Neg F] [OfScientific F] [LT F]
  [DecidableRel (fun a b : F => a < b)]

/-- The difference `a - b` of two vertices, as lines 625-626, 630-631, 676-680 and 694-698
form the edge vectors `dlast` and `dnext`. -/
def edgeVector (a b : Dscalar2 F) : Dscalar2 F :=
  ⟨a.x - b.x, a.y - b.y⟩

/-- Modelled from the spec: a perimeter-derivative term `dlast/|dlast| - dnext/|dnext|`
whose two divisors are the clamped norms of its edge vectors. -/
def clampedQuotient (E : Env F X) (dlast dnext : Dscalar2 F) : Dscalar2 F :=
  ⟨dlast.x / clampedNorm E dlast - dnext.x / clampedNorm E dnext,
    dlast.y / clampedNorm E dlast - dnext.y / clampedNorm E dnext⟩

/-- Modelled from the spec: the gradient `dEdv` of slot `nn` of cell `i` (lines 710-715),
the sum of the terms of the cell, of `baseNeigh` and of `otherNeigh`; its six divisions
are by the clamped norms of the edges between the vertex `vcur` of the slot and its three
neighbouring vertices `vlast`, `vnext` and `vother`. -/
def slotGradient (E : Env F X) (s : SPV2D F X) (i nn : Int) : Dscalar2 F :=
  let vlast := s.voroCur (n_idx s.neighMax ((nn - 1) % s.cellNeighborNum i) i)
  let vcur := s.voroCur (n_idx s.neighMax nn i)
  let vnext := s.voroCur (n_idx s.neighMax ((nn + 1) % s.cellNeighborNum i) i)
  let vother := votherAt E s i nn
  ⟨((2.0 * areaDiff s i * (0.5 * (vlast.y - vnext.y))
        + 2.0 * periDiff s i
          * (clampedQuotient E (edgeVector vlast vcur) (edgeVector vcur vnext)).x)
      + (2.0 * areaDiff s (baseNeighAt s i nn) * (0.5 * (vnext.y - vother.y))
        + 2.0 * periDiff s (baseNeighAt s i nn)
          * (clampedQuotient E (edgeVector vnext vcur) (edgeVector vcur vother)).x))
      + (2.0 * areaDiff s (otherNeighAt s i nn) * (0.5 * (vother.y - vlast.y))
        + 2.0 * periDiff s (otherNeighAt s i nn)
          * (clampedQuotient E (edgeVector vother vcur) (edgeVector vcur vlast)).x),
    ((2.0 * areaDiff s i * (0.5 * (vnext.x - vlast.x))
        + 2.0 * periDiff s i
          * (clampedQuotient E (edgeVector vlast vcur) (edgeVector vcur vnext)).y)
      + (2.0 * areaDiff s (baseNeighAt s i nn) * (0.5 * (vother.x - vnext.x))
        + 2.0 * periDiff s (baseNeighAt s i nn)
          * (clampedQuotient E (edgeVector vnext vcur) (edgeVector vcur vother)).y))
      + (2.0 * areaDiff s (otherNeighAt s i nn) * (0.5 * (vlast.x - vother.x))
        + 2.0 * periDiff s (otherNeighAt s i nn)
          * (clampedQuotient E (edgeVector vother vcur) (edgeVector vcur vlast)).y)⟩

/-- Modelled from the spec: the matrix `dhdri` of line 590 with its divisors written out:
`D = 2*cp*cp` in `1.0/D` and `cp` in the two entries of `dDdriOD`, both as they come out of
`rij` and `rik`, with no comparison against `THRESHOLD`. -/
def unclampedJacobian (E : Env F X) (rij rik : Dscalar2 F) : Matrix2x2 F :=
  E.matAdd E.Id
    (E.scalarMat (1.0 / DOf rij rik)
      (E.matSub
        (E.matSub
          (E.matAdd
            (E.dyad rij
              ⟨2.0 * E.dot rij (edgeVector rik rij) * rik.x
                  + E.dot rik rik * (rik.x - rij.x),
                2.0 * E.dot rij (edgeVector rik rij) * rik.y
                  + E.dot rik rik * (rik.y - rij.y)⟩)
            (E.dyad rik
              ⟨(-2.0) * E.dot rik (edgeVector rik rij) * rij.x
                  - E.dot rij rij * (rik.x - rij.x),
                (-2.0) * E.dot rik (edgeVector rik rij) * rij.y
                  - E.dot rij rij * (rik.y - rij.y)⟩))
          (E.scalarMat (betaDOf E rij rik + gammaDOf E rij rik) E.Id))
        (E.dyad
          ⟨betaDOf E rij rik * rij.x + gammaDOf E rij rik * rik.x,
            betaDOf E rij rik * rij.y + gammaDOf E rij rik * rik.y⟩
          ⟨((-2.0) * (rik.y - rij.y)) / cpOf rij rik,
            (2.0 * (rik.x - rij.x)) / cpOf rij rik⟩)))

/-- Modelled from the spec: the force `forceSum` of cell `i`, the sum over the slots
`nn = 0 .. k-1`, in this order and starting from (0.0, 0.0), of the gradient of the slot
times its matrix `dhdri`. -/
def clampedForceSum (E : Env F X) (s : SPV2D F X) (i : Int) : Dscalar2 F :=
  (List.range (s.cellNeighborNum i).toNat).foldl
    (fun (acc : Dscalar2 F) (m : Nat) =>
      ⟨acc.x + (E.vecMat (slotGradient E s i m)
          (unclampedJacobian E (rijAt E s i m) (rikAt E s i m))).x,
        acc.y + (E.vecMat (slotGradient E s i m)
          (unclampedJacobian E (rijAt E s i m) (rikAt E s i m))).y⟩) ⟨0.0, 0.0⟩

end DivisorVocabulary

/-- The tetrahedral triangulation with the cells at (0,0), (3,1), (1,4) and (-2,-3) after
the geometry step, in the planar environment over the rationals with the identity in the
place of `sqrt` and the threshold 1/1000000. -/
def skewGeometry : SPV2D ℚ Unit :=
  computeGeometryCPU (planarEnv ℚ (fun x => x) (1 / 1000000)) skewTetra

/-! Lemmas on the slot loop of `getDelSets`. -/

section DelSets

theorem n_idx_inj (M i a b : Int) (h : n_idx M a i = n_idx M b i) : a = b := by
  unfold n_idx at h; omega

theorem getDelSetsLoop_succ (M : Int) (neighnum ns : Int → Int) (i : Int) (rem : Nat)
    (nn nm2 nm1 n1 : Int) (ds : Int → int2) (dother : Int → Int) :
    getDelSetsLoop M neighnum ns i (rem + 1) nn nm2 nm1 n1 ds dother =
      if slotFails i nm1 n1 ((lookupDelOther M neighnum ns nm1 n1).getD (dother (n_idx M nn i)))
      then (false, Function.update ds (n_idx M nn i) ⟨nm1, n1⟩,
        Function.update dother (n_idx M nn i)
          ((lookupDelOther M neighnum ns nm1 n1).getD (dother (n_idx M nn i))))
      else getDelSetsLoop M neighnum ns i rem (nn + 1) nm1 n1 (ns (n_idx M nn i))
        (Function.update ds (n_idx M nn i) ⟨nm1, n1⟩)
        (Function.update dother (n_idx M nn i)
          ((lookupDelOther M neighnum ns nm1 n1).getD (dother (n_idx M nn i)))) := by
  unfold lookupDelOther slotFails
  rw [getDelSetsLoop]
  cases h : findDelOther M ns n1 nm1 (neighnum n1) (neighnum n1).toNat 0 with
  | none => simp [Function.update_eq_self]
  | some v => simp [Function.update_same]

end DelSets

section DelSetsLoop

variable (M : Int) (neighnum ns : Int → Int) (i : Int)

/-- The slot loop leaves every entry outside the slots it visits as it was. -/
theorem getDelSetsLoop_frame (rem : Nat) :
    ∀ (nn nm2 nm1 n1 : Int) (ds : Int → int2) (dother : Int → Int) (x : Int),
      (∀ m : Nat, m < rem → x ≠ n_idx M (nn + m) i) →
      (getDelSetsLoop M neighnum ns i rem nn nm2 nm1 n1 ds dother).2.1 x = ds x
        ∧ (getDelSetsLoop M neighnum ns i rem nn nm2 nm1 n1 ds dother).2.2 x = dother x := by
  induction rem with
  | zero => intro nn nm2 nm1 n1 ds dother x _; simp [getDelSetsLoop]
  | succ rem ih =>
    intro nn nm2 nm1 n1 ds dother x hx
    have hx0 : x ≠ n_idx M nn i := by simpa using hx 0 (Nat.succ_pos rem)
    rw [getDelSetsLoop_succ]
    split_ifs with hf
    · simp [Function.update_noteq hx0]
    · have hx1 : ∀ m : Nat, m < rem → x ≠ n_idx M (nn + 1 + m) i := by
        intro m hm
        have := hx (m + 1) (Nat.succ_lt_succ hm)
        have e : nn + 1 + (m : Int) = nn + ((m + 1 : Nat) : Int) := by push_cast; ring
        rw [e]; exact this
      obtain ⟨h1, h2⟩ := ih (nn + 1) nm1 n1 (ns (n_idx M nn i)) _ _ x hx1
      rw [h1, h2]
      simp [Function.update_noteq hx0]

/-- The entries of a slot that the loop has visited: after the loop they are what the
body wrote, so the flag tells whether some visited slot fails the test of line 142. -/
theorem getDelSetsLoop_flag (rem : Nat) :
    ∀ (nn nm2 nm1 n1 : Int) (ds : Int → int2) (dother : Int → Int),
      ((getDelSetsLoop M neighnum ns i rem nn nm2 nm1 n1 ds dother).1 = true →
        ∀ m : Nat, m < rem →
          ¬ slotFails i
            ((getDelSetsLoop M neighnum ns i rem nn nm2 nm1 n1 ds dother).2.1
              (n_idx M (nn + m) i)).x
            ((getDelSetsLoop M neighnum ns i rem nn nm2 nm1 n1 ds dother).2.1
              (n_idx M (nn + m) i)).y
            ((getDelSetsLoop M neighnum ns i rem nn nm2 nm1 n1 ds dother).2.2
              (n_idx M (nn + m) i)))
      ∧ ((getDelSetsLoop M neighnum ns i rem nn nm2 nm1 n1 ds dother).1 = false →
        ∃ m : Nat, m < rem ∧
          slotFails i
            ((getDelSetsLoop M neighnum ns i rem nn nm2 nm1 n1 ds dother).2.1
              (n_idx M (nn + m) i)).x
            ((getDelSetsLoop M neighnum ns i rem nn nm2 nm1 n1 ds dother).2.1
              (n_idx M (nn + m) i)).y
            ((getDelSetsLoop M neighnum ns i rem nn nm2 nm1 n1 ds dother).2.2
              (n_idx M (nn + m) i))) := by
  induction rem with
  | zero => intro nn nm2 nm1 n1 ds dother; simp [getDelSetsLoop]
  | succ rem ih =>
    intro nn nm2 nm1 n1 ds dother
    rw [getDelSetsLoop_succ]
    split_ifs with hf
    · refine ⟨fun h => by simp at h, fun _ => ⟨0, Nat.succ_pos rem, ?_⟩⟩
      have e0 : nn + ((0 : Nat) : Int) = nn := by simp
      rw [e0]
      simp only [Function.update_same]
      exact hf
    · obtain ⟨ht, hfl⟩ := ih (nn + 1) nm1 n1 (ns (n_idx M nn i))
        (Function.update ds (n_idx M nn i) ⟨nm1, n1⟩)
        (Function.update dother (n_idx M nn i)
          ((lookupDelOther M neighnum ns nm1 n1).getD (dother (n_idx M nn i))))
      have hfr := getDelSetsLoop_frame M neighnum ns i rem (nn + 1) nm1 n1 (ns (n_idx M nn i))
        (Function.update ds (n_idx M nn i) ⟨nm1, n1⟩)
        (Function.update dother (n_idx M nn i)
          ((lookupDelOther M neighnum ns nm1 n1).getD (dother (n_idx M nn i))))
        (n_idx M nn i) (by intro m _ h; have := n_idx_inj M i _ _ h; omega)
      have e : ∀ m : Nat, nn + ((m + 1 : Nat) : Int) = nn + 1 + (m : Int) := by
        intro m; push_cast; ring
      constructor
      · intro h m hm
        cases m with
        | zero =>
          have e0 : nn + ((0 : Nat) : Int) = nn := by simp
          rw [e0, hfr.1, hfr.2]
          simp only [Function.update_same]
          exact hf
        | succ m => rw [e]; exact ht h m (Nat.lt_of_succ_lt_succ hm)
      · intro h
        obtain ⟨m, hm, hb⟩ := hfl h
        exact ⟨m + 1, Nat.succ_lt_succ hm, by rw [e]; exact hb⟩

end DelSetsLoop

section DelSetsState

variable {F X : Type}

theorem slotInconsistent_getDelSets_iff (s : SPV2D F X) (i nn : Int) :
    slotInconsistent (getDelSets s i).2 i nn ↔
      slotFails i
        ((getDelSetsUpTo s i (s.cellNeighborNum i).toNat).2.1 (n_idx s.neighMax nn i)).x
        ((getDelSetsUpTo s i (s.cellNeighborNum i).toNat).2.1 (n_idx s.neighMax nn i)).y
        ((getDelSetsUpTo s i (s.cellNeighborNum i).toNat).2.2 (n_idx s.neighMax nn i)) := by
  unfold slotInconsistent slotFails getDelSets
  simp only []
  constructor
  · rintro (h | h | h)
    · exact Or.inr (Or.inr h.symm)
    · exact Or.inl h.symm
    · exact Or.inr (Or.inl h.symm)
  · rintro (h | h | h)
    · exact Or.inr (Or.inl h.symm)
    · exact Or.inr (Or.inr h.symm)
    · exact Or.inl h.symm

theorem getDelSets_true_iff_aux (s : SPV2D F X) (i : Int) :
    (getDelSets s i).1 = true ↔
      ∀ nn : Int, 0 ≤ nn → nn < s.cellNeighborNum i → ¬ slotInconsistent (getDelSets s i).2 i nn := by
  have hl := getDelSetsLoop_flag s.neighMax s.cellNeighborNum s.cellNeighbors i
    (s.cellNeighborNum i).toNat 0
    (s.cellNeighbors (n_idx s.neighMax (s.cellNeighborNum i - 3) i))
    (s.cellNeighbors (n_idx s.neighMax (s.cellNeighborNum i - 2) i))
    (s.cellNeighbors (n_idx s.neighMax (s.cellNeighborNum i - 1) i)) s.delSets s.delOther
  constructor
  · intro h nn h0 h1
    rw [slotInconsistent_getDelSets_iff]
    have := hl.1 h nn.toNat (by omega)
    have e : (0 : Int) + (nn.toNat : Int) = nn := by omega
    rw [e] at this
    exact this
  · intro h
    by_contra hne
    have hfalse : (getDelSets s i).1 = false := by
      cases hb : (getDelSets s i).1 with
      | true => exact absurd hb hne
      | false => rfl
    obtain ⟨m, hm, hb⟩ := hl.2 hfalse
    have e : (0 : Int) + (m : Int) = (m : Int) := by omega
    rw [e] at hb
    exact h m (by omega) (by omega) ((slotInconsistent_getDelSets_iff s i m).2 hb)

end DelSetsState

section Window

variable (M : Int) (neighnum ns : Int → Int) (i : Int)

/-- A slot that the loop reaches holds, after the loop, the pair `nm1`, `n1` of its
iteration. -/
theorem getDelSetsLoop_reached (rem : Nat) :
    ∀ (m : Nat) (nn nm2 nm1 n1 : Int) (ds : Int → int2) (dother : Int → Int), m < rem →
      (getDelSetsLoop M neighnum ns i m nn nm2 nm1 n1 ds dother).1 = true →
      (getDelSetsLoop M neighnum ns i rem nn nm2 nm1 n1 ds dother).2.1 (n_idx M (nn + m) i) =
        if m = 0 then ⟨nm1, n1⟩
        else if m = 1 then ⟨n1, ns (n_idx M nn i)⟩
        else ⟨ns (n_idx M (nn + m - 2) i), ns (n_idx M (nn + m - 1) i)⟩ := by
  induction rem with
  | zero => intro m nn nm2 nm1 n1 ds dother hm; exact absurd hm (Nat.not_lt_zero m)
  | succ rem ih =>
    intro m nn nm2 nm1 n1 ds dother hm hr
    cases m with
    | zero =>
      have e0 : nn + ((0 : Nat) : Int) = nn := by simp
      rw [e0, getDelSetsLoop_succ, if_pos rfl]
      by_cases hf : slotFails i nm1 n1
          ((lookupDelOther M neighnum ns nm1 n1).getD (dother (n_idx M nn i)))
      · rw [if_pos hf]
        simp only [Function.update_same]
      · rw [if_neg hf]
        have hfr := getDelSetsLoop_frame M neighnum ns i rem (nn + 1) nm1 n1 (ns (n_idx M nn i))
          (Function.update ds (n_idx M nn i) ⟨nm1, n1⟩)
          (Function.update dother (n_idx M nn i)
            ((lookupDelOther M neighnum ns nm1 n1).getD (dother (n_idx M nn i))))
          (n_idx M nn i) (by intro m _ h; have := n_idx_inj M i _ _ h; omega)
        rw [hfr.1, Function.update_same]
    | succ m =>
      rw [getDelSetsLoop_succ] at hr ⊢
      by_cases hf : slotFails i nm1 n1
          ((lookupDelOther M neighnum ns nm1 n1).getD (dother (n_idx M nn i)))
      · rw [if_pos hf] at hr
        simp at hr
      · rw [if_neg hf] at hr ⊢
        have e : nn + ((m + 1 : Nat) : Int) = nn + 1 + (m : Int) := by push_cast; ring
        rw [e, ih m (nn + 1) nm1 n1 (ns (n_idx M nn i)) _ _ (Nat.lt_of_succ_lt_succ hm) hr]
        by_cases h0 : m = 0
        · subst h0; simp
        · by_cases h1 : m = 1
          · subst h1
            have e5 : nn + 1 + 1 - 2 = nn := by ring
            simp [e5]
          · have e2 : nn + 1 + (m : Int) - 2 = nn + ((m + 1 : Nat) : Int) - 2 := by
              push_cast; ring
            have e3 : nn + 1 + (m : Int) - 1 = nn + ((m + 1 : Nat) : Int) - 1 := by
              push_cast; ring
            rw [if_neg h0, if_neg h1, if_neg (Nat.succ_ne_zero m),
              if_neg (by omega : ¬ (m + 1 = 1)), e2, e3]

end Window

section WindowState

variable {F X : Type}

theorem getDelSets_delSets_reached (s : SPV2D F X) (i : Int) (nn : Nat)
    (hnn : (nn : Int) < s.cellNeighborNum i) (hr : reachesSlot s i nn) :
    (getDelSets s i).2.delSets (n_idx s.neighMax nn i) = windowAt s i nn := by
  have h := getDelSetsLoop_reached s.neighMax s.cellNeighborNum s.cellNeighbors i
    (s.cellNeighborNum i).toNat nn 0
    (s.cellNeighbors (n_idx s.neighMax (s.cellNeighborNum i - 3) i))
    (s.cellNeighbors (n_idx s.neighMax (s.cellNeighborNum i - 2) i))
    (s.cellNeighbors (n_idx s.neighMax (s.cellNeighborNum i - 1) i)) s.delSets s.delOther
    (by omega) hr
  have e : (0 : Int) + (nn : Int) = (nn : Int) := by omega
  rw [e] at h
  show (getDelSetsUpTo s i (s.cellNeighborNum i).toNat).2.1 (n_idx s.neighMax nn i) = _
  unfold getDelSetsUpTo
  simp only []
  rw [h]
  unfold windowAt nbr
  by_cases h0 : nn = 0
  · subst h0; simp
  · by_cases h1 : nn = 1
    · subst h1; simp
    · have h0' : (nn : Int) ≠ 0 := by omega
      have h1' : (nn : Int) ≠ 1 := by omega
      simp [h0, h1, h0', h1']

theorem neg_emod_of_le (a k : Int) (h0 : a < 0) (h1 : 0 ≤ a + k) : a % k = a + k := by
  have h := (@Int.add_emod_self a k).symm
  have h2 : (a + k) % k = a + k := Int.emod_eq_of_lt h1 (by omega)
  rw [h, h2]

theorem windowAt_eq_mod (s : SPV2D F X) (i nn : Int) (hk : 2 ≤ s.cellNeighborNum i)
    (h0 : 0 ≤ nn) (h1 : nn < s.cellNeighborNum i) :
    windowAt s i nn =
      ⟨nbr s i ((nn - 2) % s.cellNeighborNum i), nbr s i ((nn - 1) % s.cellNeighborNum i)⟩ := by
  unfold windowAt
  simp only []
  generalize s.cellNeighborNum i = k at hk h1
  by_cases c0 : nn = 0
  · subst c0
    have a : ((0 : Int) - 2) % k = k - 2 := by
      rw [neg_emod_of_le _ k (by omega) (by omega)]; ring
    have b : ((0 : Int) - 1) % k = k - 1 := by
      rw [neg_emod_of_le _ k (by omega) (by omega)]; ring
    rw [a, b, if_pos rfl]
  · by_cases c1 : nn = 1
    · subst c1
      have a : ((1 : Int) - 2) % k = k - 1 := by
        rw [neg_emod_of_le _ k (by omega) (by omega)]; ring
      have b : ((1 : Int) - 1) % k = 0 := by simp
      rw [a, b, if_neg c0, if_pos rfl]
    · have a : (nn - 2) % k = nn - 2 := Int.emod_eq_of_lt (by omega) (by omega)
      have b : (nn - 1) % k = nn - 1 := Int.emod_eq_of_lt (by omega) (by omega)
      rw [a, b, if_neg c0, if_neg c1]

end WindowState

section Lookup

variable (M : Int) (neighnum ns : Int → Int) (i : Int)

theorem windowFrom_succ (nn nm1 n1 : Int) (m : Nat) :
    windowFrom M ns i (nn + 1) n1 (ns (n_idx M nn i)) m = windowFrom M ns i nn nm1 n1 (m + 1) := by
  unfold windowFrom
  by_cases h0 : m = 0
  · subst h0; simp
  · by_cases h1 : m = 1
    · subst h1
      have e5 : nn + 1 + 1 - 2 = nn := by ring
      have e6 : nn + 2 - 1 = nn + 1 := by ring
      simp [e5, e6]
    · have e2 : nn + 1 + (m : Int) - 2 = nn + ((m + 1 : Nat) : Int) - 2 := by
        push_cast; ring
      have e3 : nn + 1 + (m : Int) - 1 = nn + ((m + 1 : Nat) : Int) - 1 := by
        push_cast; ring
      rw [if_neg h0, if_neg h1, if_neg (Nat.succ_ne_zero m),
        if_neg (by omega : ¬ (m + 1 = 1)), e2, e3]

/-- The loop returns true when the lookup of every slot succeeds with a value that passes
the test of line 142. -/
theorem getDelSetsLoop_true_of_pass (rem : Nat) :
    ∀ (nn nm2 nm1 n1 : Int) (ds : Int → int2) (dother : Int → Int),
      (∀ m : Nat, m < rem → ∃ v : Int,
        lookupDelOther M neighnum ns (windowFrom M ns i nn nm1 n1 m).x
          (windowFrom M ns i nn nm1 n1 m).y = some v
        ∧ ¬ slotFails i (windowFrom M ns i nn nm1 n1 m).x (windowFrom M ns i nn nm1 n1 m).y v) →
      (getDelSetsLoop M neighnum ns i rem nn nm2 nm1 n1 ds dother).1 = true := by
  induction rem with
  | zero => intro nn nm2 nm1 n1 ds dother _; simp [getDelSetsLoop]
  | succ rem ih =>
    intro nn nm2 nm1 n1 ds dother h
    rw [getDelSetsLoop_succ]
    obtain ⟨v, hv, hp⟩ := h 0 (Nat.succ_pos rem)
    have w0 : windowFrom M ns i nn nm1 n1 0 = ⟨nm1, n1⟩ := by simp [windowFrom]
    rw [w0] at hv hp
    simp only [] at hv hp
    rw [hv, Option.getD_some, if_neg hp]
    apply ih
    intro m hm
    rw [windowFrom_succ M ns i nn nm1 n1 m]
    exact h (m + 1) (Nat.succ_lt_succ hm)

/-- The loop returns false when the lookup of some slot yields the cell itself. -/
theorem getDelSetsLoop_false_of_self (rem : Nat) :
    ∀ (nn nm2 nm1 n1 : Int) (ds : Int → int2) (dother : Int → Int),
      (∃ m : Nat, m < rem ∧
        lookupDelOther M neighnum ns (windowFrom M ns i nn nm1 n1 m).x
          (windowFrom M ns i nn nm1 n1 m).y = some i) →
      (getDelSetsLoop M neighnum ns i rem nn nm2 nm1 n1 ds dother).1 = false := by
  induction rem with
  | zero => intro nn nm2 nm1 n1 ds dother h; obtain ⟨m, hm, _⟩ := h; exact absurd hm (Nat.not_lt_zero m)
  | succ rem ih =>
    intro nn nm2 nm1 n1 ds dother h
    rw [getDelSetsLoop_succ]
    by_cases hf : slotFails i nm1 n1
        ((lookupDelOther M neighnum ns nm1 n1).getD (dother (n_idx M nn i)))
    · rw [if_pos hf]
    · rw [if_neg hf]
      apply ih
      obtain ⟨m, hm, hv⟩ := h
      cases m with
      | zero =>
        exfalso
        have w0 : windowFrom M ns i nn nm1 n1 0 = ⟨nm1, n1⟩ := by simp [windowFrom]
        rw [w0] at hv
        simp only [] at hv
        rw [hv, Option.getD_some] at hf
        exact hf (Or.inr (Or.inr rfl))
      | succ m =>
        refine ⟨m, Nat.lt_of_succ_lt_succ hm, ?_⟩
        rw [windowFrom_succ M ns i nn nm1 n1 m]
        exact hv

/-- The scan of `findDelOther` stops at the first entry equal to `nm1`. -/
theorem findDelOther_first (n1 nm1 nextNeighs q : Int) (rem : Nat) :
    ∀ nn2 : Int, nn2 ≤ q → q < nn2 + rem →
      (∀ p : Int, nn2 ≤ p → p < q → ns (n_idx M p n1) ≠ nm1) →
      ns (n_idx M q n1) = nm1 →
      findDelOther M ns n1 nm1 nextNeighs rem nn2 =
        some (ns (n_idx M ((q + 1) % nextNeighs) n1)) := by
  induction rem with
  | zero => intro nn2 h1 h2; exfalso; simp at h2; omega
  | succ rem ih =>
    intro nn2 h1 h2 hno hq
    rw [findDelOther]
    by_cases hc : nn2 = q
    · subst hc
      simp [hq]
    · have hne : ns (n_idx M nn2 n1) ≠ nm1 := hno nn2 le_rfl (by omega)
      simp only [hne, if_false]
      apply ih (nn2 + 1) (by omega) (by push_cast at h2; omega)
      · intro p hp1 hp2; exact hno p (by omega) hp2
      · exact hq

end Lookup

section Consistent

variable {F X : Type}

theorem succ_emod (p k : Int) (h0 : 0 ≤ p) (h1 : p < k) :
    (p + 1) % k = if p + 1 = k then 0 else p + 1 := by
  by_cases h : p + 1 = k
  · rw [if_pos h, h, Int.emod_self]
  · rw [if_neg h]; exact Int.emod_eq_of_lt (by omega) (by omega)

theorem windowAt_eq_windowFrom (s : SPV2D F X) (i : Int) (m : Nat) :
    windowAt s i m =
      windowFrom s.neighMax s.cellNeighbors i 0
        (nbr s i (s.cellNeighborNum i - 2)) (nbr s i (s.cellNeighborNum i - 1)) m := by
  unfold windowAt windowFrom nbr
  by_cases h0 : m = 0
  · subst h0; simp
  · by_cases h1 : m = 1
    · subst h1; simp
    · have h0' : (m : Int) ≠ 0 := by omega
      have h1' : (m : Int) ≠ 1 := by omega
      simp [h0, h1, h0', h1']

/-- With internally consistent lists the lookup of every slot of every cell succeeds, and
its value differs from the cell and from both members of the slot's pair. -/
theorem consistent_slot_pass (s : SPV2D F X) (hc : ConsistentLists s) (i : Int)
    (hi0 : 0 ≤ i) (hi1 : i < s.Ncells) (nn : Int) (h0 : 0 ≤ nn)
    (h1 : nn < s.cellNeighborNum i) :
    ∃ v : Int,
      lookupDelOther s.neighMax s.cellNeighborNum s.cellNeighbors
        (windowAt s i nn).x (windowAt s i nn).y = some v
      ∧ ¬ slotFails i (windowAt s i nn).x (windowAt s i nn).y v := by
  obtain ⟨hk, hval, _, hback⟩ := hc i hi0 hi1
  rw [windowAt_eq_mod s i nn (by omega) h0 h1]
  simp only []
  have hkpos : (0 : Int) < s.cellNeighborNum i := by omega
  have hm0 : 0 ≤ (nn - 2) % s.cellNeighborNum i := Int.emod_nonneg _ (by omega)
  have hm1 : (nn - 2) % s.cellNeighborNum i < s.cellNeighborNum i := Int.emod_lt_of_pos _ hkpos
  have hsucc : ((nn - 2) % s.cellNeighborNum i + 1) % s.cellNeighborNum i
      = (nn - 1) % s.cellNeighborNum i := by
    rw [Int.emod_add_emod]; congr 1; ring
  obtain ⟨p, hp0, hp1, hpi, hpa⟩ := hback _ hm0 hm1
  rw [hsucc] at hp1 hpi hpa
  generalize hb : nbr s i ((nn - 1) % s.cellNeighborNum i) = b at hp1 hpi hpa ⊢
  generalize ha : nbr s i ((nn - 2) % s.cellNeighborNum i) = a at hpa ⊢
  have hbval := hval ((nn - 1) % s.cellNeighborNum i) (Int.emod_nonneg _ (by omega))
    (Int.emod_lt_of_pos _ hkpos)
  rw [hb] at hbval
  obtain ⟨hkb, hvalb, hnorep, _⟩ := hc b hbval.1 hbval.2.1
  generalize hkbdef : s.cellNeighborNum b = kb at hp1 hpa hkb hvalb hnorep
  have hq := succ_emod p kb hp0 hp1
  have hq0 : 0 ≤ (p + 1) % kb := Int.emod_nonneg _ (by omega)
  have hq1 : (p + 1) % kb < kb := Int.emod_lt_of_pos _ (by omega)
  have hq' := succ_emod ((p + 1) % kb) kb hq0 hq1
  have hq'0 : 0 ≤ ((p + 1) % kb + 1) % kb := Int.emod_nonneg _ (by omega)
  have hq'1 : ((p + 1) % kb + 1) % kb < kb := Int.emod_lt_of_pos _ (by omega)
  refine ⟨nbr s b (((p + 1) % kb + 1) % kb), ?_, ?_⟩
  · unfold lookupDelOther
    rw [hkbdef]
    apply findDelOther_first s.neighMax s.cellNeighbors b a kb ((p + 1) % kb) kb.toNat 0 hq0
      (by omega)
    · intro p' hp'0 hp'1 heq
      have := hnorep p' ((p + 1) % kb) hp'0 (by omega) hq0 hq1 (by unfold nbr; rw [heq]; exact hpa.symm)
      omega
    · exact hpa
  · rintro (h | h | h)
    · have := hnorep _ _ hq0 hq1 hq'0 hq'1 (hpa.trans h)
      rw [hq'] at this
      split_ifs at this <;> omega
    · exact (hvalb _ hq'0 hq'1).2.2 h.symm
    · have := hnorep _ _ hp0 hp1 hq'0 hq'1 (hpi.trans h)
      rw [hq', hq] at this
      split_ifs at this <;> omega

end Consistent

section Idempotent

variable (M : Int) (neighnum ns : Int → Int) (i : Int)

theorem getD_getD (o : Option Int) (x : Int) : o.getD (o.getD x) = o.getD x := by
  cases o <;> rfl

/-- Running the slot loop again on its own result changes nothing. -/
theorem getDelSetsLoop_idem (rem : Nat) :
    ∀ (nn nm2 nm1 n1 : Int) (ds : Int → int2) (dother : Int → Int),
      getDelSetsLoop M neighnum ns i rem nn nm2 nm1 n1
          (getDelSetsLoop M neighnum ns i rem nn nm2 nm1 n1 ds dother).2.1
          (getDelSetsLoop M neighnum ns i rem nn nm2 nm1 n1 ds dother).2.2
        = getDelSetsLoop M neighnum ns i rem nn nm2 nm1 n1 ds dother := by
  induction rem with
  | zero => intro nn nm2 nm1 n1 ds dother; simp [getDelSetsLoop]
  | succ rem ih =>
    intro nn nm2 nm1 n1 ds dother
    by_cases hf : slotFails i nm1 n1
        ((lookupDelOther M neighnum ns nm1 n1).getD (dother (n_idx M nn i)))
    · rw [getDelSetsLoop_succ M neighnum ns i rem nn nm2 nm1 n1 ds dother, if_pos hf]
      simp only []
      rw [getDelSetsLoop_succ, Function.update_same, getD_getD, if_pos hf,
        Function.update_idem, Function.update_idem]
    · rw [getDelSetsLoop_succ M neighnum ns i rem nn nm2 nm1 n1 ds dother, if_neg hf]
      have hfr := getDelSetsLoop_frame M neighnum ns i rem (nn + 1) nm1 n1 (ns (n_idx M nn i))
        (Function.update ds (n_idx M nn i) ⟨nm1, n1⟩)
        (Function.update dother (n_idx M nn i)
          ((lookupDelOther M neighnum ns nm1 n1).getD (dother (n_idx M nn i))))
        (n_idx M nn i) (by intro m _ h; have := n_idx_inj M i _ _ h; omega)
      rw [Function.update_same, Function.update_same] at hfr
      rw [getDelSetsLoop_succ, hfr.2, getD_getD, if_neg hf]
      have e1 := Function.update_eq_self (n_idx M nn i)
        (getDelSetsLoop M neighnum ns i rem (nn + 1) nm1 n1 (ns (n_idx M nn i))
          (Function.update ds (n_idx M nn i) ⟨nm1, n1⟩)
          (Function.update dother (n_idx M nn i)
            ((lookupDelOther M neighnum ns nm1 n1).getD (dother (n_idx M nn i))))).2.1
      have e2 := Function.update_eq_self (n_idx M nn i)
        (getDelSetsLoop M neighnum ns i rem (nn + 1) nm1 n1 (ns (n_idx M nn i))
          (Function.update ds (n_idx M nn i) ⟨nm1, n1⟩)
          (Function.update dother (n_idx M nn i)
            ((lookupDelOther M neighnum ns nm1 n1).getD (dother (n_idx M nn i))))).2.2
      rw [hfr.1] at e1
      rw [hfr.2] at e2
      rw [e1, e2]
      exact ih _ _ _ _ _ _

/-- Arrays that the slot loop leaves as they are stay a fixed point when entries outside
the visited slots change. -/
theorem getDelSetsLoop_fix_transfer (rem : Nat) :
    ∀ (nn nm2 nm1 n1 : Int) (ds ds' : Int → int2) (dother dother' : Int → Int) (b : Bool),
      getDelSetsLoop M neighnum ns i rem nn nm2 nm1 n1 ds dother = (b, ds, dother) →
      (∀ m : Nat, m < rem → ds' (n_idx M (nn + m) i) = ds (n_idx M (nn + m) i)
        ∧ dother' (n_idx M (nn + m) i) = dother (n_idx M (nn + m) i)) →
      getDelSetsLoop M neighnum ns i rem nn nm2 nm1 n1 ds' dother' = (b, ds', dother') := by
  induction rem with
  | zero =>
    intro nn nm2 nm1 n1 ds ds' dother dother' b h _
    simp [getDelSetsLoop] at h ⊢
    exact h
  | succ rem ih =>
    intro nn nm2 nm1 n1 ds ds' dother dother' b h hag
    have e0 : nn + ((0 : Nat) : Int) = nn := by simp
    have hag0 := hag 0 (Nat.succ_pos rem)
    rw [e0] at hag0
    rw [getDelSetsLoop_succ] at h ⊢
    rw [hag0.2]
    by_cases hf : slotFails i nm1 n1
        ((lookupDelOther M neighnum ns nm1 n1).getD (dother (n_idx M nn i)))
    · rw [if_pos hf] at h ⊢
      simp only [Prod.mk.injEq] at h
      obtain ⟨hb, hds, hdo⟩ := h
      have h1 : ds (n_idx M nn i) = ⟨nm1, n1⟩ := by
        rw [← hds]; exact Function.update_same _ _ _
      have h2 : dother (n_idx M nn i)
          = (lookupDelOther M neighnum ns nm1 n1).getD (dother (n_idx M nn i)) := by
        conv_lhs => rw [← hdo]
        exact Function.update_same _ _ _
      rw [← h1, ← hag0.1, Function.update_eq_self, ← h2, ← hag0.2, Function.update_eq_self, hb]
    · rw [if_neg hf] at h ⊢
      have hfr := getDelSetsLoop_frame M neighnum ns i rem (nn + 1) nm1 n1 (ns (n_idx M nn i))
        (Function.update ds (n_idx M nn i) ⟨nm1, n1⟩)
        (Function.update dother (n_idx M nn i)
          ((lookupDelOther M neighnum ns nm1 n1).getD (dother (n_idx M nn i))))
        (n_idx M nn i) (by intro m _ h; have := n_idx_inj M i _ _ h; omega)
      rw [h, Function.update_same, Function.update_same] at hfr
      simp only [] at hfr
      have h1 : ds (n_idx M nn i) = ⟨nm1, n1⟩ := hfr.1
      have h2 : dother (n_idx M nn i)
          = (lookupDelOther M neighnum ns nm1 n1).getD (dother (n_idx M nn i)) := hfr.2
      rw [← h1, ← h2, Function.update_eq_self, Function.update_eq_self] at h
      rw [← h1, ← hag0.1, Function.update_eq_self, ← h2, ← hag0.2, Function.update_eq_self]
      apply ih (nn + 1) nm1 n1 _ ds ds' dother dother' b h
      intro m hm
      have e : nn + 1 + (m : Int) = nn + ((m + 1 : Nat) : Int) := by push_cast; ring
      rw [e]
      exact hag (m + 1) (Nat.succ_lt_succ hm)

theorem n_idx_inj_cell (m m' c c' : Int) (h0 : 0 ≤ m) (h1 : m < M) (h0' : 0 ≤ m')
    (h1' : m' < M) (h : n_idx M m c = n_idx M m' c') : c = c' := by
  unfold n_idx at h
  have hM : 0 < M := by omega
  have e : (c - c') * M = m' - m := by linarith
  by_contra hne
  rcases lt_or_gt_of_ne hne with hlt | hgt
  · have : (c - c') * M ≤ -1 * M := by
      apply mul_le_mul_of_nonneg_right (by omega) (le_of_lt hM)
    omega
  · have : 1 * M ≤ (c - c') * M := by
      apply mul_le_mul_of_nonneg_right (by omega) (le_of_lt hM)
    omega

end Idempotent

/-! Lemmas on `allDelSets`. -/

section AllDelSets

variable {F X : Type}

theorem getDelSets_snd_eq (t : SPV2D F X) (c : Int)
    (h1 : (getDelSetsUpTo t c (t.cellNeighborNum c).toNat).2.1 = t.delSets)
    (h2 : (getDelSetsUpTo t c (t.cellNeighborNum c).toNat).2.2 = t.delOther) :
    (getDelSets t c).2 = t := by
  unfold getDelSets
  simp only []
  rw [h1, h2]

theorem getDelSets_stable_self (t : SPV2D F X) (c : Int) :
    (getDelSets (getDelSets t c).2 c).2 = (getDelSets t c).2 := by
  apply getDelSets_snd_eq
  · have h := getDelSetsLoop_idem t.neighMax t.cellNeighborNum t.cellNeighbors c
      (t.cellNeighborNum c).toNat 0
      (t.cellNeighbors (n_idx t.neighMax (t.cellNeighborNum c - 3) c))
      (t.cellNeighbors (n_idx t.neighMax (t.cellNeighborNum c - 2) c))
      (t.cellNeighbors (n_idx t.neighMax (t.cellNeighborNum c - 1) c)) t.delSets t.delOther
    exact congrArg (fun r => r.2.1) h
  · have h := getDelSetsLoop_idem t.neighMax t.cellNeighborNum t.cellNeighbors c
      (t.cellNeighborNum c).toNat 0
      (t.cellNeighbors (n_idx t.neighMax (t.cellNeighborNum c - 3) c))
      (t.cellNeighbors (n_idx t.neighMax (t.cellNeighborNum c - 2) c))
      (t.cellNeighbors (n_idx t.neighMax (t.cellNeighborNum c - 1) c)) t.delSets t.delOther
    exact congrArg (fun r => r.2.2) h

theorem getDelSets_stable_other (t : SPV2D F X) (c c' : Int) (hne : c ≠ c')
    (hc : t.cellNeighborNum c ≤ t.neighMax) (hc' : t.cellNeighborNum c' ≤ t.neighMax)
    (hst : (getDelSets t c').2 = t) :
    (getDelSets (getDelSets t c).2 c').2 = (getDelSets t c).2 := by
  have hfix : getDelSetsLoop t.neighMax t.cellNeighborNum t.cellNeighbors c'
      (t.cellNeighborNum c').toNat 0
      (t.cellNeighbors (n_idx t.neighMax (t.cellNeighborNum c' - 3) c'))
      (t.cellNeighbors (n_idx t.neighMax (t.cellNeighborNum c' - 2) c'))
      (t.cellNeighbors (n_idx t.neighMax (t.cellNeighborNum c' - 1) c')) t.delSets t.delOther
      = ((getDelSets t c').1, t.delSets, t.delOther) := by
    have h1 : (getDelSets t c').2.delSets = t.delSets := by rw [hst]
    have h2 : (getDelSets t c').2.delOther = t.delOther := by rw [hst]
    exact Prod.ext rfl (Prod.ext h1 h2)
  have hag : ∀ m : Nat, m < (t.cellNeighborNum c').toNat →
      (getDelSets t c).2.delSets (n_idx t.neighMax (0 + m) c')
          = t.delSets (n_idx t.neighMax (0 + m) c')
        ∧ (getDelSets t c).2.delOther (n_idx t.neighMax (0 + m) c')
          = t.delOther (n_idx t.neighMax (0 + m) c') := by
    intro m hm
    apply getDelSetsLoop_frame t.neighMax t.cellNeighborNum t.cellNeighbors c
      (t.cellNeighborNum c).toNat 0
    intro m' hm' heq
    exact hne (n_idx_inj_cell t.neighMax _ _ _ _ (by omega) (by omega) (by omega) (by omega) heq).symm
  have h := getDelSetsLoop_fix_transfer t.neighMax t.cellNeighborNum t.cellNeighbors c'
    (t.cellNeighborNum c').toNat 0 _ _ _ t.delSets (getDelSets t c).2.delSets t.delOther
    (getDelSets t c).2.delOther _ hfix hag
  apply getDelSets_snd_eq
  · exact congrArg (fun r => r.2.1) h
  · exact congrArg (fun r => r.2.2) h

theorem allDelSetsLoop_base (rem : Nat) :
    ∀ (ii : Int) (t : SPV2D F X),
      (allDelSetsLoop rem ii t).toDelaunayMD = t.toDelaunayMD := by
  induction rem with
  | zero => intro ii t; rfl
  | succ rem ih => intro ii t; rw [allDelSetsLoop, ih]; rfl

/-- After the cell loop of `allDelSets`, a call of `getDelSets` on any cell it has
handled changes nothing. -/
theorem allDelSetsLoop_stable (rem : Nat) :
    ∀ (ii : Int) (t : SPV2D F X), 0 ≤ ii →
      (∀ c : Int, 0 ≤ c → c < ii + rem → t.cellNeighborNum c ≤ t.neighMax) →
      (∀ c : Int, 0 ≤ c → c < ii → (getDelSets t c).2 = t) →
      ∀ c : Int, 0 ≤ c → c < ii + rem →
        (getDelSets (allDelSetsLoop rem ii t) c).2 = allDelSetsLoop rem ii t := by
  induction rem with
  | zero =>
    intro ii t _ _ hst c h0 h1
    exact hst c h0 (by simpa using h1)
  | succ rem ih =>
    intro ii t hii hwf hst c h0 h1
    rw [allDelSetsLoop]
    have e : ii + ((rem + 1 : Nat) : Int) = ii + 1 + (rem : Int) := by push_cast; ring
    rw [e] at h1 hwf
    apply ih (ii + 1) (getDelSets t ii).2 (by omega) hwf _ c h0 h1
    intro c' hc0 hc1
    by_cases hcc : c' = ii
    · subst hcc; exact getDelSets_stable_self t c'
    · exact getDelSets_stable_other t ii c' (Ne.symm hcc) (hwf ii hii (by omega))
        (hwf c' hc0 (by omega)) (hst c' hc0 (by omega))

theorem allDelSetsLoop_of_stable (rem : Nat) :
    ∀ (ii : Int) (t : SPV2D F X),
      (∀ c : Int, ii ≤ c → c < ii + rem → (getDelSets t c).2 = t) →
      allDelSetsLoop rem ii t = t := by
  induction rem with
  | zero => intro ii t _; rfl
  | succ rem ih =>
    intro ii t hst
    rw [allDelSetsLoop, hst ii le_rfl (by push_cast; omega)]
    apply ih
    intro c hc0 hc1
    exact hst c (by omega) (by push_cast; omega)

theorem getDelSets_hidden (t : SPV2D F X) (c : Int) (h : X) (hst : (getDelSets t c).2 = t) :
    (getDelSets { t with hidden := h } c).2 = { t with hidden := h } := by
  have e : (getDelSets { t with hidden := h } c).2 = { (getDelSets t c).2 with hidden := h } := rfl
  rw [e, hst]

theorem allDelSets_eq (E : Env F X) (s : SPV2D F X) :
    allDelSets E s
      = allDelSetsLoop s.Ncells.toNat 0 { s with hidden := E.updateNeighIdxs s.toDelaunayMD } :=
  rfl

end AllDelSets

/-! Lemmas on the step routines. -/

section LocalRepair

variable {F X : Type}

theorem localRepairLoop_eq (l : List Int) :
    ∀ (localFail : Bool) (s : SPV2D F X) (log : List Event),
      localRepairLoop l localFail s log =
        (localFail || decide (false ∈ repairResults l s), repairState l s,
          log ++ List.zipWith Event.getDelSets l (repairResults l s)) := by
  induction l with
  | nil => intro localFail s log; simp [localRepairLoop, repairResults, repairState]
  | cons j rest ih =>
    intro localFail s log
    rw [localRepairLoop, ih]
    cases h : (getDelSets s j).1 <;> cases localFail <;>
      simp [repairResults, repairState, h]

theorem repairResults_length (l : List Int) :
    ∀ s : SPV2D F X, (repairResults l s).length = l.length := by
  induction l with
  | nil => intro s; rfl
  | cons j rest ih => intro s; simp [repairResults, ih]

end LocalRepair

section Control

variable {F X : Type}

theorem allDelSets_neighMaxChange (E : Env F X) (s : SPV2D F X) :
    (allDelSets E s).neighMaxChange = s.neighMaxChange := by
  show (allDelSets E s).toDelaunayMD.neighMaxChange = _
  rw [allDelSets_eq, allDelSetsLoop_base]

theorem gpuCompute_control (E : Env F X) (s : SPV2D F X) :
    control (DisplacePointsAndRotate E (SumForcesGPU E (ComputeForceSetsGPU E
      (computeGeometryGPU E s)))) = control s := by
  unfold DisplacePointsAndRotate SumForcesGPU sumForceSets sumForceSetsWithExclusions
    ComputeForceSetsGPU computeSPVForceSetsGPU computeGeometryGPU
  simp only []
  split_ifs <;> rfl

theorem gpuAfterTest_control (E : Env F X) (s : SPV2D F X) :
    control (gpuAfterTest E s) = control s := by
  unfold gpuAfterTest
  rw [← gpuCompute_control E s]
  rfl

end Control

section ControlCPU

variable {F X : Type} [Add F] [Sub F] [Mul F] [Div F] [Neg F] [OfScientific F] [LT F]
  [DecidableRel (fun a b : F => a < b)]

omit [Div F] [Neg F] [LT F] [DecidableRel (fun a b : F => a < b)] in
theorem computeGeometryLoop_control (E : Env F X) (rem : Nat) :
    ∀ (i : Int) (s : SPV2D F X), control (computeGeometryLoop E rem i s) = control s := by
  induction rem with
  | zero => intro i s; rfl
  | succ rem ih => intro i s; rw [computeGeometryLoop, ih]; rfl

theorem computeSPVForceCPU_control (E : Env F X) (s : SPV2D F X) (i : Int) :
    control (computeSPVForceCPU E s i).get = control s := by
  unfold computeSPVForceCPU
  cases forceSumCPU E s i with
  | none => rfl
  | some f =>
    simp only []
    split_ifs <;> rfl

theorem forceLoopCPU_control (E : Env F X) (rem : Nat) :
    ∀ (ii : Int) (r : Logged F X),
      control (forceLoopCPU E rem ii r).get.state = control r.state := by
  induction rem with
  | zero => intro ii r; rfl
  | succ rem ih =>
    intro ii r
    rw [forceLoopCPU]
    have h := computeSPVForceCPU_control E r.state ii
    cases hc : computeSPVForceCPU E r.state ii with
    | returned s1 =>
      simp only []
      rw [ih]
      rw [hc] at h
      exact h
    | threw s1 =>
      simp only []
      rw [hc] at h
      exact h

theorem cpuMove_control (E : Env F X) (s : SPV2D F X) :
    control (cpuMove E s).get.state = control s := by
  unfold cpuMove
  simp only []
  have h1 : control (computeGeometryCPU E s) = control s := computeGeometryLoop_control E _ _ _
  have h2 := forceLoopCPU_control E (computeGeometryCPU E s).Ncells.toNat 0
    ⟨computeGeometryCPU E s, [Event.computeGeometryCPU]⟩
  cases hc : forceLoopCPU E (computeGeometryCPU E s).Ncells.toNat 0
      ⟨computeGeometryCPU E s, [Event.computeGeometryCPU]⟩ with
  | returned r =>
    rw [hc] at h2
    simp only [Outcome.get] at h2 ⊢
    rw [← h1, ← h2]
    rfl
  | threw r =>
    rw [hc] at h2
    simp only [Outcome.get] at h2 ⊢
    rw [← h1, ← h2]

end ControlCPU

section Step

variable {F X : Type}

end Step

section StepCPU

variable {F X : Type} [Add F] [Sub F] [Mul F] [Div F] [Neg F] [OfScientific F] [LT F]
  [DecidableRel (fun a b : F => a < b)]

/-- At the largest `int` the increment wraps around to the smallest. -/
theorem wrapInt_max : wrapInt (2147483647 + 1) = -2147483648 := by decide

theorem wrapInt_range (x : Int) : -2147483648 ≤ wrapInt x ∧ wrapInt x ≤ 2147483647 := by
  unfold wrapInt
  omega

end StepCPU

/-! Lemmas on the force and displacement routines. -/

section Exclusion

variable {F X : Type} [Add F] [Sub F] [Mul F] [Div F] [Neg F] [OfScientific F] [LT F]
  [DecidableRel (fun a b : F => a < b)]

omit [LT F] [DecidableRel (fun a b : F => a < b)] in
theorem dhdriLoop_exclusions (E : Env F X) (s : SPV2D F X) (ex : Int → Int) (i : Int)
    (pi : Dscalar2 F) (rem : Nat) :
    ∀ (nn : Int) (rij : Dscalar2 F) (voro : Int → Dscalar2 F) (dhdri : Int → Matrix2x2 F),
      dhdriLoop E { s with exclusions := ex } i pi rem nn rij voro dhdri
        = dhdriLoop E s i pi rem nn rij voro dhdri := by
  induction rem with
  | zero => intro nn rij voro dhdri; rfl
  | succ rem ih =>
    intro nn rij voro dhdri
    rw [dhdriLoop, dhdriLoop]
    exact ih _ _ _ _

omit [Neg F] in
theorem forceLoop_exclusions (E : Env F X) (s : SPV2D F X) (ex : Int → Int) (i neigh : Int)
    (pi : Dscalar2 F) (Adiff Pdiff : F) (voro : Int → Dscalar2 F)
    (dhdri : Int → Matrix2x2 F) (rem : Nat) :
    ∀ (nn : Int) (vlast forceSum : Dscalar2 F),
      forceLoop E { s with exclusions := ex } i neigh pi Adiff Pdiff voro dhdri rem nn vlast
          forceSum
        = forceLoop E s i neigh pi Adiff Pdiff voro dhdri rem nn vlast forceSum := by
  induction rem with
  | zero => intro nn vlast forceSum; rfl
  | succ rem ih =>
    intro nn vlast forceSum
    rw [forceLoop, forceLoop]
    simp only [ih]
    rfl

/-- The value of `forceSum` does not depend on the exclusion flags. -/
theorem forceSumCPU_exclusions (E : Env F X) (s : SPV2D F X) (ex : Int → Int) (i : Int) :
    forceSumCPU E { s with exclusions := ex } i = forceSumCPU E s i := by
  unfold forceSumCPU
  simp only []
  rw [dhdriLoop_exclusions, forceLoop_exclusions]

end Exclusion

section Displacement

variable {F X : Type} [Add F] [Sub F] [Mul F] [Div F] [Neg F] [OfScientific F] [LT F]
  [DecidableRel (fun a b : F => a < b)]

omit [Sub F] [Div F] [Neg F] [LT F] [DecidableRel (fun a b : F => a < b)] in
/-- The loop of `calculateDispCPU` handles every cell of its range once: it stores the
displacement computed from the system-wide `v0` and rotates the director by the cell's
own diffusion rate; the entries of the other cells stay as they are. -/
theorem calculateDispLoop_cell (E : Env F X) (s : SPV2D F X) (rem : Nat) :
    ∀ (ii0 : Int) (h_cd : Int → F) (h_disp : Int → Dscalar2 F) (j : Int),
      ((ii0 ≤ j ∧ j < ii0 + rem) →
        (calculateDispLoop E s rem ii0 h_cd h_disp).2 j =
            ⟨s.deltaT * (s.v0 * E.cos (h_cd j) + (s.forces j).x),
              s.deltaT * (s.v0 * E.sin (h_cd j) + (s.forces j).y)⟩
          ∧ (calculateDispLoop E s rem ii0 h_cd h_disp).1 j =
            h_cd j + E.normal j * E.sqrt (2.0 * s.deltaT * (s.Motility j).y))
      ∧ (¬ (ii0 ≤ j ∧ j < ii0 + rem) →
        (calculateDispLoop E s rem ii0 h_cd h_disp).2 j = h_disp j
          ∧ (calculateDispLoop E s rem ii0 h_cd h_disp).1 j = h_cd j) := by
  induction rem with
  | zero =>
    intro ii0 h_cd h_disp j
    refine ⟨fun h => ?_, fun _ => ⟨rfl, rfl⟩⟩
    exfalso
    have h2 : j < ii0 + ((0 : Nat) : Int) := h.2
    have h3 := h.1
    omega
  | succ rem ih =>
    intro ii0 h_cd h_disp j
    rw [calculateDispLoop]
    have e : ii0 + ((rem + 1 : Nat) : Int) = ii0 + 1 + (rem : Int) := by push_cast; ring
    rw [e]
    by_cases hj : j = ii0
    · subst hj
      have hout : ¬ (j + 1 ≤ j ∧ j < j + 1 + (rem : Int)) := by omega
      have h := (ih (j + 1)
        (Function.update h_cd j (h_cd j + E.normal j * E.sqrt (2.0 * s.deltaT * (s.Motility j).y)))
        (Function.update h_disp j
          ⟨s.deltaT * (s.v0 * E.cos (h_cd j) + (s.forces j).x),
            s.deltaT * (s.v0 * E.sin (h_cd j) + (s.forces j).y)⟩) j).2 hout
      rw [Function.update_same, Function.update_same] at h
      exact ⟨fun _ => h, fun hn => absurd (by omega) hn⟩
    · have h := ih (ii0 + 1)
        (Function.update h_cd ii0
          (h_cd ii0 + E.normal ii0 * E.sqrt (2.0 * s.deltaT * (s.Motility ii0).y)))
        (Function.update h_disp ii0
          ⟨s.deltaT * (s.v0 * E.cos (h_cd ii0) + (s.forces ii0).x),
            s.deltaT * (s.v0 * E.sin (h_cd ii0) + (s.forces ii0).y)⟩) j
      rw [Function.update_noteq hj, Function.update_noteq hj] at h
      refine ⟨fun hin => h.1 ⟨by omega, hin.2⟩, fun hn => h.2 (fun hin => hn ⟨by omega, hin.2⟩)⟩

omit [Sub F] [Div F] [Neg F] [LT F] [DecidableRel (fun a b : F => a < b)] in
/-- What `calculateDispCPU` stores for a cell `ii`: the displacement
`deltaT * (v0 * (cos θ, sin θ) + force)` with the system-wide speed `v0` and the director
`θ` before the update, and the director `θ + g * sqrt(2 * deltaT * Dr_ii)` with the cell's
own rate `Dr_ii = Motility[ii].y`. -/
theorem calculateDispCPU_cell (E : Env F X) (s : SPV2D F X) (ii : Int) (h0 : 0 ≤ ii)
    (h1 : ii < s.Ncells) :
    (calculateDispCPU E s).displacements ii =
        ⟨s.deltaT * (s.v0 * E.cos (s.cellDirectors ii) + (s.forces ii).x),
          s.deltaT * (s.v0 * E.sin (s.cellDirectors ii) + (s.forces ii).y)⟩
      ∧ (calculateDispCPU E s).cellDirectors ii =
        s.cellDirectors ii + E.normal ii * E.sqrt (2.0 * s.deltaT * (s.Motility ii).y) := by
  have h := (calculateDispLoop_cell E s s.Ncells.toNat 0 s.cellDirectors s.displacements ii).1
    ⟨h0, by omega⟩
  exact h

end Displacement

/-! The claims. -/

section Claims

variable {F X : Type}

/-- C1 (as stated, refuted): in the tetrahedral triangulation, where cell 0 has the three
neighbours 1, 2, 3, `getDelSets(0)` reaches slot 0 and stores there the pair (2, 3); the
cyclically previous neighbour and the neighbour of slot 0 are (3, 1). -/
theorem getDelSets_slot_not_prev_cur :
    3 ≤ tetra.cellNeighborNum 0 ∧ reachesSlot tetra 0 0
      ∧ (getDelSets tetra 0).2.delSets (n_idx tetra.neighMax 0 0) = ⟨2, 3⟩
      ∧ (⟨nbr tetra 0 ((0 - 1) % tetra.cellNeighborNum 0), nbr tetra 0 0⟩ : int2) = ⟨3, 1⟩
      ∧ (getDelSets tetra 0).2.delSets (n_idx tetra.neighMax 0 0)
        ≠ ⟨nbr tetra 0 ((0 - 1) % tetra.cellNeighborNum 0), nbr tetra 0 0⟩ := by
  decide

/-- C1 (amended): for a cell `i` with `k ≥ 3` neighbours `n_0..n_{k-1}` and a slot `nn < k`
that `getDelSets(i)` reaches, the DelSet stored at slot `nn` is the pair
`(n_{(nn-2) mod k}, n_{(nn-1) mod k})` of the two neighbours that cyclically precede the
slot. -/
theorem getDelSets_slot_pair (s : SPV2D F X) (i : Int) (nn : Nat)
    (hk : 3 ≤ s.cellNeighborNum i) (hnn : (nn : Int) < s.cellNeighborNum i)
    (hr : reachesSlot s i nn) :
    (getDelSets s i).2.delSets (n_idx s.neighMax nn i) =
      ⟨nbr s i (((nn : Int) - 2) % s.cellNeighborNum i),
        nbr s i (((nn : Int) - 1) % s.cellNeighborNum i)⟩ := by
  rw [getDelSets_delSets_reached s i nn hnn hr]
  exact windowAt_eq_mod s i nn (by omega) (by omega) hnn

/-- Witness of C1 (amended): slot 2 of cell 0 of the tetrahedral triangulation. -/
theorem getDelSets_slot_pair_witness :
    3 ≤ tetra.cellNeighborNum 0 ∧ ((2 : Nat) : Int) < tetra.cellNeighborNum 0
      ∧ reachesSlot tetra 0 2
      ∧ (getDelSets tetra 0).2.delSets (n_idx tetra.neighMax (2 : Nat) 0) =
        ⟨nbr tetra 0 ((((2 : Nat) : Int) - 2) % tetra.cellNeighborNum 0),
          nbr tetra 0 ((((2 : Nat) : Int) - 1) % tetra.cellNeighborNum 0)⟩ :=
  ⟨by decide, by decide, by decide,
    getDelSets_slot_pair tetra 0 2 (by decide) (by decide) (by decide)⟩

/-- C2: `getDelSets(i)` returns false if and only if, after the call, some slot
`nn < neigh(i)` of cell `i` has a DelOther equal to the cell `i` or to a member of the slot's
DelSet; it returns true exactly when no slot of cell `i` has. -/
theorem getDelSets_false_iff_inconsistent (s : SPV2D F X) (i : Int) :
    ((getDelSets s i).1 = false ↔
        ∃ nn : Int, 0 ≤ nn ∧ nn < s.cellNeighborNum i ∧ slotInconsistent (getDelSets s i).2 i nn)
      ∧ ((getDelSets s i).1 = true ↔
        ∀ nn : Int, 0 ≤ nn → nn < s.cellNeighborNum i →
          ¬ slotInconsistent (getDelSets s i).2 i nn) := by
  refine ⟨?_, getDelSets_true_iff_aux s i⟩
  have h := getDelSets_true_iff_aux s i
  constructor
  · intro hf
    by_contra hne
    have : (getDelSets s i).1 = true :=
      h.2 (fun nn h0 h1 hb => hne ⟨nn, h0, h1, hb⟩)
    rw [hf] at this
    exact Bool.noConfusion this
  · rintro ⟨nn, h0, h1, hb⟩
    cases hv : (getDelSets s i).1 with
    | false => rfl
    | true => exact absurd hb (h.1 hv nn h0 h1)

/-- C3: when the neighbour lists are internally consistent, `getDelSets(i)` returns true
for every cell `i`, whatever `delSets` and `delOther` held before; and whenever the lookup
of some slot of cell `i` resolves DelOther to `i` itself, `getDelSets(i)` returns false. -/
theorem getDelSets_consistent_true_self_false (s : SPV2D F X) (i : Int) :
    (ConsistentLists s → 0 ≤ i → i < s.Ncells →
        ∀ (ds : Int → int2) (dother : Int → Int),
          (getDelSets { s with delSets := ds, delOther := dother } i).1 = true)
      ∧ ((∃ nn : Int, 0 ≤ nn ∧ nn < s.cellNeighborNum i
          ∧ lookupDelOther s.neighMax s.cellNeighborNum s.cellNeighbors
              (windowAt s i nn).x (windowAt s i nn).y = some i) →
        (getDelSets s i).1 = false) := by
  constructor
  · intro hc hi0 hi1 ds dother
    apply getDelSetsLoop_true_of_pass
    intro m hm
    have h := consistent_slot_pass s hc i hi0 hi1 m (by omega)
      (by have : (m : Int) < s.cellNeighborNum i := by
            have h2 : m < (s.cellNeighborNum i).toNat := hm
            omega
          exact this)
    rw [windowAt_eq_windowFrom] at h
    exact h
  · rintro ⟨nn, h0, h1, hl⟩
    apply getDelSetsLoop_false_of_self
    refine ⟨nn.toNat, by omega, ?_⟩
    have e : ((nn.toNat : Nat) : Int) = nn := by omega
    have h := windowAt_eq_windowFrom s i nn.toNat
    rw [e] at h
    rw [h] at hl
    exact hl

/-- C4: with every neighbour count within the stride `neighMax`, a second run of
`allDelSets()` on unchanged neighbour lists leaves `delSets` and `delOther` exactly as the
first run left them, also when `getDelSets` returned early for some cells. -/
theorem allDelSets_idempotent (E : Env F X) (s : SPV2D F X)
    (hwf : ∀ c : Int, 0 ≤ c → c < s.Ncells → s.cellNeighborNum c ≤ s.neighMax) :
    (allDelSets E (allDelSets E s)).delSets = (allDelSets E s).delSets
      ∧ (allDelSets E (allDelSets E s)).delOther = (allDelSets E s).delOther := by
  have hN : (allDelSets E s).Ncells = s.Ncells := by
    show (allDelSets E s).toDelaunayMD.Ncells = _
    rw [allDelSets_eq, allDelSetsLoop_base]
  have hst : ∀ c : Int, 0 ≤ c → c < s.Ncells →
      (getDelSets (allDelSets E s) c).2 = allDelSets E s := by
    intro c h0 h1
    rw [allDelSets_eq]
    apply allDelSetsLoop_stable s.Ncells.toNat 0 _ le_rfl _ _ c h0 (by omega)
    · intro c' h0' h1'
      exact hwf c' h0' (by omega)
    · intro c' h0' h1'; omega
  have hloop : allDelSets E (allDelSets E s)
      = { allDelSets E s with
          hidden := E.updateNeighIdxs (allDelSets E s).toDelaunayMD } := by
    rw [allDelSets_eq E (allDelSets E s)]
    apply allDelSetsLoop_of_stable
    intro c h0 h1
    apply getDelSets_hidden
    apply hst c h0
    rw [hN] at h1
    omega
  rw [hloop]
  exact ⟨rfl, rfl⟩

end Claims

section ClaimWitnesses

theorem tetra_consistent : ConsistentLists tetra := by
  intro c h0 h1
  change c < 4 at h1
  interval_cases c
  all_goals
    refine ⟨by decide, ?_, ?_, ?_⟩
    · intro m hm0 hm1
      change m < 3 at hm1
      interval_cases m <;> decide
    · intro m m' hm0 hm1 hm0' hm1'
      change m < 3 at hm1
      change m' < 3 at hm1'
      interval_cases m <;> interval_cases m' <;> decide
    · intro m hm0 hm1
      change m < 3 at hm1
      interval_cases m
      all_goals
        first
          | exact ⟨0, by decide⟩
          | exact ⟨1, by decide⟩
          | exact ⟨2, by decide⟩

/-- Witness of C3: the tetrahedral triangulation is internally consistent and `getDelSets(1)`
returns true on it from arbitrary prior contents; with the list of cell 3 corrupted, the
lookup of slot 0 of cell 0 resolves to cell 0 and `getDelSets(0)` returns false. -/
theorem getDelSets_consistent_true_self_false_witness :
    (ConsistentLists tetra ∧ (0 : Int) ≤ 1 ∧ (1 : Int) < tetra.Ncells
        ∧ (getDelSets { tetra with delSets := fun _ => ⟨7, 7⟩, delOther := fun _ => 1 } 1).1
          = true)
      ∧ ((∃ nn : Int, 0 ≤ nn ∧ nn < corruptTetra.cellNeighborNum 0
          ∧ lookupDelOther corruptTetra.neighMax corruptTetra.cellNeighborNum
              corruptTetra.cellNeighbors (windowAt corruptTetra 0 nn).x
              (windowAt corruptTetra 0 nn).y = some 0)
        ∧ (getDelSets corruptTetra 0).1 = false) :=
  ⟨⟨tetra_consistent, by decide, by decide,
      (getDelSets_consistent_true_self_false tetra 1).1 tetra_consistent (by decide) (by decide)
        (fun _ => ⟨7, 7⟩) (fun _ => 1)⟩,
    ⟨⟨0, by decide, by decide, by decide⟩,
      (getDelSets_consistent_true_self_false corruptTetra 0).2
        ⟨0, by decide, by decide, by decide⟩⟩⟩

/-- Witness of C4: the corrupted tetrahedral triangulation, on which `getDelSets` returns
early for a cell, has every neighbour count within the stride, and the second run of
`allDelSets()` reproduces the lists of the first. -/
theorem allDelSets_idempotent_witness :
    (∀ c : Int, 0 ≤ c → c < corruptTetra.Ncells →
        corruptTetra.cellNeighborNum c ≤ corruptTetra.neighMax)
      ∧ (getDelSets corruptTetra 0).1 = false
      ∧ (allDelSets (idleEnv 1 0) (allDelSets (idleEnv 1 0) corruptTetra)).delSets
        = (allDelSets (idleEnv 1 0) corruptTetra).delSets
      ∧ (allDelSets (idleEnv 1 0) (allDelSets (idleEnv 1 0) corruptTetra)).delOther
        = (allDelSets (idleEnv 1 0) corruptTetra).delOther :=
  have hwf : ∀ c : Int, 0 ≤ c → c < corruptTetra.Ncells →
      corruptTetra.cellNeighborNum c ≤ corruptTetra.neighMax := by
    intro c h0 h1
    change c < 4 at h1
    interval_cases c <;> decide
  ⟨hwf, by decide, allDelSets_idempotent (idleEnv 1 0) corruptTetra hwf⟩

end ClaimWitnesses

section DriverClaims

variable {F X : Type}

/-- C5: on a step of `performTimestepGPU` that does not sort, with
`anyCircumcenterTestFailed == 1`, no complete retriangulation and no change of `neighMax`
reported, `getDelSets` is called on every entry of `NeedsFixing`, in order and without
stopping at a failure, and the sequence `globalTriangulationCGAL(); resetLists();
allDelSets()` follows if and only if one of these calls returned false. -/
theorem performTimestepGPU_local_repair (E : Env F X) (s : SPV2D F X)
    (hsort : s.spatialSortThisStep = false)
    (hany : (gpuAfterTest E s).anyCircumcenterTestFailed = 1)
    (hcomp : (gpuAfterTest E s).completeRetriangulationPerformed = false)
    (hnmc : (gpuAfterTest E s).neighMaxChange = false) :
    (repairResults (gpuAfterTest E s).NeedsFixing (gpuAfterTest E s)).length
        = (gpuAfterTest E s).NeedsFixing.length
      ∧ (performTimestepGPU E s).log =
        gpuComputeLog ++ [Event.testAndRepairTriangulation]
          ++ List.zipWith Event.getDelSets (gpuAfterTest E s).NeedsFixing
              (repairResults (gpuAfterTest E s).NeedsFixing (gpuAfterTest E s))
          ++ (if false ∈ repairResults (gpuAfterTest E s).NeedsFixing (gpuAfterTest E s) then
                [Event.globalTriangulationCGAL, Event.resetLists, Event.allDelSets]
              else []) := by
  refine ⟨repairResults_length _ _, ?_⟩
  have hs4 : (DisplacePointsAndRotate E (SumForcesGPU E (ComputeForceSetsGPU E
      (computeGeometryGPU E s)))).spatialSortThisStep = false := by
    rw [← hsort]
    unfold DisplacePointsAndRotate SumForcesGPU sumForceSets sumForceSetsWithExclusions
      ComputeForceSetsGPU computeSPVForceSetsGPU computeGeometryGPU
    simp only []
    split_ifs <;> rfl
  unfold performTimestepGPU
  simp only []
  unfold gpuAfterTest at hany hcomp hnmc ⊢
  rw [hs4]
  simp only [Bool.not_false, if_true]
  rw [if_pos hany, hcomp, hnmc]
  simp only [Bool.or_self, Bool.false_eq_true, if_false]
  rw [localRepairLoop_eq]
  simp only [Bool.false_or]
  by_cases hf : false ∈ repairResults
      (onBase E.testAndRepairTriangulation (DisplacePointsAndRotate E (SumForcesGPU E
        (ComputeForceSetsGPU E (computeGeometryGPU E s))))).NeedsFixing
      (onBase E.testAndRepairTriangulation (DisplacePointsAndRotate E (SumForcesGPU E
        (ComputeForceSetsGPU E (computeGeometryGPU E s)))))
  · simp [hf]
  · simp [hf]

end DriverClaims

section StepClaims

variable {F X : Type} [Add F] [Sub F] [Mul F] [Div F] [Neg F] [OfScientific F] [LT F]
  [DecidableRel (fun a b : F => a < b)]

/-- C6 (as stated, refuted): on a step that does not sort, `performTimestepGPU` with a
report of a changed `neighMax` but `anyCircumcenterTestFailed == 0` does not call
`allDelSets()` and leaves `neighMaxChange` set; and `performTimestepCPU` with a report of a
complete retriangulation and an unchanged `neighMax` does not call `allDelSets()`. -/
theorem rebuild_after_report_fails :
    (tetra.spatialSortThisStep = false
        ∧ (gpuAfterTest (reportEnv 0 false true []) tetra).neighMaxChange = true
        ∧ Event.allDelSets ∉ (performTimestepGPU (reportEnv 0 false true []) tetra).log
        ∧ (performTimestepGPU (reportEnv 0 false true []) tetra).state.neighMaxChange = true)
      ∧ ((performTimestepCPU (reportEnv 1 true false []) tetra).thrown = false
        ∧ (onBase (reportEnv 1 true false []).testAndRepairTriangulation
            (cpuMove (reportEnv 1 true false []) tetra).get.state).completeRetriangulationPerformed
          = true
        ∧ Event.allDelSets ∉ (performTimestepCPU (reportEnv 1 true false []) tetra).get.log) := by
  decide

/-- C6 (amended): on a step that does not sort, `performTimestepGPU` runs `allDelSets()`,
preceded by `resetLists()` exactly when `neighMax` changed, and leaves `neighMaxChange`
cleared, whenever the backend reports `anyCircumcenterTestFailed == 1` together with a
complete retriangulation or a changed `neighMax`; and `performTimestepCPU`, when its force
loop raises nothing and the backend reports a changed `neighMax`, runs `resetLists()` and
then `allDelSets()` and leaves `neighMaxChange` cleared. -/
theorem rebuild_after_report (E : Env F X) (s : SPV2D F X)
    (hsort : s.spatialSortThisStep = false) :
    ((gpuAfterTest E s).anyCircumcenterTestFailed = 1 →
        ((gpuAfterTest E s).completeRetriangulationPerformed = true
          ∨ (gpuAfterTest E s).neighMaxChange = true) →
        (performTimestepGPU E s).log =
            gpuComputeLog ++ [Event.testAndRepairTriangulation]
              ++ (if (gpuAfterTest E s).neighMaxChange = true then [Event.resetLists] else [])
              ++ [Event.allDelSets]
          ∧ (performTimestepGPU E s).state.neighMaxChange = false)
      ∧ (∀ r : Logged F X, cpuMove E s = Outcome.returned r →
        (onBase E.testAndRepairTriangulation r.state).neighMaxChange = true →
        ∃ s' : SPV2D F X,
          performTimestepCPU E s = Outcome.returned
              ⟨s', r.log ++ [Event.testAndRepairTriangulation, Event.resetLists,
                Event.allDelSets]⟩
            ∧ s'.neighMaxChange = false) := by
  constructor
  · intro hany hor
    have hs4 : (DisplacePointsAndRotate E (SumForcesGPU E (ComputeForceSetsGPU E
        (computeGeometryGPU E s)))).spatialSortThisStep = false := by
      have := gpuCompute_control E s
      unfold control at this
      rw [← hsort]
      exact congrArg (fun p => p.2.2) this
    unfold performTimestepGPU
    simp only []
    unfold gpuAfterTest at hany hor ⊢
    rw [hs4]
    simp only [Bool.not_false, if_true]
    rw [if_pos hany]
    have hcond : ((onBase E.testAndRepairTriangulation (DisplacePointsAndRotate E
        (SumForcesGPU E (ComputeForceSetsGPU E (computeGeometryGPU E s))))).completeRetriangulationPerformed
        || (onBase E.testAndRepairTriangulation (DisplacePointsAndRotate E
        (SumForcesGPU E (ComputeForceSetsGPU E (computeGeometryGPU E s))))).neighMaxChange)
        = true := by
      rcases hor with h | h <;> simp [h]
    rw [if_pos hcond]
    by_cases hn : (onBase E.testAndRepairTriangulation (DisplacePointsAndRotate E
        (SumForcesGPU E (ComputeForceSetsGPU E (computeGeometryGPU E s))))).neighMaxChange = true
    · rw [if_pos hn, if_pos hn]
      refine ⟨by simp, ?_⟩
      rw [allDelSets_neighMaxChange]
    · rw [if_neg hn, if_neg hn]
      refine ⟨by simp, ?_⟩
      rw [allDelSets_neighMaxChange]
      simpa using hn
  · intro r hr hn
    have hctl := cpuMove_control E s
    rw [hr] at hctl
    have hs : r.state.spatialSortThisStep = false := by
      rw [← hsort]
      exact congrArg (fun p => p.2.2) hctl
    unfold performTimestepCPU
    rw [hr]
    simp only [hs, Bool.not_false, if_true, hn]
    refine ⟨allDelSets E
      { resetLists E (onBase E.testAndRepairTriangulation r.state) with
        neighMaxChange := false }, by simp, ?_⟩
    rw [allDelSets_neighMaxChange]

end StepClaims

section ForceClaims

variable {F X : Type} [Add F] [Sub F] [Mul F] [Div F] [Neg F] [OfScientific F] [LT F]
  [DecidableRel (fun a b : F => a < b)]

/-- C8: with exclusions active, a call `computeSPVForceCPU(i)` that completes with the sum
`forceSum` stores, for a cell whose exclusion flag is non-zero, the net force (0,0) and as
external force the negative of the force that the same call stores when the flag of the
cell is zero; for a cell whose flag is zero it stores `forceSum` as net force and leaves the
external-force entry as it was. -/
theorem computeSPVForceCPU_exclusion (E : Env F X) (s : SPV2D F X) (i : Int) (forceSum : Dscalar2 F)
    (hsum : forceSumCPU E s i = some forceSum) (hex : s.particleExclusions = true) :
    (s.exclusions i ≠ 0 →
        (computeSPVForceCPU E s i).thrown = false
          ∧ (computeSPVForceCPU E s i).get.forces i = ⟨0.0, 0.0⟩
          ∧ (computeSPVForceCPU E { s with exclusions := Function.update s.exclusions i 0 }
              i).get.forces i = forceSum
          ∧ (computeSPVForceCPU E s i).get.external_forces i =
            ⟨-((computeSPVForceCPU E { s with exclusions := Function.update s.exclusions i 0 }
                  i).get.forces i).x,
              -((computeSPVForceCPU E { s with exclusions := Function.update s.exclusions i 0 }
                  i).get.forces i).y⟩)
      ∧ (s.exclusions i = 0 →
        (computeSPVForceCPU E s i).thrown = false
          ∧ (computeSPVForceCPU E s i).get.forces i = forceSum
          ∧ (computeSPVForceCPU E s i).get.external_forces i = s.external_forces i) := by
  have hclear : (computeSPVForceCPU E { s with exclusions := Function.update s.exclusions i 0 }
      i).get.forces i = forceSum := by
    unfold computeSPVForceCPU
    rw [forceSumCPU_exclusions, hsum]
    simp [hex, Outcome.get]
  constructor
  · intro hne
    rw [hclear]
    unfold computeSPVForceCPU
    rw [hsum]
    simp [hex, hne, Outcome.get, Outcome.thrown]
  · intro h0
    unfold computeSPVForceCPU
    rw [hsum]
    simp [hex, h0, Outcome.get, Outcome.thrown]

end ForceClaims

section StepWitnesses

theorem outcome_of_not_thrown {σ : Type} (o : Outcome σ) (h : o.thrown = false) :
    o = Outcome.returned o.get := by
  cases o with
  | returned s => rfl
  | threw s => simp [Outcome.thrown] at h

/-- Witness of C5: with `NeedsFixing = [0, 4, 1]` on the tetrahedral triangulation with a
corrupt fifth cell, all three calls are made, the second returns false, and the escalation
follows. -/
theorem performTimestepGPU_local_repair_witness :
    (mixedTetra.spatialSortThisStep = false
        ∧ (gpuAfterTest (reportEnv 1 false false [0, 4, 1]) mixedTetra).anyCircumcenterTestFailed = 1
        ∧ (gpuAfterTest (reportEnv 1 false false [0, 4, 1])
            mixedTetra).completeRetriangulationPerformed = false
        ∧ (gpuAfterTest (reportEnv 1 false false [0, 4, 1]) mixedTetra).neighMaxChange = false)
      ∧ (performTimestepGPU (reportEnv 1 false false [0, 4, 1]) mixedTetra).log =
        gpuComputeLog ++ [Event.testAndRepairTriangulation]
          ++ [Event.getDelSets 0 true, Event.getDelSets 4 false, Event.getDelSets 1 true]
          ++ [Event.globalTriangulationCGAL, Event.resetLists, Event.allDelSets] :=
  ⟨⟨by decide, by decide, by decide, by decide⟩,
    (performTimestepGPU_local_repair (reportEnv 1 false false [0, 4, 1]) mixedTetra
      (by decide) (by decide) (by decide) (by decide)).2.trans (by decide)⟩

/-- Witness of C6 (amended): with a report of a failed test and a changed `neighMax`, both
step routines call `resetLists()` and `allDelSets()` and clear `neighMaxChange`. -/
theorem rebuild_after_report_witness :
    tetra.spatialSortThisStep = false
      ∧ ((gpuAfterTest (reportEnv 1 false true []) tetra).anyCircumcenterTestFailed = 1
        ∧ (gpuAfterTest (reportEnv 1 false true []) tetra).neighMaxChange = true
        ∧ (performTimestepGPU (reportEnv 1 false true []) tetra).log =
            gpuComputeLog ++ [Event.testAndRepairTriangulation]
              ++ (if (gpuAfterTest (reportEnv 1 false true []) tetra).neighMaxChange = true
                  then [Event.resetLists] else [])
              ++ [Event.allDelSets]
        ∧ (performTimestepGPU (reportEnv 1 false true []) tetra).state.neighMaxChange = false)
      ∧ (cpuMove (reportEnv 1 false true []) tetra
          = Outcome.returned (cpuMove (reportEnv 1 false true []) tetra).get
        ∧ (onBase (reportEnv 1 false true []).testAndRepairTriangulation
            (cpuMove (reportEnv 1 false true []) tetra).get.state).neighMaxChange = true
        ∧ ∃ s' : SPV2D ℚ Unit,
          performTimestepCPU (reportEnv 1 false true []) tetra = Outcome.returned
              ⟨s', (cpuMove (reportEnv 1 false true []) tetra).get.log
                ++ [Event.testAndRepairTriangulation, Event.resetLists, Event.allDelSets]⟩
            ∧ s'.neighMaxChange = false) :=
  ⟨by decide,
    ⟨by decide, by decide,
      (rebuild_after_report (reportEnv 1 false true []) tetra (by decide)).1 (by decide)
        (Or.inr (by decide))⟩,
    ⟨outcome_of_not_thrown _ (by decide), by decide,
      (rebuild_after_report (reportEnv 1 false true []) tetra (by decide)).2 _
        (outcome_of_not_thrown _ (by decide)) (by decide)⟩⟩

/-- Witness of C8: cell 0 of the tetrahedral triangulation, flagged, in an environment where
`forceSum` is (3, 6): the net force is (0, 0) and the external force (-3, -6). -/
theorem computeSPVForceCPU_exclusion_witness :
    forceSumCPU unitForceEnv flaggedTetra 0 = some ⟨3, 6⟩
      ∧ flaggedTetra.particleExclusions = true
      ∧ flaggedTetra.exclusions 0 ≠ 0
      ∧ (computeSPVForceCPU unitForceEnv flaggedTetra 0).thrown = false
      ∧ (computeSPVForceCPU unitForceEnv flaggedTetra 0).get.forces 0 = ⟨0.0, 0.0⟩
      ∧ (computeSPVForceCPU unitForceEnv
          { flaggedTetra with exclusions := Function.update flaggedTetra.exclusions 0 0 }
          0).get.forces 0 = ⟨3, 6⟩
      ∧ (computeSPVForceCPU unitForceEnv flaggedTetra 0).get.external_forces 0 =
        ⟨-((computeSPVForceCPU unitForceEnv
              { flaggedTetra with exclusions := Function.update flaggedTetra.exclusions 0 0 }
              0).get.forces 0).x,
          -((computeSPVForceCPU unitForceEnv
              { flaggedTetra with exclusions := Function.update flaggedTetra.exclusions 0 0 }
              0).get.forces 0).y⟩ :=
  ⟨by decide!, by decide!, by decide!,
    (computeSPVForceCPU_exclusion unitForceEnv flaggedTetra 0 ⟨3, 6⟩ (by decide!) (by decide!)).1
      (by decide!)⟩

/-- C9 (the code at the failing input): cell 0 is excluded by `setExclusions`, which zeroes
its motility pair, and `computeSPVForceCPU(0)` stores the net force (0, 0); with system-wide
speed `v0 = 1`, `deltaT = 1` and director angle 0 (cosine 1, sine 0), `calculateDispCPU`
assigns cell 0 the displacement (1, 0), not (0, 0). -/
theorem calculateDispCPU_moves_excluded_cell :
    excludedTetra.exclusions 0 = 1
      ∧ excludedTetra.Motility 0 = ⟨0, 0⟩
      ∧ (computeSPVForceCPU unitForceEnv excludedTetra 0).thrown = false
      ∧ (computeSPVForceCPU unitForceEnv excludedTetra 0).get.forces 0 = ⟨0, 0⟩
      ∧ (calculateDispCPU unitForceEnv
          (computeSPVForceCPU unitForceEnv excludedTetra 0).get).displacements 0 = ⟨1, 0⟩ := by
  decide!

/-- C10 (the code at the failing input): with system-wide speed `v0 = 1`, `deltaT = 1`,
director angle 0 (cosine 1, sine 0), zero force and the cell's own speed
`Motility[0].x = 5`, `calculateDispCPU` assigns cell 0 the displacement (1, 0), computed
from `v0`, while the formula with the cell's own speed gives (5, 0). -/
theorem calculateDispCPU_uses_system_speed :
    (calculateDispCPU (idleEnv 1 0) unevenTetra).displacements 0 = ⟨1, 0⟩
      ∧ (⟨unevenTetra.deltaT * ((unevenTetra.Motility 0).x
              * (idleEnv 1 0).cos (unevenTetra.cellDirectors 0) + (unevenTetra.forces 0).x),
          unevenTetra.deltaT * ((unevenTetra.Motility 0).x
              * (idleEnv 1 0).sin (unevenTetra.cellDirectors 0) + (unevenTetra.forces 0).y)⟩ :
          Dscalar2 ℚ) = ⟨5, 0⟩ := by
  decide!

end StepWitnesses

/-! Lemmas on the force lookup of `computeSPVForceCPU`. -/

section ForceLookup

variable {F X : Type} [Add F] [Sub F] [Mul F] [Div F] [Neg F] [OfScientific F] [LT F]
  [DecidableRel (fun a b : F => a < b)]

omit [Neg F] in
/-- The force loop ends with the exception exactly when one of its slots fails the test
of line 651. -/
theorem forceLoop_none_iff (E : Env F X) (s : SPV2D F X) (i : Int) (pi : Dscalar2 F)
    (Adiff Pdiff : F) (voro : Int → Dscalar2 F) (dhdri : Int → Matrix2x2 F) (rem : Nat) :
    ∀ (nn : Int) (vlast forceSum : Dscalar2 F),
      forceLoop E s i (s.cellNeighborNum i) pi Adiff Pdiff voro dhdri rem nn vlast forceSum
          = none ↔
        ∃ m : Nat, m < rem ∧ slotThrows s i (nn + m) := by
  induction rem with
  | zero =>
    intro nn vlast forceSum
    simp [forceLoop]
  | succ rem ih =>
    intro nn vlast forceSum
    rw [forceLoop]
    have e0 : nn + ((0 : Nat) : Int) = nn := by simp
    by_cases hth : slotThrows s i nn
    · have hth' := hth
      unfold slotThrows thirdPoint baseNeighAt otherNeighAt at hth'
      simp only [hth', if_true, true_iff]
      exact ⟨0, Nat.succ_pos rem, by rw [e0]; exact hth⟩
    · have hth' := hth
      unfold slotThrows thirdPoint baseNeighAt otherNeighAt at hth'
      simp only [hth', if_false]
      rw [ih]
      constructor
      · rintro ⟨m, hm, h⟩
        refine ⟨m + 1, Nat.succ_lt_succ hm, ?_⟩
        have e : nn + ((m + 1 : Nat) : Int) = nn + 1 + (m : Int) := by push_cast; ring
        rw [e]; exact h
      · rintro ⟨m, hm, h⟩
        cases m with
        | zero => rw [e0] at h; exact absurd h hth
        | succ m =>
          refine ⟨m, Nat.lt_of_succ_lt_succ hm, ?_⟩
          have e : nn + ((m + 1 : Nat) : Int) = nn + 1 + (m : Int) := by push_cast; ring
          rw [e] at h; exact h

theorem forceSumCPU_none_iff (E : Env F X) (s : SPV2D F X) (i : Int) :
    forceSumCPU E s i = none ↔
      ∃ nn : Int, 0 ≤ nn ∧ nn < s.cellNeighborNum i ∧ slotThrows s i nn := by
  unfold forceSumCPU
  simp only []
  rw [forceLoop_none_iff]
  constructor
  · rintro ⟨m, hm, h⟩
    refine ⟨m, by omega, by omega, ?_⟩
    have e : (0 : Int) + (m : Int) = (m : Int) := by omega
    rw [e] at h; exact h
  · rintro ⟨nn, h0, h1, h⟩
    refine ⟨nn.toNat, by omega, ?_⟩
    have e : (0 : Int) + (nn.toNat : Int) = nn := by omega
    rw [e]; exact h

end ForceLookup

/-! Further lemmas on the slot loop of `getDelSets`. -/

section SlotLoopMore

variable (M : Int) (neighnum ns : Int → Int) (i : Int)

/-- A slot that the loop reaches holds, after the loop, the result of its lookup, or the
previous entry when the lookup found no match. -/
theorem getDelSetsLoop_reached_other (rem : Nat) :
    ∀ (m : Nat) (nn nm2 nm1 n1 : Int) (ds : Int → int2) (dother : Int → Int), m < rem →
      (getDelSetsLoop M neighnum ns i m nn nm2 nm1 n1 ds dother).1 = true →
      (getDelSetsLoop M neighnum ns i rem nn nm2 nm1 n1 ds dother).2.2 (n_idx M (nn + m) i) =
        (lookupDelOther M neighnum ns (windowFrom M ns i nn nm1 n1 m).x
          (windowFrom M ns i nn nm1 n1 m).y).getD (dother (n_idx M (nn + m) i)) := by
  induction rem with
  | zero => intro m nn nm2 nm1 n1 ds dother hm; exact absurd hm (Nat.not_lt_zero m)
  | succ rem ih =>
    intro m nn nm2 nm1 n1 ds dother hm hr
    cases m with
    | zero =>
      have e0 : nn + ((0 : Nat) : Int) = nn := by simp
      have w0 : windowFrom M ns i nn nm1 n1 0 = ⟨nm1, n1⟩ := by simp [windowFrom]
      rw [e0, w0, getDelSetsLoop_succ]
      by_cases hf : slotFails i nm1 n1
          ((lookupDelOther M neighnum ns nm1 n1).getD (dother (n_idx M nn i)))
      · rw [if_pos hf]
        simp only [Function.update_same]
      · rw [if_neg hf]
        have hfr := getDelSetsLoop_frame M neighnum ns i rem (nn + 1) nm1 n1 (ns (n_idx M nn i))
          (Function.update ds (n_idx M nn i) ⟨nm1, n1⟩)
          (Function.update dother (n_idx M nn i)
            ((lookupDelOther M neighnum ns nm1 n1).getD (dother (n_idx M nn i))))
          (n_idx M nn i) (by intro m _ h; have := n_idx_inj M i _ _ h; omega)
        rw [hfr.2, Function.update_same]
    | succ m =>
      rw [getDelSetsLoop_succ] at hr ⊢
      by_cases hf : slotFails i nm1 n1
          ((lookupDelOther M neighnum ns nm1 n1).getD (dother (n_idx M nn i)))
      · rw [if_pos hf] at hr
        simp at hr
      · rw [if_neg hf] at hr ⊢
        have e : nn + ((m + 1 : Nat) : Int) = nn + 1 + (m : Int) := by push_cast; ring
        rw [e, ih m (nn + 1) nm1 n1 (ns (n_idx M nn i)) _ _ (Nat.lt_of_succ_lt_succ hm) hr,
          windowFrom_succ M ns i nn nm1 n1 m]
        have hne : n_idx M (nn + 1 + (m : Int)) i ≠ n_idx M nn i := by
          intro h; have := n_idx_inj M i _ _ h; omega
        rw [Function.update_noteq hne]

/-- Once a slot has failed the test, further iterations are not run. -/
theorem getDelSetsLoop_stop (a : Nat) :
    ∀ (b : Nat) (nn nm2 nm1 n1 : Int) (ds : Int → int2) (dother : Int → Int),
      (getDelSetsLoop M neighnum ns i a nn nm2 nm1 n1 ds dother).1 = false →
      getDelSetsLoop M neighnum ns i (a + b) nn nm2 nm1 n1 ds dother
        = getDelSetsLoop M neighnum ns i a nn nm2 nm1 n1 ds dother := by
  induction a with
  | zero => intro b nn nm2 nm1 n1 ds dother h; simp [getDelSetsLoop] at h
  | succ a ih =>
    intro b nn nm2 nm1 n1 ds dother h
    have e : a + 1 + b = (a + b) + 1 := by omega
    rw [e, getDelSetsLoop_succ, getDelSetsLoop_succ]
    rw [getDelSetsLoop_succ] at h
    by_cases hf : slotFails i nm1 n1
        ((lookupDelOther M neighnum ns nm1 n1).getD (dother (n_idx M nn i)))
    · rw [if_pos hf, if_pos hf]
    · rw [if_neg hf] at h ⊢
      rw [if_neg hf]
      exact ih b _ _ _ _ _ _ h

/-- Two runs of the slot loop from arrays that agree on the `delOther` entries of the
slots whose lookup finds no match return the same flag, and when it is true the entries
of the visited slots agree. -/
theorem getDelSetsLoop_determined (rem : Nat) :
    ∀ (nn nm2 nm1 n1 : Int) (ds ds' : Int → int2) (dother dother' : Int → Int),
      (∀ m : Nat, m < rem →
        lookupDelOther M neighnum ns (windowFrom M ns i nn nm1 n1 m).x
          (windowFrom M ns i nn nm1 n1 m).y = none →
        dother (n_idx M (nn + m) i) = dother' (n_idx M (nn + m) i)) →
      (getDelSetsLoop M neighnum ns i rem nn nm2 nm1 n1 ds dother).1
          = (getDelSetsLoop M neighnum ns i rem nn nm2 nm1 n1 ds' dother').1
        ∧ ((getDelSetsLoop M neighnum ns i rem nn nm2 nm1 n1 ds dother).1 = true →
          ∀ m : Nat, m < rem →
            (getDelSetsLoop M neighnum ns i rem nn nm2 nm1 n1 ds dother).2.1
                (n_idx M (nn + m) i)
              = (getDelSetsLoop M neighnum ns i rem nn nm2 nm1 n1 ds' dother').2.1
                (n_idx M (nn + m) i)
            ∧ (getDelSetsLoop M neighnum ns i rem nn nm2 nm1 n1 ds dother).2.2
                (n_idx M (nn + m) i)
              = (getDelSetsLoop M neighnum ns i rem nn nm2 nm1 n1 ds' dother').2.2
                (n_idx M (nn + m) i)) := by
  induction rem with
  | zero =>
    intro nn nm2 nm1 n1 ds ds' dother dother' _
    refine ⟨rfl, fun _ m hm => absurd hm (Nat.not_lt_zero m)⟩
  | succ rem ih =>
    intro nn nm2 nm1 n1 ds ds' dother dother' hag
    have e0 : nn + ((0 : Nat) : Int) = nn := by simp
    have w0 : windowFrom M ns i nn nm1 n1 0 = ⟨nm1, n1⟩ := by simp [windowFrom]
    have hd : (lookupDelOther M neighnum ns nm1 n1).getD (dother (n_idx M nn i))
        = (lookupDelOther M neighnum ns nm1 n1).getD (dother' (n_idx M nn i)) := by
      cases hl : lookupDelOther M neighnum ns nm1 n1 with
      | some v => rfl
      | none =>
        have h := hag 0 (Nat.succ_pos rem)
        rw [e0, w0] at h
        simp only [Option.getD_none]
        exact h hl
    rw [getDelSetsLoop_succ, getDelSetsLoop_succ, ← hd]
    by_cases hf : slotFails i nm1 n1
        ((lookupDelOther M neighnum ns nm1 n1).getD (dother (n_idx M nn i)))
    · rw [if_pos hf, if_pos hf]
      exact ⟨rfl, fun h => by simp at h⟩
    · rw [if_neg hf, if_neg hf]
      have hne : ∀ m : Nat, n_idx M (nn + 1 + (m : Int)) i ≠ n_idx M nn i := by
        intro m h; have := n_idx_inj M i _ _ h; omega
      have hag' : ∀ m : Nat, m < rem →
          lookupDelOther M neighnum ns (windowFrom M ns i (nn + 1) n1 (ns (n_idx M nn i)) m).x
            (windowFrom M ns i (nn + 1) n1 (ns (n_idx M nn i)) m).y = none →
          Function.update dother (n_idx M nn i)
              ((lookupDelOther M neighnum ns nm1 n1).getD (dother (n_idx M nn i)))
              (n_idx M (nn + 1 + m) i)
            = Function.update dother' (n_idx M nn i)
              ((lookupDelOther M neighnum ns nm1 n1).getD (dother (n_idx M nn i)))
              (n_idx M (nn + 1 + m) i) := by
        intro m hm hl
        rw [Function.update_noteq (hne m), Function.update_noteq (hne m)]
        have h := hag (m + 1) (Nat.succ_lt_succ hm)
        rw [← windowFrom_succ M ns i nn nm1 n1 m] at h
        have e : nn + ((m + 1 : Nat) : Int) = nn + 1 + (m : Int) := by push_cast; ring
        rw [e] at h
        exact h hl
      obtain ⟨hflag, hent⟩ := ih (nn + 1) nm1 n1 (ns (n_idx M nn i))
        (Function.update ds (n_idx M nn i) ⟨nm1, n1⟩)
        (Function.update ds' (n_idx M nn i) ⟨nm1, n1⟩)
        (Function.update dother (n_idx M nn i)
          ((lookupDelOther M neighnum ns nm1 n1).getD (dother (n_idx M nn i))))
        (Function.update dother' (n_idx M nn i)
          ((lookupDelOther M neighnum ns nm1 n1).getD (dother (n_idx M nn i)))) hag'
      refine ⟨hflag, fun ht m hm => ?_⟩
      cases m with
      | zero =>
        rw [e0]
        have hfr := getDelSetsLoop_frame M neighnum ns i rem (nn + 1) nm1 n1
          (ns (n_idx M nn i))
          (Function.update ds (n_idx M nn i) ⟨nm1, n1⟩)
          (Function.update dother (n_idx M nn i)
            ((lookupDelOther M neighnum ns nm1 n1).getD (dother (n_idx M nn i))))
          (n_idx M nn i) (by intro m _ h; have := n_idx_inj M i _ _ h; omega)
        have hfr' := getDelSetsLoop_frame M neighnum ns i rem (nn + 1) nm1 n1
          (ns (n_idx M nn i))
          (Function.update ds' (n_idx M nn i) ⟨nm1, n1⟩)
          (Function.update dother' (n_idx M nn i)
            ((lookupDelOther M neighnum ns nm1 n1).getD (dother (n_idx M nn i))))
          (n_idx M nn i) (by intro m _ h; have := n_idx_inj M i _ _ h; omega)
        rw [hfr.1, hfr.2, hfr'.1, hfr'.2]
        simp only [Function.update_same, and_self]
      | succ m =>
        have e : nn + ((m + 1 : Nat) : Int) = nn + 1 + (m : Int) := by push_cast; ring
        rw [e]
        exact hent ht m (Nat.lt_of_succ_lt_succ hm)

/-- The scan of `findDelOther` ends without a match exactly when no entry it visits
equals `nm1`. -/
theorem findDelOther_none_iff (n1 nm1 nextNeighs : Int) (rem : Nat) :
    ∀ nn2 : Int,
      findDelOther M ns n1 nm1 nextNeighs rem nn2 = none ↔
        ∀ m : Nat, m < rem → ns (n_idx M (nn2 + m) n1) ≠ nm1 := by
  induction rem with
  | zero => intro nn2; simp [findDelOther]
  | succ rem ih =>
    intro nn2
    rw [findDelOther]
    have e0 : nn2 + ((0 : Nat) : Int) = nn2 := by simp
    by_cases hc : ns (n_idx M nn2 n1) = nm1
    · simp only [hc, if_true]
      constructor
      · intro h; exact absurd h (by simp)
      · intro h; exact absurd hc (by have := h 0 (Nat.succ_pos rem); rw [e0] at this; exact this)
    · simp only [hc, if_false]
      rw [ih]
      constructor
      · intro h m hm
        cases m with
        | zero => rw [e0]; exact hc
        | succ m =>
          have e : nn2 + ((m + 1 : Nat) : Int) = nn2 + 1 + (m : Int) := by push_cast; ring
          rw [e]; exact h m (Nat.lt_of_succ_lt_succ hm)
      · intro h m hm
        have e : nn2 + ((m + 1 : Nat) : Int) = nn2 + 1 + (m : Int) := by push_cast; ring
        rw [← e]; exact h (m + 1) (Nat.succ_lt_succ hm)

end SlotLoopMore

section SlotState

variable {F X : Type}

theorem getDelSets_delOther_reached (s : SPV2D F X) (i : Int) (nn : Nat)
    (hnn : (nn : Int) < s.cellNeighborNum i) (hr : reachesSlot s i nn) :
    (getDelSets s i).2.delOther (n_idx s.neighMax nn i) =
      (lookupDelOther s.neighMax s.cellNeighborNum s.cellNeighbors (windowAt s i nn).x
        (windowAt s i nn).y).getD (s.delOther (n_idx s.neighMax nn i)) := by
  have h := getDelSetsLoop_reached_other s.neighMax s.cellNeighborNum s.cellNeighbors i
    (s.cellNeighborNum i).toNat nn 0
    (s.cellNeighbors (n_idx s.neighMax (s.cellNeighborNum i - 3) i))
    (s.cellNeighbors (n_idx s.neighMax (s.cellNeighborNum i - 2) i))
    (s.cellNeighbors (n_idx s.neighMax (s.cellNeighborNum i - 1) i)) s.delSets s.delOther
    (by omega) hr
  have e : (0 : Int) + (nn : Int) = (nn : Int) := by omega
  rw [e] at h
  rw [windowAt_eq_windowFrom]
  exact h

/-- When the call returns false at slot `m`, its result is that of the first `m + 1`
iterations. -/
theorem getDelSets_eq_upTo (s : SPV2D F X) (i : Int) (m : Nat)
    (hm : (m : Int) < s.cellNeighborNum i) (hf : ¬ reachesSlot s i (m + 1)) :
    getDelSetsUpTo s i (s.cellNeighborNum i).toNat = getDelSetsUpTo s i (m + 1) := by
  have hfalse : (getDelSetsUpTo s i (m + 1)).1 = false := by
    unfold reachesSlot at hf
    cases h : (getDelSetsUpTo s i (m + 1)).1 with
    | false => rfl
    | true => exact absurd h hf
  have e : (s.cellNeighborNum i).toNat = (m + 1) + ((s.cellNeighborNum i).toNat - (m + 1)) := by
    omega
  rw [e]
  exact getDelSetsLoop_stop s.neighMax s.cellNeighborNum s.cellNeighbors i (m + 1) _ 0 _ _ _
    s.delSets s.delOther hfalse

end SlotState

section Exclusions

variable {F : Type} [OfScientific F]

/-- The loop of `setExclusions` rewrites exactly the entries `ii0 ≤ x < ii0 + rem`. -/
theorem setExclusionsLoop_spec (exes : Int → Int) (rem : Nat) :
    ∀ (ii0 : Int) (h_mot : Int → Dscalar2 F) (h_ex : Int → Int) (x : Int),
      (setExclusionsLoop exes rem ii0 h_mot h_ex).2 x =
          (if ii0 ≤ x ∧ x < ii0 + rem then (if exes x ≠ 0 then 1 else 0) else h_ex x)
        ∧ (setExclusionsLoop exes rem ii0 h_mot h_ex).1 x =
          (if (ii0 ≤ x ∧ x < ii0 + rem) ∧ exes x ≠ 0 then ⟨0.0, 0.0⟩ else h_mot x) := by
  induction rem with
  | zero =>
    intro ii0 h_mot h_ex x
    have h1 : ¬ (ii0 ≤ x ∧ x < ii0 + ((0 : Nat) : Int)) := by omega
    have h2 : ¬ ((ii0 ≤ x ∧ x < ii0 + ((0 : Nat) : Int)) ∧ exes x ≠ 0) := fun h => h1 h.1
    rw [if_neg h1, if_neg h2]
    exact ⟨rfl, rfl⟩
  | succ rem ih =>
    intro ii0 h_mot h_ex x
    rw [setExclusionsLoop]
    by_cases hx : x = ii0
    · subst hx
      have n1 : ¬ (x + 1 ≤ x ∧ x < x + 1 + (rem : Int)) := by omega
      have n2 : ¬ ((x + 1 ≤ x ∧ x < x + 1 + (rem : Int)) ∧ exes x ≠ 0) := fun h => n1 h.1
      have p1 : x ≤ x ∧ x < x + ((rem + 1 : Nat) : Int) := by omega
      by_cases he : exes x ≠ 0
      · rw [if_pos he]
        obtain ⟨h1, h2⟩ := ih (x + 1) (Function.update h_mot x ⟨0.0, 0.0⟩)
          (Function.update (Function.update h_ex x 0) x 1) x
        rw [h1, h2, if_neg n1, if_neg n2, if_pos p1, if_pos he, if_pos ⟨p1, he⟩]
        simp only [Function.update_same]
        exact ⟨trivial, trivial⟩
      · rw [if_neg he]
        obtain ⟨h1, h2⟩ := ih (x + 1) h_mot (Function.update h_ex x 0) x
        rw [h1, h2, if_neg n1, if_neg n2, if_pos p1, if_neg he, if_neg (fun h => he h.2)]
        simp only [Function.update_same]
        exact ⟨trivial, trivial⟩
    · have e1 : (ii0 + 1 ≤ x ∧ x < ii0 + 1 + (rem : Int))
          ↔ (ii0 ≤ x ∧ x < ii0 + ((rem + 1 : Nat) : Int)) := by omega
      by_cases he : exes ii0 ≠ 0
      · rw [if_pos he]
        obtain ⟨h1, h2⟩ := ih (ii0 + 1) (Function.update h_mot ii0 ⟨0.0, 0.0⟩)
          (Function.update (Function.update h_ex ii0 0) ii0 1) x
        rw [h1, h2]
        simp only [Function.update_noteq hx, e1]
        exact ⟨trivial, trivial⟩
      · rw [if_neg he]
        obtain ⟨h1, h2⟩ := ih (ii0 + 1) h_mot (Function.update h_ex ii0 0) x
        rw [h1, h2]
        simp only [Function.update_noteq hx, e1]
        exact ⟨trivial, trivial⟩

end Exclusions

section ForceScan

variable (M : Int) (ns : Int → Int) (baseNeigh otherNeigh neigh2 : Int)

/-- A scan over entries none of which is `otherNeigh` leaves `DT_other_idx` as it was. -/
theorem scanOther_no_match (rem : Nat) :
    ∀ (n2 d : Int),
      (∀ p : Int, n2 ≤ p → p < n2 + rem → ns (n_idx M p baseNeigh) ≠ otherNeigh) →
      scanOther M ns baseNeigh otherNeigh neigh2 rem n2 d = d := by
  induction rem with
  | zero => intro n2 d _; rfl
  | succ rem ih =>
    intro n2 d h
    rw [scanOther]
    have h0 : ns (n_idx M n2 baseNeigh) ≠ otherNeigh := h n2 (le_refl _) (by push_cast; omega)
    simp only [if_neg h0]
    exact ih (n2 + 1) d (fun p hp1 hp2 => h p (by omega) (by push_cast; omega))

/-- The scan returns the entry that cyclically follows the last occurrence of
`otherNeigh`. -/
theorem scanOther_last (q : Int) (rem : Nat) :
    ∀ (n2 d : Int), n2 ≤ q → q < n2 + rem → ns (n_idx M q baseNeigh) = otherNeigh →
      (∀ p : Int, q < p → p < n2 + rem → ns (n_idx M p baseNeigh) ≠ otherNeigh) →
      scanOther M ns baseNeigh otherNeigh neigh2 rem n2 d
        = ns (n_idx M ((q + 1) % neigh2) baseNeigh) := by
  induction rem with
  | zero => intro n2 d h1 h2; exfalso; simp at h2; omega
  | succ rem ih =>
    intro n2 d h1 h2 hq hlast
    rw [scanOther]
    by_cases hc : n2 = q
    · subst hc
      simp only [if_pos hq]
      exact scanOther_no_match M ns baseNeigh otherNeigh neigh2 rem (n2 + 1) _
        (fun p hp1 hp2 => hlast p (by omega) (by push_cast; omega))
    · exact ih (n2 + 1) _ (by omega) (by push_cast at h2; omega) hq
        (fun p hp1 hp2 => hlast p hp1 (by push_cast; omega))

end ForceScan

section ForceScanState

variable {F X : Type}

/-- The window of `getDelSets(i)` at slot `(nn + 1) mod k` is the pair
(`otherNeigh`, `baseNeigh`) of slot `nn` of the force routine. -/
theorem windowAt_succ_eq (s : SPV2D F X) (i nn : Int) (hk : 3 ≤ s.cellNeighborNum i)
    (h0 : 0 ≤ nn) (h1 : nn < s.cellNeighborNum i) :
    windowAt s i ((nn + 1) % s.cellNeighborNum i)
      = ⟨otherNeighAt s i nn, baseNeighAt s i nn⟩ := by
  unfold windowAt otherNeighAt baseNeighAt nbr
  by_cases hl : nn = s.cellNeighborNum i - 1
  · have e : (nn + 1) % s.cellNeighborNum i = 0 := by
      rw [hl]; simp
    have hn : ¬ (nn - 1 < 0) := by omega
    simp only [e, if_true, if_neg hn]
    rw [hl]
    have e2 : s.cellNeighborNum i - 1 - 1 = s.cellNeighborNum i - 2 := by ring
    rw [e2]
  · have e : (nn + 1) % s.cellNeighborNum i = nn + 1 :=
      Int.emod_eq_of_lt (by omega) (by omega)
    rw [e]
    by_cases hz : nn = 0
    · subst hz
      have hn : (0 : Int) - 1 < 0 := by omega
      have e3 : (0 : Int) - 1 + s.cellNeighborNum i = s.cellNeighborNum i - 1 := by ring
      simp only [if_pos hn, e3]
      simp
    · have a1 : ¬ (nn + 1 = 0) := by omega
      have a2 : ¬ (nn + 1 = 1) := by omega
      have hn : ¬ (nn - 1 < 0) := by omega
      have e4 : nn + 1 - 2 = nn - 1 := by ring
      have e5 : nn + 1 - 1 = nn := by ring
      simp only [if_neg a1, if_neg a2, if_neg hn, e4, e5]

end ForceScanState

section Geometry

variable {F X : Type} [Add F] [Sub F] [Mul F] [Div F] [Neg F] [OfScientific F] [LT F]
  [DecidableRel (fun a b : F => a < b)]

omit [Add F] [Sub F] [Mul F] [Div F] [Neg F] [OfScientific F] [LT F]
  [DecidableRel (fun a b : F => a < b)] in
/-- The first loop of `computeGeometryCPU`: the entries it writes, and the ones it leaves. -/
theorem voroLoop_spec (E : Env F X) (s : SPV2D F X) (i : Int) (pi : Dscalar2 F) (rem : Nat) :
    ∀ (nn0 : Int) (rij : Dscalar2 F) (voro h_v : Int → Dscalar2 F),
      (∀ x : Int, nn0 ≤ x → x < nn0 + rem →
        (voroLoop E s i pi rem nn0 rij voro h_v).1 x
            = E.Circumcenter
              (if x = nn0 then rij
                else E.minDist s.hidden (s.cellPositions (nbr s i (x - 1))) pi)
              (E.minDist s.hidden (s.cellPositions (nbr s i x)) pi)
          ∧ (voroLoop E s i pi rem nn0 rij voro h_v).2 (n_idx s.neighMax x i)
            = E.Circumcenter
              (if x = nn0 then rij
                else E.minDist s.hidden (s.cellPositions (nbr s i (x - 1))) pi)
              (E.minDist s.hidden (s.cellPositions (nbr s i x)) pi))
      ∧ (∀ y : Int, (∀ x : Int, nn0 ≤ x → x < nn0 + rem → y ≠ n_idx s.neighMax x i) →
        (voroLoop E s i pi rem nn0 rij voro h_v).2 y = h_v y)
      ∧ (∀ x : Int, ¬ (nn0 ≤ x ∧ x < nn0 + rem) →
        (voroLoop E s i pi rem nn0 rij voro h_v).1 x = voro x) := by
  induction rem with
  | zero =>
    intro nn0 rij voro h_v
    refine ⟨?_, ?_, ?_⟩
    · intro x h0 h1; exfalso; simp at h1; omega
    · intro y _; rfl
    · intro x _; rfl
  | succ rem ih =>
    intro nn0 rij voro h_v
    rw [voroLoop]
    obtain ⟨ih1, ih2, ih3⟩ := ih (nn0 + 1)
      (E.minDist s.hidden (s.cellPositions (s.cellNeighbors (n_idx s.neighMax nn0 i))) pi)
      (Function.update voro nn0 (E.Circumcenter rij
        (E.minDist s.hidden (s.cellPositions (s.cellNeighbors (n_idx s.neighMax nn0 i))) pi)))
      (Function.update h_v (n_idx s.neighMax nn0 i)
        (Function.update voro nn0 (E.Circumcenter rij
          (E.minDist s.hidden (s.cellPositions (s.cellNeighbors (n_idx s.neighMax nn0 i)))
            pi)) nn0))
    refine ⟨?_, ?_, ?_⟩
    · intro x h0 h1
      by_cases hx : x = nn0
      · subst hx
        rw [if_pos rfl]
        constructor
        · refine (ih3 x (by omega)).trans ?_
          simp only [Function.update_same]
          rfl
        · refine (ih2 (n_idx s.neighMax x i) ?_).trans ?_
          · intro x' hx0 _ h
            have := n_idx_inj s.neighMax i _ _ h
            omega
          · simp only [Function.update_same]
            rfl
      · have hr := ih1 x (by omega) (by push_cast at h1; omega)
        rw [if_neg hx]
        by_cases hx1 : x = nn0 + 1
        · rw [if_pos hx1] at hr
          have e : x - 1 = nn0 := by omega
          rw [e]
          exact hr
        · rw [if_neg hx1] at hr
          exact hr
    · intro y hy
      refine (ih2 y (fun x h0 h1 => hy x (by omega) (by push_cast; omega))).trans ?_
      exact Function.update_noteq (hy nn0 (le_refl _) (by push_cast; omega)) _ _
    · intro x hx
      refine (ih3 x (by push_cast at hx; omega)).trans ?_
      exact Function.update_noteq (by push_cast at hx; omega) _ _

omit [Sub F] [Mul F] [Div F] [Neg F] [OfScientific F] [LT F]
  [DecidableRel (fun a b : F => a < b)] in
/-- The second loop of `computeGeometryCPU` as a pair of left folds: `v` is the vertex of
a slot and `w` the vertex the loop holds in `vlast` when it reaches the slot. -/
theorem areaPeriLoop_spec [Sub F] [Mul F] (E : Env F X) (voro : Int → Dscalar2 F)
    (v w : Nat → Dscalar2 F) (rem : Nat) :
    ∀ (n : Nat) (vlast : Dscalar2 F) (Varea Vperi : F),
      (∀ m : Nat, n ≤ m → m < n + rem → voro m = v m) → vlast = w n →
      (∀ m : Nat, n ≤ m → m < n + rem → w (m + 1) = v m) →
      areaPeriLoop E voro rem n vlast Varea Vperi
        = ((List.range' n rem).foldl (fun acc m => acc + E.TriangleArea (w m) (v m)) Varea,
          (List.range' n rem).foldl
            (fun acc m => acc + E.sqrt (((w m).x - (v m).x) * ((w m).x - (v m).x)
              + ((w m).y - (v m).y) * ((w m).y - (v m).y))) Vperi) := by
  induction rem with
  | zero => intro n vlast Varea Vperi _ _ _; rfl
  | succ rem ih =>
    intro n vlast Varea Vperi hv hl hw
    rw [areaPeriLoop]
    have e : ((n : Int) + 1) = ((n + 1 : Nat) : Int) := by push_cast; rfl
    simp only [e]
    rw [ih (n + 1) (voro n) _ _ (fun m h0 h1 => hv m (by omega) (by omega))
      (by rw [hv n (le_refl _) (by omega)]
          exact (hw n (le_refl _) (by omega)).symm)
      (fun m h0 h1 => hw m (by omega) (by omega))]
    rw [hl, hv n (le_refl _) (by omega)]
    rfl

omit [Div F] [Neg F] [LT F] [DecidableRel (fun a b : F => a < b)] in
/-- The body of the cell loop of `computeGeometryCPU` for cell `i`: the vertices and the sums
it stores, and what it leaves as it is. -/
theorem computeGeometryCell_spec (E : Env F X) (s : SPV2D F X) (i : Int) :
    (∀ nn : Int, 0 ≤ nn → nn < s.cellNeighborNum i →
        (computeGeometryCell E s i).voroCur (n_idx s.neighMax nn i) = voroVertex E s i nn)
      ∧ (computeGeometryCell E s i).AreaPeri i = ⟨polygonArea E s i, polygonPerimeter E s i⟩
      ∧ (∀ y : Int, (∀ x : Int, 0 ≤ x → x < s.cellNeighborNum i → y ≠ n_idx s.neighMax x i) →
        (computeGeometryCell E s i).voroCur y = s.voroCur y)
      ∧ (∀ j : Int, j ≠ i → (computeGeometryCell E s i).AreaPeri j = s.AreaPeri j) := by
  obtain ⟨h1, h2, _⟩ := voroLoop_spec E s i (s.cellPositions i) (s.cellNeighborNum i).toNat 0
    (E.minDist s.hidden
      (s.cellPositions (s.cellNeighbors (n_idx s.neighMax (s.cellNeighborNum i - 1) i)))
      (s.cellPositions i)) (fun _ => ⟨0.0, 0.0⟩) s.voroCur
  have hvert : ∀ x : Int, 0 ≤ x → x < s.cellNeighborNum i →
      E.Circumcenter
          (if x = 0 then E.minDist s.hidden
              (s.cellPositions (s.cellNeighbors (n_idx s.neighMax (s.cellNeighborNum i - 1) i)))
              (s.cellPositions i)
            else E.minDist s.hidden (s.cellPositions (nbr s i (x - 1))) (s.cellPositions i))
          (E.minDist s.hidden (s.cellPositions (nbr s i x)) (s.cellPositions i))
        = voroVertex E s i x := by
    intro x h0 hk
    unfold voroVertex
    by_cases hx : x = 0
    · subst hx
      have e : ((0 : Int) - 1) % s.cellNeighborNum i = s.cellNeighborNum i - 1 := by
        have := neg_emod_of_le ((0 : Int) - 1) (s.cellNeighborNum i) (by omega) (by omega)
        rw [this]; ring
      rw [if_pos rfl, e]
      rfl
    · have e : (x - 1) % s.cellNeighborNum i = x - 1 :=
        Int.emod_eq_of_lt (by omega) (by omega)
      rw [if_neg hx, e]
  refine ⟨?_, ?_, ?_, ?_⟩
  · intro nn h0 hk
    exact ((h1 nn h0 (by omega)).2).trans (hvert nn h0 hk)
  · show Function.update s.AreaPeri i _ i = _
    rw [Function.update_same]
    have hloop := areaPeriLoop_spec E
      (voroLoop E s i (s.cellPositions i) (s.cellNeighborNum i).toNat 0
        (E.minDist s.hidden
          (s.cellPositions (s.cellNeighbors (n_idx s.neighMax (s.cellNeighborNum i - 1) i)))
          (s.cellPositions i)) (fun _ => ⟨0.0, 0.0⟩) s.voroCur).1
      (fun m => voroVertex E s i m)
      (fun m => voroVertex E s i (((m : Int) - 1) % s.cellNeighborNum i))
      (s.cellNeighborNum i).toNat 0
    unfold polygonArea polygonPerimeter
    rw [List.range_eq_range']
    by_cases hk : 0 < s.cellNeighborNum i
    · have elast : ((0 : Int) - 1) % s.cellNeighborNum i = s.cellNeighborNum i - 1 := by
        have := neg_emod_of_le ((0 : Int) - 1) (s.cellNeighborNum i) (by omega) (by omega)
        rw [this]; ring
      have hres := hloop _ (0.0 : F) (0.0 : F)
        (fun m _ hm => ((h1 m (by omega) (by omega)).1).trans (hvert m (by omega) (by omega)))
        (((h1 (s.cellNeighborNum i - 1) (by omega) (by omega)).1).trans
          ((hvert (s.cellNeighborNum i - 1) (by omega) (by omega)).trans
            (by
              show voroVertex E s i (s.cellNeighborNum i - 1)
                = voroVertex E s i ((((0 : Nat) : Int) - 1) % s.cellNeighborNum i)
              have e0 : (((0 : Nat) : Int) - 1) = (0 : Int) - 1 := by simp
              rw [e0, elast])))
        (by
          intro m _ hm
          show voroVertex E s i ((((m + 1 : Nat) : Int) - 1) % s.cellNeighborNum i)
            = voroVertex E s i m
          have e1 : (((m + 1 : Nat) : Int) - 1) = (m : Int) := by push_cast; ring
          rw [e1, Int.emod_eq_of_lt (by omega) (by omega)])
      show (⟨(areaPeriLoop E _ (s.cellNeighborNum i).toNat 0 _ 0.0 0.0).1,
        (areaPeriLoop E _ (s.cellNeighborNum i).toNat 0 _ 0.0 0.0).2⟩ : Dscalar2 F) = _
      have ez : ((0 : Nat) : Int) = 0 := rfl
      rw [ez] at hres
      rw [hres]
    · have hz : (s.cellNeighborNum i).toNat = 0 := by omega
      show (⟨(areaPeriLoop E _ (s.cellNeighborNum i).toNat 0 _ 0.0 0.0).1,
        (areaPeriLoop E _ (s.cellNeighborNum i).toNat 0 _ 0.0 0.0).2⟩ : Dscalar2 F) = _
      rw [hz]
      rfl
  · intro y hy
    exact h2 y (fun x h0 hx => hy x h0 (by omega))
  · intro j hj
    exact Function.update_noteq hj _ _

omit [Div F] [Neg F] [LT F] [DecidableRel (fun a b : F => a < b)] in
/-- The cell loop of `computeGeometryCPU` over the cells `i0 ≤ j < i0 + rem`, each with at
most `neighMax` neighbours: it changes `voroCur` and `AreaPeri` only, stores the vertices and
the sums of the cells of the range, and leaves the other entries as they are. -/
theorem computeGeometryLoop_spec (E : Env F X) (rem : Nat) :
    ∀ (i0 : Int) (s : SPV2D F X),
      (∀ j : Int, i0 ≤ j → j < i0 + rem → s.cellNeighborNum j ≤ s.neighMax) →
      ∃ (v : Int → Dscalar2 F) (a : Int → Dscalar2 F),
        computeGeometryLoop E rem i0 s = { s with voroCur := v, AreaPeri := a }
          ∧ (∀ j nn : Int, i0 ≤ j → j < i0 + rem → 0 ≤ nn → nn < s.cellNeighborNum j →
            v (n_idx s.neighMax nn j) = voroVertex E s j nn)
          ∧ (∀ j : Int, i0 ≤ j → j < i0 + rem →
            a j = ⟨polygonArea E s j, polygonPerimeter E s j⟩)
          ∧ (∀ y : Int,
            (∀ j x : Int, i0 ≤ j → j < i0 + rem → 0 ≤ x → x < s.cellNeighborNum j →
              y ≠ n_idx s.neighMax x j) → v y = s.voroCur y)
          ∧ (∀ j : Int, ¬ (i0 ≤ j ∧ j < i0 + rem) → a j = s.AreaPeri j) := by
  induction rem with
  | zero =>
    intro i0 s _
    refine ⟨s.voroCur, s.AreaPeri, rfl, ?_, ?_, ?_, ?_⟩
    · intro j nn h0 h1; exfalso; simp at h1; omega
    · intro j h0 h1; exfalso; simp at h1; omega
    · intro y _; rfl
    · intro j _; rfl
  | succ rem ih =>
    intro i0 s hM
    obtain ⟨c1, c2, c3, c4⟩ := computeGeometryCell_spec E s i0
    obtain ⟨v, a, hs, hA, hB, hC, hD⟩ := ih (i0 + 1) (computeGeometryCell E s i0)
      (fun j h0 h1 => hM j (by omega) (by push_cast; omega))
    refine ⟨v, a, ?_, ?_, ?_, ?_, ?_⟩
    · rw [computeGeometryLoop, hs]
      rfl
    · intro j nn h0 h1 hn0 hn1
      by_cases hj : j = i0
      · subst hj
        refine (hC (n_idx s.neighMax nn j) ?_).trans (c1 nn hn0 hn1)
        intro j' x hj0 _ hx0 hx1 h
        have hle := hM j (le_refl _) (by push_cast; omega)
        have hle' := hM j' (by omega) (by push_cast; omega)
        have hx1' : x < s.cellNeighborNum j' := hx1
        have := n_idx_inj_cell s.neighMax nn x j j' hn0 (by omega) hx0 (by omega) h
        omega
      · exact hA j nn (by omega) (by push_cast at h1; omega) hn0 hn1
    · intro j h0 h1
      by_cases hj : j = i0
      · subst hj
        exact (hD j (by omega)).trans c2
      · exact hB j (by omega) (by push_cast at h1; omega)
    · intro y hy
      refine (hC y (fun j x h0 h1 hx0 hx1 => hy j x (by omega) (by push_cast; omega) hx0 hx1)).trans ?_
      exact c3 y (fun x hx0 hx1 => hy i0 x (le_refl _) (by push_cast; omega) hx0 hx1)
    · intro j hj
      refine (hD j (by push_cast at hj; omega)).trans ?_
      exact c4 j (by push_cast at hj; omega)

end Geometry

section Denominators

variable {F X : Type} [Add F] [Sub F] [Mul F] [Div F] [Neg F] [OfScientific F] [LT F]
  [DecidableRel (fun a b : F => a < b)]

omit [LT F] [DecidableRel (fun a b : F => a < b)] in
/-- The first loop of `computeSPVForceCPU`: the matrices it writes. -/
theorem dhdriLoop_spec (E : Env F X) (s : SPV2D F X) (i : Int) (pi : Dscalar2 F) (rem : Nat) :
    ∀ (nn0 : Int) (rij : Dscalar2 F) (voro : Int → Dscalar2 F) (dhdri : Int → Matrix2x2 F),
      (∀ x : Int, nn0 ≤ x → x < nn0 + rem →
        (dhdriLoop E s i pi rem nn0 rij voro dhdri).2 x
          = dhdriOf E
            (if x = nn0 then rij
              else E.minDist s.hidden
                (s.cellPositions (s.cellNeighbors (n_idx s.neighMax (x - 1) i))) pi)
            (E.minDist s.hidden (s.cellPositions (s.cellNeighbors (n_idx s.neighMax x i))) pi))
      ∧ (∀ x : Int, ¬ (nn0 ≤ x ∧ x < nn0 + rem) →
        (dhdriLoop E s i pi rem nn0 rij voro dhdri).2 x = dhdri x) := by
  induction rem with
  | zero =>
    intro nn0 rij voro dhdri
    refine ⟨?_, ?_⟩
    · intro x h0 h1; exfalso; simp at h1; omega
    · intro x _; rfl
  | succ rem ih =>
    intro nn0 rij voro dhdri
    rw [dhdriLoop]
    obtain ⟨ih1, ih2⟩ := ih (nn0 + 1)
      (E.minDist s.hidden (s.cellPositions (s.cellNeighbors (n_idx s.neighMax nn0 i))) pi)
      (Function.update voro nn0 (s.voroCur (n_idx s.neighMax nn0 i)))
      (Function.update dhdri nn0 (dhdriOf E rij
        (E.minDist s.hidden (s.cellPositions (s.cellNeighbors (n_idx s.neighMax nn0 i))) pi)))
    refine ⟨?_, ?_⟩
    · intro x h0 h1
      by_cases hx : x = nn0
      · subst hx
        rw [if_pos rfl]
        refine (ih2 x (by omega)).trans ?_
        simp only [Function.update_same]
      · have hr := ih1 x (by omega) (by push_cast at h1; omega)
        rw [if_neg hx]
        by_cases hx1 : x = nn0 + 1
        · rw [if_pos hx1] at hr
          have e : x - 1 = nn0 := by omega
          rw [e]
          exact hr
        · rw [if_neg hx1] at hr
          exact hr
    · intro x hx
      refine (ih2 x (by push_cast at hx; omega)).trans ?_
      exact Function.update_noteq (by push_cast at hx; omega) _ _

omit [LT F] [DecidableRel (fun a b : F => a < b)] in
/-- The entry `dhdri[nn]` of a slot `0 ≤ nn < neigh` is computed from the `rij` and `rik`
of that slot. -/
theorem dhdriAt_eq (E : Env F X) (s : SPV2D F X) (i nn : Int) (h0 : 0 ≤ nn)
    (h1 : nn < s.cellNeighborNum i) :
    dhdriAt E s i nn = dhdriOf E (rijAt E s i nn) (rikAt E s i nn) := by
  unfold dhdriAt rijAt rikAt
  refine ((dhdriLoop_spec E s i (s.cellPositions i) (s.cellNeighborNum i).toNat 0 _ _ _).1 nn
    h0 (by omega)).trans ?_
  by_cases hx : nn = 0
  · rw [if_pos hx, if_pos hx]
  · rw [if_neg hx, if_neg hx]

omit [LT F] [DecidableRel (fun a b : F => a < b)] in
/-- The divisors of the circumcenter Jacobian are `cp` and `D` as computed. -/
theorem dhdriOf_divisors (E : Env F X) (rij rik : Dscalar2 F) :
    dhdriOf E rij rik
      = E.matAdd E.Id
        (E.scalarMat (1.0 / DOf rij rik)
          (E.matSub
            (E.matSub
              (E.matAdd
                (E.dyad rij
                  ⟨2.0 * E.dot rij ⟨rik.x - rij.x, rik.y - rij.y⟩ * rik.x
                      + E.dot rik rik * (rik.x - rij.x),
                    2.0 * E.dot rij ⟨rik.x - rij.x, rik.y - rij.y⟩ * rik.y
                      + E.dot rik rik * (rik.y - rij.y)⟩)
                (E.dyad rik
                  ⟨(-2.0) * E.dot rik ⟨rik.x - rij.x, rik.y - rij.y⟩ * rij.x
                      - E.dot rij rij * (rik.x - rij.x),
                    (-2.0) * E.dot rik ⟨rik.x - rij.x, rik.y - rij.y⟩ * rij.y
                      - E.dot rij rij * (rik.y - rij.y)⟩))
              (E.scalarMat (betaDOf E rij rik + gammaDOf E rij rik) E.Id))
            (E.dyad
              ⟨betaDOf E rij rik * rij.x + gammaDOf E rij rik * rik.x,
                betaDOf E rij rik * rij.y + gammaDOf E rij rik * rik.y⟩
              ⟨((-2.0) * (rik.y - rij.y)) / cpOf rij rik,
                (2.0 * (rik.x - rij.x)) / cpOf rij rik⟩))) := rfl

omit [Add F] [Sub F] [Mul F] [Div F] [Neg F] [OfScientific F] in
/-- A clamped norm is not below the threshold, when the threshold is not below itself. -/
theorem clampedNorm_not_lt [Add F] [Mul F] (E : Env F X) (hirr : ¬ E.THRESHOLD < E.THRESHOLD)
    (d : Dscalar2 F) : ¬ clampedNorm E d < E.THRESHOLD := by
  unfold clampedNorm
  by_cases h : E.sqrt (d.x * d.x + d.y * d.y) < E.THRESHOLD
  · rw [if_pos h]; exact hirr
  · rw [if_neg h]; exact h

end Denominators

section Jacobian

/-- The algebra behind the circumcenter: the point `(betaD*a + gammaD*b)/D` is as far from
the origin as from `a` and from `b`. -/
theorem circumcenter_equidistant (a1 a2 b1 b2 : ℝ)
    (hcp : a1 * (b2 - a2) - a2 * (b1 - a1) ≠ 0) :
    ((-(b1 * b1 + b2 * b2) * (a1 * (b1 - a1) + a2 * (b2 - a2)) * a1
          + (a1 * a1 + a2 * a2) * (b1 * (b1 - a1) + b2 * (b2 - a2)) * b1)
        / (2 * (a1 * (b2 - a2) - a2 * (b1 - a1)) * (a1 * (b2 - a2) - a2 * (b1 - a1)))) * a1
      + ((-(b1 * b1 + b2 * b2) * (a1 * (b1 - a1) + a2 * (b2 - a2)) * a2
          + (a1 * a1 + a2 * a2) * (b1 * (b1 - a1) + b2 * (b2 - a2)) * b2)
        / (2 * (a1 * (b2 - a2) - a2 * (b1 - a1)) * (a1 * (b2 - a2) - a2 * (b1 - a1)))) * a2
        = (a1 * a1 + a2 * a2) / 2
    ∧ ((-(b1 * b1 + b2 * b2) * (a1 * (b1 - a1) + a2 * (b2 - a2)) * a1
          + (a1 * a1 + a2 * a2) * (b1 * (b1 - a1) + b2 * (b2 - a2)) * b1)
        / (2 * (a1 * (b2 - a2) - a2 * (b1 - a1)) * (a1 * (b2 - a2) - a2 * (b1 - a1)))) * b1
      + ((-(b1 * b1 + b2 * b2) * (a1 * (b1 - a1) + a2 * (b2 - a2)) * a2
          + (a1 * a1 + a2 * a2) * (b1 * (b1 - a1) + b2 * (b2 - a2)) * b2)
        / (2 * (a1 * (b2 - a2) - a2 * (b1 - a1)) * (a1 * (b2 - a2) - a2 * (b1 - a1)))) * b2
        = (b1 * b1 + b2 * b2) / 2 := by
  constructor
  · field_simp
    ring
  · field_simp
    ring

/-- A point `r_i + w` with `2 w.(r_j - r_i) = |r_j - r_i|^2` is as far from `r_i` as from
`r_j`. -/
theorem equidistant_of_dot (x0 y0 p q w1 w2 : ℝ)
    (h : w1 * (p - x0) + w2 * (q - y0) = ((p - x0) * (p - x0) + (q - y0) * (q - y0)) / 2) :
    (x0 + w1 - x0) * (x0 + w1 - x0) + (y0 + w2 - y0) * (y0 + w2 - y0)
      = (x0 + w1 - p) * (x0 + w1 - p) + (y0 + w2 - q) * (y0 + w2 - q) := by
  linear_combination (2 : ℝ) * h

/-- With the planar algebra for `dot`, `dyad`, `Id` and the matrix operations, over the
reals: when `cp` is not zero the point `r_i + (betaD*rij + gammaD*rik)/D` is equidistant
from `r_i`, `r_j` and `r_k`, and the entries of `dhdriOf` are its four partial derivatives
with respect to the coordinates of `r_i`. -/
theorem dhdriOf_jacobian {X : Type} (E : Env ℝ X)
    (hdot : ∀ a b : Dscalar2 ℝ, E.dot a b = a.x * b.x + a.y * b.y)
    (hdyad : ∀ a b : Dscalar2 ℝ, E.dyad a b = ⟨a.x * b.x, a.x * b.y, a.y * b.x, a.y * b.y⟩)
    (hId : E.Id = ⟨1, 0, 0, 1⟩)
    (hadd : ∀ a b : Matrix2x2 ℝ,
      E.matAdd a b = ⟨a.x11 + b.x11, a.x12 + b.x12, a.x21 + b.x21, a.x22 + b.x22⟩)
    (hsub : ∀ a b : Matrix2x2 ℝ,
      E.matSub a b = ⟨a.x11 - b.x11, a.x12 - b.x12, a.x21 - b.x21, a.x22 - b.x22⟩)
    (hsmul : ∀ (c : ℝ) (a : Matrix2x2 ℝ),
      E.scalarMat c a = ⟨c * a.x11, c * a.x12, c * a.x21, c * a.x22⟩)
    (ri rj rk : Dscalar2 ℝ)
    (hcp : cpOf (⟨rj.x - ri.x, rj.y - ri.y⟩ : Dscalar2 ℝ) ⟨rk.x - ri.x, rk.y - ri.y⟩ ≠ 0) :
    (sqDist (circumcenterFrom E ri rj rk) ri = sqDist (circumcenterFrom E ri rj rk) rj
        ∧ sqDist (circumcenterFrom E ri rj rk) ri = sqDist (circumcenterFrom E ri rj rk) rk)
      ∧ HasDerivAt (fun x => (circumcenterFrom E ⟨x, ri.y⟩ rj rk).x)
        (dhdriOf E ⟨rj.x - ri.x, rj.y - ri.y⟩ ⟨rk.x - ri.x, rk.y - ri.y⟩).x11 ri.x
      ∧ HasDerivAt (fun y => (circumcenterFrom E ⟨ri.x, y⟩ rj rk).x)
        (dhdriOf E ⟨rj.x - ri.x, rj.y - ri.y⟩ ⟨rk.x - ri.x, rk.y - ri.y⟩).x12 ri.y
      ∧ HasDerivAt (fun x => (circumcenterFrom E ⟨x, ri.y⟩ rj rk).y)
        (dhdriOf E ⟨rj.x - ri.x, rj.y - ri.y⟩ ⟨rk.x - ri.x, rk.y - ri.y⟩).x21 ri.x
      ∧ HasDerivAt (fun y => (circumcenterFrom E ⟨ri.x, y⟩ rj rk).y)
        (dhdriOf E ⟨rj.x - ri.x, rj.y - ri.y⟩ ⟨rk.x - ri.x, rk.y - ri.y⟩).x22 ri.y := by
  obtain ⟨x0, y0⟩ := ri
  obtain ⟨p, q⟩ := rj
  obtain ⟨u, v⟩ := rk
  have e2 : (2.0 : ℝ) = 2 := by norm_num
  have e1 : (1.0 : ℝ) = 1 := by norm_num
  simp only [cpOf] at hcp
  simp only [sqDist, circumcenterFrom, dhdriOf, betaDOf, gammaDOf, DOf, cpOf, hdot, hdyad, hId,
    hadd, hsub, hsmul, e2, e1]
  have hkey := circumcenter_equidistant (p - x0) (q - y0) (u - x0) (v - y0) hcp
  refine ⟨⟨?_, ?_⟩, ?_, ?_, ?_, ?_⟩
  · exact equidistant_of_dot x0 y0 p q _ _ hkey.1
  · exact equidistant_of_dot x0 y0 u v _ _ hkey.2
  · have hA : HasDerivAt (fun t : ℝ => p - t) (-1) x0 := by
      simpa using (hasDerivAt_id x0).const_sub p
    have hB : HasDerivAt (fun t : ℝ => u - t) (-1) x0 := by
      simpa using (hasDerivAt_id x0).const_sub u
    have ha : HasDerivAt (fun _ : ℝ => q - y0) 0 x0 := hasDerivAt_const x0 _
    have hb : HasDerivAt (fun _ : ℝ => v - y0) 0 x0 := hasDerivAt_const x0 _
    have hBB := (hB.mul hB).add (hb.mul hb)
    have hAA := (hA.mul hA).add (ha.mul ha)
    have hAJ := (hA.mul (hB.sub hA)).add (ha.mul (hb.sub ha))
    have hBJ := (hB.mul (hB.sub hA)).add (hb.mul (hb.sub ha))
    have hN := ((hBB.neg.mul hAJ).mul hA).add ((hAA.mul hBJ).mul hB)
    have hC := (hA.mul (hb.sub ha)).sub (ha.mul (hB.sub hA))
    have hD := (hC.const_mul 2).mul hC
    have hne : (2 * ((p - x0) * (v - y0 - (q - y0)) - (q - y0) * (u - x0 - (p - x0)))
        * ((p - x0) * (v - y0 - (q - y0)) - (q - y0) * (u - x0 - (p - x0)))) ≠ 0 :=
      mul_ne_zero (mul_ne_zero two_ne_zero hcp) hcp
    have h := (hasDerivAt_id' x0).add (hN.div hD hne)
    refine h.congr_deriv ?_
    beta_reduce
    generalize p - x0 = a1 at hcp hne ⊢
    generalize q - y0 = a2 at hcp hne ⊢
    generalize u - x0 = b1 at hcp hne ⊢
    generalize v - y0 = b2 at hcp hne ⊢
    field_simp
    ring
  · have hA : HasDerivAt (fun _ : ℝ => p - x0) 0 y0 := hasDerivAt_const y0 _
    have hB : HasDerivAt (fun _ : ℝ => u - x0) 0 y0 := hasDerivAt_const y0 _
    have ha : HasDerivAt (fun t : ℝ => q - t) (-1) y0 := by
      simpa using (hasDerivAt_id y0).const_sub q
    have hb : HasDerivAt (fun t : ℝ => v - t) (-1) y0 := by
      simpa using (hasDerivAt_id y0).const_sub v
    have hBB := (hB.mul hB).add (hb.mul hb)
    have hAA := (hA.mul hA).add (ha.mul ha)
    have hAJ := (hA.mul (hB.sub hA)).add (ha.mul (hb.sub ha))
    have hBJ := (hB.mul (hB.sub hA)).add (hb.mul (hb.sub ha))
    have hN := ((hBB.neg.mul hAJ).mul hA).add ((hAA.mul hBJ).mul hB)
    have hC := (hA.mul (hb.sub ha)).sub (ha.mul (hB.sub hA))
    have hD := (hC.const_mul 2).mul hC
    have hne : (2 * ((p - x0) * (v - y0 - (q - y0)) - (q - y0) * (u - x0 - (p - x0)))
        * ((p - x0) * (v - y0 - (q - y0)) - (q - y0) * (u - x0 - (p - x0)))) ≠ 0 :=
      mul_ne_zero (mul_ne_zero two_ne_zero hcp) hcp
    have h := (hasDerivAt_const y0 x0).add (hN.div hD hne)
    refine h.congr_deriv ?_
    beta_reduce
    generalize p - x0 = a1 at hcp hne ⊢
    generalize q - y0 = a2 at hcp hne ⊢
    generalize u - x0 = b1 at hcp hne ⊢
    generalize v - y0 = b2 at hcp hne ⊢
    field_simp
    ring
  · have hA : HasDerivAt (fun t : ℝ => p - t) (-1) x0 := by
      simpa using (hasDerivAt_id x0).const_sub p
    have hB : HasDerivAt (fun t : ℝ => u - t) (-1) x0 := by
      simpa using (hasDerivAt_id x0).const_sub u
    have ha : HasDerivAt (fun _ : ℝ => q - y0) 0 x0 := hasDerivAt_const x0 _
    have hb : HasDerivAt (fun _ : ℝ => v - y0) 0 x0 := hasDerivAt_const x0 _
    have hBB := (hB.mul hB).add (hb.mul hb)
    have hAA := (hA.mul hA).add (ha.mul ha)
    have hAJ := (hA.mul (hB.sub hA)).add (ha.mul (hb.sub ha))
    have hBJ := (hB.mul (hB.sub hA)).add (hb.mul (hb.sub ha))
    have hN := ((hBB.neg.mul hAJ).mul ha).add ((hAA.mul hBJ).mul hb)
    have hC := (hA.mul (hb.sub ha)).sub (ha.mul (hB.sub hA))
    have hD := (hC.const_mul 2).mul hC
    have hne : (2 * ((p - x0) * (v - y0 - (q - y0)) - (q - y0) * (u - x0 - (p - x0)))
        * ((p - x0) * (v - y0 - (q - y0)) - (q - y0) * (u - x0 - (p - x0)))) ≠ 0 :=
      mul_ne_zero (mul_ne_zero two_ne_zero hcp) hcp
    have h := (hasDerivAt_const x0 y0).add (hN.div hD hne)
    refine h.congr_deriv ?_
    beta_reduce
    generalize p - x0 = a1 at hcp hne ⊢
    generalize q - y0 = a2 at hcp hne ⊢
    generalize u - x0 = b1 at hcp hne ⊢
    generalize v - y0 = b2 at hcp hne ⊢
    field_simp
    ring
  · have hA : HasDerivAt (fun _ : ℝ => p - x0) 0 y0 := hasDerivAt_const y0 _
    have hB : HasDerivAt (fun _ : ℝ => u - x0) 0 y0 := hasDerivAt_const y0 _
    have ha : HasDerivAt (fun t : ℝ => q - t) (-1) y0 := by
      simpa using (hasDerivAt_id y0).const_sub q
    have hb : HasDerivAt (fun t : ℝ => v - t) (-1) y0 := by
      simpa using (hasDerivAt_id y0).const_sub v
    have hBB := (hB.mul hB).add (hb.mul hb)
    have hAA := (hA.mul hA).add (ha.mul ha)
    have hAJ := (hA.mul (hB.sub hA)).add (ha.mul (hb.sub ha))
    have hBJ := (hB.mul (hB.sub hA)).add (hb.mul (hb.sub ha))
    have hN := ((hBB.neg.mul hAJ).mul ha).add ((hAA.mul hBJ).mul hb)
    have hC := (hA.mul (hb.sub ha)).sub (ha.mul (hB.sub hA))
    have hD := (hC.const_mul 2).mul hC
    have hne : (2 * ((p - x0) * (v - y0 - (q - y0)) - (q - y0) * (u - x0 - (p - x0)))
        * ((p - x0) * (v - y0 - (q - y0)) - (q - y0) * (u - x0 - (p - x0)))) ≠ 0 :=
      mul_ne_zero (mul_ne_zero two_ne_zero hcp) hcp
    have h := (hasDerivAt_id' y0).add (hN.div hD hne)
    refine h.congr_deriv ?_
    beta_reduce
    generalize p - x0 = a1 at hcp hne ⊢
    generalize q - y0 = a2 at hcp hne ⊢
    generalize u - x0 = b1 at hcp hne ⊢
    generalize v - y0 = b2 at hcp hne ⊢
    field_simp
    ring

end Jacobian

section LookupClaims

variable {F X : Type} [Add F] [Sub F] [Mul F] [Div F] [Neg F] [OfScientific F] [LT F]
  [DecidableRel (fun a b : F => a < b)]

/-- C11 (as stated, refuted): in the tetrahedral triangulation with the list of cell 3
corrupted to 2,0,1, slot 2 of `computeSPVForceCPU(0)` has `baseNeigh = 3`,
`otherNeigh = 2` and finds as third point the cell 0 itself, yet the call raises no
exception and completes. -/
theorem computeSPVForceCPU_self_reference_passes :
    (0 : Int) ≤ 2 ∧ (2 : Int) < corruptTetra.cellNeighborNum 0
      ∧ baseNeighAt corruptTetra 0 2 = 3 ∧ otherNeighAt corruptTetra 0 2 = 2
      ∧ thirdPoint corruptTetra 0 2 = 0
      ∧ (computeSPVForceCPU (idleEnv 1 0) corruptTetra 0).thrown = false := by
  decide

/-- C11 (amended): `computeSPVForceCPU(i)` raises the exception if and only if, for some
slot `nn < neigh(i)`, the third point `DT_other_idx` found by the scan of `baseNeigh`'s
list equals `otherNeigh`, equals `baseNeigh`, or is the sentinel -1 of a scan without a
match; otherwise the call completes and stores a force: `forceSum`, or (0,0) for an
excluded cell. A third point equal to the cell `i` itself is not tested. -/
theorem computeSPVForceCPU_throws_iff (E : Env F X) (s : SPV2D F X) (i : Int) :
    ((computeSPVForceCPU E s i).thrown = true ↔
        ∃ nn : Int, 0 ≤ nn ∧ nn < s.cellNeighborNum i
          ∧ (thirdPoint s i nn = otherNeighAt s i nn ∨ thirdPoint s i nn = baseNeighAt s i nn
            ∨ thirdPoint s i nn = -1))
      ∧ ((computeSPVForceCPU E s i).thrown = false →
        ∃ forceSum : Dscalar2 F, forceSumCPU E s i = some forceSum
          ∧ (computeSPVForceCPU E s i).get.forces i =
            if s.particleExclusions = true ∧ s.exclusions i ≠ 0 then ⟨0.0, 0.0⟩
            else forceSum) := by
  have hn := forceSumCPU_none_iff E s i
  unfold slotThrows at hn
  rw [← hn]
  unfold computeSPVForceCPU
  cases hsum : forceSumCPU E s i with
  | none => simp [Outcome.thrown]
  | some f =>
    refine ⟨by simp only []; split_ifs <;> simp [Outcome.thrown], fun _ => ⟨f, rfl, ?_⟩⟩
    simp only []
    by_cases hp : s.particleExclusions = true
    · by_cases he : s.exclusions i = 0
      · simp [hp, he, Outcome.get]
      · simp [hp, he, Outcome.get]
    · simp [hp, Outcome.get]

end LookupClaims

section GeometryClaims

variable {F X : Type} [Add F] [Sub F] [Mul F] [OfScientific F]

/-- C13: in a state whose cells each have between 1 and `neighMax` neighbours, for every
cell `i` with neighbours `n_0..n_{k-1}`, `computeGeometryCPU` stores at slot `nn` the
Voronoi vertex `v_nn = Circumcenter(minDist(p[n_{(nn-1) mod k}], p_i), minDist(p[n_nn], p_i))`
into `voroCur[n_idx(nn,i)]`, and stores `AreaPeri[i]` as the pair of the sum over `nn` of
`TriangleArea(v_{(nn-1) mod k}, v_nn)` and the sum over `nn` of the Euclidean distance
between `v_{(nn-1) mod k}` and `v_nn`. -/
theorem computeGeometryCPU_spec (E : Env F X) (s : SPV2D F X)
    (hcells : ∀ j : Int, 0 ≤ j → j < s.Ncells →
      1 ≤ s.cellNeighborNum j ∧ s.cellNeighborNum j ≤ s.neighMax)
    (i : Int) (h0 : 0 ≤ i) (h1 : i < s.Ncells) :
    (∀ nn : Int, 0 ≤ nn → nn < s.cellNeighborNum i →
        (computeGeometryCPU E s).voroCur (n_idx s.neighMax nn i) = voroVertex E s i nn)
      ∧ (computeGeometryCPU E s).AreaPeri i
        = ⟨polygonArea E s i, polygonPerimeter E s i⟩ := by
  obtain ⟨v, a, hs, hA, hB, _, _⟩ := computeGeometryLoop_spec E s.Ncells.toNat 0 s
    (fun j hj0 hj1 => (hcells j hj0 (by omega)).2)
  unfold computeGeometryCPU
  rw [hs]
  exact ⟨fun nn hn0 hn1 => hA i nn h0 (by omega) hn0 hn1, hB i h0 (by omega)⟩

/-- Witness of C13: cell 0 of the tetrahedral triangulation with the cells at (0,0), (3,1),
(1,4) and (-2,-3), in the planar environment over the rationals: the vertex of slot 0 is
(43/14, -59/14) and the area sum is 12168/385. -/
theorem computeGeometryCPU_spec_witness :
    (∀ j : Int, 0 ≤ j → j < skewTetra.Ncells →
        1 ≤ skewTetra.cellNeighborNum j ∧ skewTetra.cellNeighborNum j ≤ skewTetra.neighMax)
      ∧ ((computeGeometryCPU (planarEnv ℚ (fun x => x) (1 / 1000000)) skewTetra).voroCur
          (n_idx skewTetra.neighMax 0 0)
        = voroVertex (planarEnv ℚ (fun x => x) (1 / 1000000)) skewTetra 0 0)
      ∧ voroVertex (planarEnv ℚ (fun x => x) (1 / 1000000)) skewTetra 0 0 = ⟨43 / 14, -59 / 14⟩
      ∧ (computeGeometryCPU (planarEnv ℚ (fun x => x) (1 / 1000000)) skewTetra).AreaPeri 0
        = ⟨polygonArea (planarEnv ℚ (fun x => x) (1 / 1000000)) skewTetra 0,
          polygonPerimeter (planarEnv ℚ (fun x => x) (1 / 1000000)) skewTetra 0⟩
      ∧ polygonArea (planarEnv ℚ (fun x => x) (1 / 1000000)) skewTetra 0 = 12168 / 385 :=
  have hcells : ∀ j : Int, 0 ≤ j → j < skewTetra.Ncells →
      1 ≤ skewTetra.cellNeighborNum j ∧ skewTetra.cellNeighborNum j ≤ skewTetra.neighMax := by
    intro j h0 h1
    change j < 4 at h1
    interval_cases j <;> decide
  ⟨hcells,
    (computeGeometryCPU_spec (planarEnv ℚ (fun x => x) (1 / 1000000)) skewTetra hcells 0
      (by decide) (by decide)).1 0 (by decide) (by decide),
    by decide!,
    (computeGeometryCPU_spec (planarEnv ℚ (fun x => x) (1 / 1000000)) skewTetra hcells 0
      (by decide) (by decide)).2,
    by decide!⟩

end GeometryClaims

section SlotClaims

variable {F X : Type}

/-- C14 (as stated, refuted): two states with the same neighbour counts and lists, in
which the lookup of slot 0 of cell 0 finds no match, and which differ only in the prior
content of `delOther` (0 everywhere, 1 everywhere): `getDelSets(0)` returns false on the
first and true on the second. -/
theorem getDelSets_flag_depends_on_prior :
    ({ looseTetra with delOther := fun _ => 0 } : SPV2D ℚ Unit).cellNeighborNum
        = ({ looseTetra with delOther := fun _ => 1 } : SPV2D ℚ Unit).cellNeighborNum
      ∧ ({ looseTetra with delOther := fun _ => 0 } : SPV2D ℚ Unit).cellNeighbors
        = ({ looseTetra with delOther := fun _ => 1 } : SPV2D ℚ Unit).cellNeighbors
      ∧ (getDelSets { looseTetra with delOther := fun _ => 0 } 0).1 = false
      ∧ (getDelSets { looseTetra with delOther := fun _ => 1 } 0).1 = true :=
  ⟨rfl, rfl, by decide, by decide⟩

/-- C14 (amended): for two states that agree on `neighMax`, on the neighbour counts and
on the neighbour lists, and on the prior `delOther` entry of every slot of cell `i` whose
lookup finds no match, whatever the other prior contents of `delSets` and `delOther`,
`getDelSets(i)` returns the same flag, and when it returns true the resulting `delSets`
and `delOther` entries of cell `i` are the same in both runs. -/
theorem getDelSets_determined (s s' : SPV2D F X) (i : Int)
    (hM : s.neighMax = s'.neighMax) (hnum : s.cellNeighborNum = s'.cellNeighborNum)
    (hns : s.cellNeighbors = s'.cellNeighbors)
    (hstale : ∀ nn : Int, 0 ≤ nn → nn < s.cellNeighborNum i →
      lookupDelOther s.neighMax s.cellNeighborNum s.cellNeighbors (windowAt s i nn).x
        (windowAt s i nn).y = none →
      s.delOther (n_idx s.neighMax nn i) = s'.delOther (n_idx s.neighMax nn i)) :
    (getDelSets s i).1 = (getDelSets s' i).1
      ∧ ((getDelSets s i).1 = true →
        ∀ nn : Int, 0 ≤ nn → nn < s.cellNeighborNum i →
          (getDelSets s i).2.delSets (n_idx s.neighMax nn i)
              = (getDelSets s' i).2.delSets (n_idx s.neighMax nn i)
            ∧ (getDelSets s i).2.delOther (n_idx s.neighMax nn i)
              = (getDelSets s' i).2.delOther (n_idx s.neighMax nn i)) := by
  have h := getDelSetsLoop_determined s.neighMax s.cellNeighborNum s.cellNeighbors i
    (s.cellNeighborNum i).toNat 0
    (s.cellNeighbors (n_idx s.neighMax (s.cellNeighborNum i - 3) i))
    (s.cellNeighbors (n_idx s.neighMax (s.cellNeighborNum i - 2) i))
    (s.cellNeighbors (n_idx s.neighMax (s.cellNeighborNum i - 1) i)) s.delSets s'.delSets
    s.delOther s'.delOther
    (by
      intro m hm hl
      have e : (0 : Int) + (m : Int) = (m : Int) := by omega
      rw [e]
      apply hstale m (by omega) (by omega)
      rw [windowAt_eq_windowFrom]
      exact hl)
  have hs' : getDelSetsUpTo s' i (s'.cellNeighborNum i).toNat
      = getDelSetsLoop s.neighMax s.cellNeighborNum s.cellNeighbors i
        (s.cellNeighborNum i).toNat 0
        (s.cellNeighbors (n_idx s.neighMax (s.cellNeighborNum i - 3) i))
        (s.cellNeighbors (n_idx s.neighMax (s.cellNeighborNum i - 2) i))
        (s.cellNeighbors (n_idx s.neighMax (s.cellNeighborNum i - 1) i)) s'.delSets
        s'.delOther := by
    unfold getDelSetsUpTo
    rw [← hM, ← hnum, ← hns]
  constructor
  · show (getDelSetsUpTo s i _).1 = (getDelSetsUpTo s' i _).1
    rw [hs']
    exact h.1
  · intro ht nn h0 h1
    have hm := h.2 ht nn.toNat (by omega)
    have e : (0 : Int) + (nn.toNat : Int) = nn := by omega
    rw [e] at hm
    show (getDelSetsUpTo s i _).2.1 _ = (getDelSetsUpTo s' i _).2.1 _
      ∧ (getDelSetsUpTo s i _).2.2 _ = (getDelSetsUpTo s' i _).2.2 _
    rw [hs']
    exact hm

/-- Witness of C14 (amended): the tetrahedral triangulation, in which every lookup finds
its match, with two different prior contents. -/
theorem getDelSets_determined_witness :
    (∀ nn : Int, 0 ≤ nn → nn < tetra.cellNeighborNum 0 →
        lookupDelOther tetra.neighMax tetra.cellNeighborNum tetra.cellNeighbors
          (windowAt tetra 0 nn).x (windowAt tetra 0 nn).y = none →
        tetra.delOther (n_idx tetra.neighMax nn 0)
          = ({ tetra with delSets := fun _ => ⟨7, 7⟩, delOther := fun _ => 9 } :
              SPV2D ℚ Unit).delOther (n_idx tetra.neighMax nn 0))
      ∧ (getDelSets tetra 0).1
        = (getDelSets { tetra with delSets := fun _ => ⟨7, 7⟩, delOther := fun _ => 9 } 0).1
      ∧ (getDelSets tetra 0).1 = true :=
  have hstale : ∀ nn : Int, 0 ≤ nn → nn < tetra.cellNeighborNum 0 →
      lookupDelOther tetra.neighMax tetra.cellNeighborNum tetra.cellNeighbors
        (windowAt tetra 0 nn).x (windowAt tetra 0 nn).y = none →
      tetra.delOther (n_idx tetra.neighMax nn 0)
        = ({ tetra with delSets := fun _ => ⟨7, 7⟩, delOther := fun _ => 9 } :
            SPV2D ℚ Unit).delOther (n_idx tetra.neighMax nn 0) := by
    intro nn h0 h1
    change nn < 3 at h1
    interval_cases nn <;> decide
  ⟨hstale,
    (getDelSets_determined tetra
      { tetra with delSets := fun _ => ⟨7, 7⟩, delOther := fun _ => 9 } 0 rfl rfl rfl
      hstale).1,
    by decide⟩

/-- C15: for a cell `i` with `neigh(i) ≤ neighMax`, `getDelSets(i)` leaves every `delSets`
and `delOther` entry of the slots of every other cell as it was, leaves the neighbour counts
and the neighbour lists as they were, and, when it returns false at slot `m`, leaves the
entries of cell `i` at the slots `nn > m` as they were. -/
theorem getDelSets_frame (s : SPV2D F X) (i : Int)
    (hk : s.cellNeighborNum i ≤ s.neighMax) :
    (∀ j nn : Int, j ≠ i → 0 ≤ nn → nn < s.neighMax →
        (getDelSets s i).2.delSets (n_idx s.neighMax nn j) = s.delSets (n_idx s.neighMax nn j)
          ∧ (getDelSets s i).2.delOther (n_idx s.neighMax nn j)
            = s.delOther (n_idx s.neighMax nn j))
      ∧ (getDelSets s i).2.cellNeighborNum = s.cellNeighborNum
      ∧ (getDelSets s i).2.cellNeighbors = s.cellNeighbors
      ∧ (∀ m : Nat, (m : Int) < s.cellNeighborNum i → reachesSlot s i m →
          ¬ reachesSlot s i (m + 1) →
          (getDelSets s i).1 = false
            ∧ ∀ nn : Int, (m : Int) < nn →
              (getDelSets s i).2.delSets (n_idx s.neighMax nn i)
                  = s.delSets (n_idx s.neighMax nn i)
                ∧ (getDelSets s i).2.delOther (n_idx s.neighMax nn i)
                  = s.delOther (n_idx s.neighMax nn i)) := by
  refine ⟨?_, rfl, rfl, ?_⟩
  · intro j nn hj h0 h1
    apply getDelSetsLoop_frame s.neighMax s.cellNeighborNum s.cellNeighbors i
      (s.cellNeighborNum i).toNat 0
    intro m hm heq
    exact hj (n_idx_inj_cell s.neighMax _ _ _ _ h0 h1 (by omega) (by omega) heq)
  · intro m hm _ hf
    have heq := getDelSets_eq_upTo s i m hm hf
    have hfalse : (getDelSetsUpTo s i (m + 1)).1 = false := by
      unfold reachesSlot at hf
      cases h : (getDelSetsUpTo s i (m + 1)).1 with
      | false => rfl
      | true => exact absurd h hf
    refine ⟨?_, ?_⟩
    · show (getDelSetsUpTo s i _).1 = false
      rw [heq]; exact hfalse
    · intro nn hnn
      show (getDelSetsUpTo s i _).2.1 _ = _ ∧ (getDelSetsUpTo s i _).2.2 _ = _
      rw [heq]
      refine getDelSetsLoop_frame s.neighMax s.cellNeighborNum s.cellNeighbors i (m + 1) 0
        (s.cellNeighbors (n_idx s.neighMax (s.cellNeighborNum i - 3) i))
        (s.cellNeighbors (n_idx s.neighMax (s.cellNeighborNum i - 2) i))
        (s.cellNeighbors (n_idx s.neighMax (s.cellNeighborNum i - 1) i)) s.delSets s.delOther
        (n_idx s.neighMax nn i) ?_
      intro m' hm' h
      have := n_idx_inj s.neighMax i _ _ h
      omega

/-- Witness of C15: cell 4 of the tetrahedral triangulation with a corrupt fifth cell,
where `getDelSets(4)` returns false at slot 0. -/
theorem getDelSets_frame_witness :
    mixedTetra.cellNeighborNum 4 ≤ mixedTetra.neighMax
      ∧ (((0 : Nat) : Int) < mixedTetra.cellNeighborNum 4 ∧ reachesSlot mixedTetra 4 0
        ∧ ¬ reachesSlot mixedTetra 4 (0 + 1))
      ∧ (getDelSets mixedTetra 4).1 = false
      ∧ ∀ nn : Int, ((0 : Nat) : Int) < nn →
        (getDelSets mixedTetra 4).2.delSets (n_idx mixedTetra.neighMax nn 4)
            = mixedTetra.delSets (n_idx mixedTetra.neighMax nn 4)
          ∧ (getDelSets mixedTetra 4).2.delOther (n_idx mixedTetra.neighMax nn 4)
            = mixedTetra.delOther (n_idx mixedTetra.neighMax nn 4) :=
  ⟨by decide, ⟨by decide, by decide, by decide⟩,
    (getDelSets_frame mixedTetra 4 (by decide)).2.2.2 0 (by decide) (by decide) (by decide)⟩

/-- C19: at every slot `nn` that `getDelSets(i)` reaches, with `(a, b)` the DelSet stored
there: when `a` occurs in the neighbour list of `b`, the DelOther stored is the entry that
cyclically follows the first occurrence of `a` in that list; when `a` does not occur in it,
the DelOther entry keeps its previous value. -/
theorem getDelSets_delOther_slot (s : SPV2D F X) (i : Int) (nn : Nat)
    (hnn : (nn : Int) < s.cellNeighborNum i) (hr : reachesSlot s i nn) :
    (∀ q : Int, 0 ≤ q →
        q < s.cellNeighborNum ((getDelSets s i).2.delSets (n_idx s.neighMax nn i)).y →
        nbr s ((getDelSets s i).2.delSets (n_idx s.neighMax nn i)).y q
          = ((getDelSets s i).2.delSets (n_idx s.neighMax nn i)).x →
        (∀ p : Int, 0 ≤ p → p < q →
          nbr s ((getDelSets s i).2.delSets (n_idx s.neighMax nn i)).y p
            ≠ ((getDelSets s i).2.delSets (n_idx s.neighMax nn i)).x) →
        (getDelSets s i).2.delOther (n_idx s.neighMax nn i) =
          nbr s ((getDelSets s i).2.delSets (n_idx s.neighMax nn i)).y
            ((q + 1) % s.cellNeighborNum ((getDelSets s i).2.delSets (n_idx s.neighMax nn i)).y))
      ∧ ((∀ p : Int, 0 ≤ p →
          p < s.cellNeighborNum ((getDelSets s i).2.delSets (n_idx s.neighMax nn i)).y →
          nbr s ((getDelSets s i).2.delSets (n_idx s.neighMax nn i)).y p
            ≠ ((getDelSets s i).2.delSets (n_idx s.neighMax nn i)).x) →
        (getDelSets s i).2.delOther (n_idx s.neighMax nn i)
          = s.delOther (n_idx s.neighMax nn i)) := by
  rw [getDelSets_delSets_reached s i nn hnn hr, getDelSets_delOther_reached s i nn hnn hr]
  generalize (windowAt s i nn).x = a
  generalize (windowAt s i nn).y = b
  unfold lookupDelOther nbr
  constructor
  · intro q hq0 hq1 hqa hfirst
    rw [findDelOther_first s.neighMax s.cellNeighbors b a (s.cellNeighborNum b) q
      (s.cellNeighborNum b).toNat 0 hq0 (by omega) (fun p hp0 hp1 => hfirst p hp0 hp1) hqa]
    rfl
  · intro hno
    have hnone : findDelOther s.neighMax s.cellNeighbors b a (s.cellNeighborNum b)
        (s.cellNeighborNum b).toNat 0 = none := by
      rw [findDelOther_none_iff]
      intro m hm
      have e : (0 : Int) + (m : Int) = (m : Int) := by omega
      rw [e]
      exact hno m (by omega) (by omega)
    rw [hnone]
    rfl

/-- Witness of C19: slot 0 of cell 0 of the tetrahedral triangulation, whose DelSet is
(2, 3) and whose DelOther is 1, the entry after 2 in the list 0,2,1 of cell 3. -/
theorem getDelSets_delOther_slot_witness :
    ((0 : Nat) : Int) < tetra.cellNeighborNum 0 ∧ reachesSlot tetra 0 0
      ∧ (getDelSets tetra 0).2.delSets (n_idx tetra.neighMax (0 : Nat) 0) = ⟨2, 3⟩
      ∧ (getDelSets tetra 0).2.delOther (n_idx tetra.neighMax (0 : Nat) 0) =
        nbr tetra ((getDelSets tetra 0).2.delSets (n_idx tetra.neighMax (0 : Nat) 0)).y
          ((1 + 1) % tetra.cellNeighborNum
            ((getDelSets tetra 0).2.delSets (n_idx tetra.neighMax (0 : Nat) 0)).y) :=
  ⟨by decide, by decide, by decide,
    (getDelSets_delOther_slot tetra 0 0 (by decide) (by decide)).1 1 (by decide) (by decide)
      (by decide) (by intro p h0 h1; interval_cases p; decide)⟩

end SlotClaims

section ExclusionClaims

variable {F X : Type} [OfScientific F]

/-- C16: after `setExclusions(exes)`, for every cell `ii` (`0 ≤ ii < Ncells`, the length of
`exes`): `exclusions[ii]` is 1 if `exes[ii] != 0` and 0 otherwise; the motility pair of a
cell with `exes[ii] != 0` is (0, 0) and that of every other cell is unchanged; and
`particleExclusions` is true. -/
theorem setExclusions_spec (E : Env F X) (s : SPV2D F X) (exes : Int → Int) (ii : Int)
    (h0 : 0 ≤ ii) (h1 : ii < s.Ncells) :
    (setExclusions E s exes).exclusions ii = (if exes ii ≠ 0 then 1 else 0)
      ∧ (setExclusions E s exes).Motility ii
        = (if exes ii ≠ 0 then ⟨0.0, 0.0⟩ else s.Motility ii)
      ∧ (setExclusions E s exes).particleExclusions = true := by
  have hr : (0 : Int) ≤ ii ∧ ii < 0 + ((s.Ncells.toNat : Nat) : Int) := by omega
  obtain ⟨a, b⟩ := setExclusionsLoop_spec exes s.Ncells.toNat 0 s.Motility
    (E.resize s.exclusions s.Ncells) ii
  rw [if_pos hr] at a
  refine ⟨a, ?_, rfl⟩
  refine Eq.trans b ?_
  by_cases he : exes ii ≠ 0
  · rw [if_pos ⟨hr, he⟩, if_pos he]
  · rw [if_neg (fun h => he h.2), if_neg he]

/-- Witness of C16: cell 1 of the tetrahedral triangulation, excluded by the list
0, 1, 0, 0. -/
theorem setExclusions_spec_witness :
    ((0 : Int) ≤ 1 ∧ (1 : Int) < tetra.Ncells)
      ∧ (setExclusions (idleEnv 1 0) tetra (arrayOf [0, 1, 0, 0])).exclusions 1
        = (if arrayOf [0, 1, 0, 0] 1 ≠ 0 then 1 else 0)
      ∧ (setExclusions (idleEnv 1 0) tetra (arrayOf [0, 1, 0, 0])).Motility 1
        = (if arrayOf [0, 1, 0, 0] 1 ≠ 0 then ⟨0.0, 0.0⟩ else tetra.Motility 1)
      ∧ (setExclusions (idleEnv 1 0) tetra (arrayOf [0, 1, 0, 0])).particleExclusions = true :=
  ⟨⟨by decide, by decide⟩,
    setExclusions_spec (idleEnv 1 0) tetra (arrayOf [0, 1, 0, 0]) 1 (by decide) (by decide)⟩

end ExclusionClaims

section JacobianClaims

/-- C17: with the planar algebra for `dot`, `dyad`, `Id` and the matrix operations, in exact
real arithmetic: in a slot `nn` of the first loop of `computeSPVForceCPU(i)` where
`rij = r_j - r_i` and `rik = r_k - r_i` (`r_j` the position of the previous neighbour, `r_k`
that of the neighbour of the slot) and `cp` is not zero, the point
`r_i + (betaD*rij + gammaD*rik)/D` is equidistant from `r_i`, `r_j` and `r_k`, and the
entries of `dhdri[nn]` are the partial derivatives of that point with respect to `r_i` with
`r_j` and `r_k` held fixed: `x11` and `x12` those of its first coordinate by the first and
the second coordinate of `r_i`, `x21` and `x22` those of its second coordinate. -/
theorem dhdri_is_circumcenter_jacobian {X : Type} (E : Env ℝ X) (s : SPV2D ℝ X) (i nn : Int)
    (hdot : ∀ a b : Dscalar2 ℝ, E.dot a b = a.x * b.x + a.y * b.y)
    (hdyad : ∀ a b : Dscalar2 ℝ, E.dyad a b = ⟨a.x * b.x, a.x * b.y, a.y * b.x, a.y * b.y⟩)
    (hId : E.Id = ⟨1, 0, 0, 1⟩)
    (hadd : ∀ a b : Matrix2x2 ℝ,
      E.matAdd a b = ⟨a.x11 + b.x11, a.x12 + b.x12, a.x21 + b.x21, a.x22 + b.x22⟩)
    (hsub : ∀ a b : Matrix2x2 ℝ,
      E.matSub a b = ⟨a.x11 - b.x11, a.x12 - b.x12, a.x21 - b.x21, a.x22 - b.x22⟩)
    (hsmul : ∀ (c : ℝ) (a : Matrix2x2 ℝ),
      E.scalarMat c a = ⟨c * a.x11, c * a.x12, c * a.x21, c * a.x22⟩)
    (h0 : 0 ≤ nn) (h1 : nn < s.cellNeighborNum i)
    (hij : rijAt E s i nn
      = ⟨(s.cellPositions (otherNeighAt s i nn)).x - (s.cellPositions i).x,
        (s.cellPositions (otherNeighAt s i nn)).y - (s.cellPositions i).y⟩)
    (hik : rikAt E s i nn
      = ⟨(s.cellPositions (baseNeighAt s i nn)).x - (s.cellPositions i).x,
        (s.cellPositions (baseNeighAt s i nn)).y - (s.cellPositions i).y⟩)
    (hcp : cpOf (rijAt E s i nn) (rikAt E s i nn) ≠ 0) :
    (sqDist (circumcenterFrom E (s.cellPositions i) (s.cellPositions (otherNeighAt s i nn))
          (s.cellPositions (baseNeighAt s i nn))) (s.cellPositions i)
        = sqDist (circumcenterFrom E (s.cellPositions i) (s.cellPositions (otherNeighAt s i nn))
          (s.cellPositions (baseNeighAt s i nn))) (s.cellPositions (otherNeighAt s i nn))
      ∧ sqDist (circumcenterFrom E (s.cellPositions i) (s.cellPositions (otherNeighAt s i nn))
          (s.cellPositions (baseNeighAt s i nn))) (s.cellPositions i)
        = sqDist (circumcenterFrom E (s.cellPositions i) (s.cellPositions (otherNeighAt s i nn))
          (s.cellPositions (baseNeighAt s i nn))) (s.cellPositions (baseNeighAt s i nn)))
      ∧ HasDerivAt
        (fun x => (circumcenterFrom E ⟨x, (s.cellPositions i).y⟩
          (s.cellPositions (otherNeighAt s i nn)) (s.cellPositions (baseNeighAt s i nn))).x)
        (dhdriAt E s i nn).x11 (s.cellPositions i).x
      ∧ HasDerivAt
        (fun y => (circumcenterFrom E ⟨(s.cellPositions i).x, y⟩
          (s.cellPositions (otherNeighAt s i nn)) (s.cellPositions (baseNeighAt s i nn))).x)
        (dhdriAt E s i nn).x12 (s.cellPositions i).y
      ∧ HasDerivAt
        (fun x => (circumcenterFrom E ⟨x, (s.cellPositions i).y⟩
          (s.cellPositions (otherNeighAt s i nn)) (s.cellPositions (baseNeighAt s i nn))).y)
        (dhdriAt E s i nn).x21 (s.cellPositions i).x
      ∧ HasDerivAt
        (fun y => (circumcenterFrom E ⟨(s.cellPositions i).x, y⟩
          (s.cellPositions (otherNeighAt s i nn)) (s.cellPositions (baseNeighAt s i nn))).y)
        (dhdriAt E s i nn).x22 (s.cellPositions i).y := by
  rw [dhdriAt_eq E s i nn h0 h1]
  rw [hij, hik] at hcp ⊢
  exact dhdriOf_jacobian E hdot hdyad hId hadd hsub hsmul (s.cellPositions i)
    (s.cellPositions (otherNeighAt s i nn)) (s.cellPositions (baseNeighAt s i nn)) hcp

/-- Witness of C17: slot 1 of cell 0 of the tetrahedral triangulation with the cells at
(0,0), (1,0), (0,1) and (-1,-1), in the planar environment over the reals; there
`rij = (1,0)`, `rik = (0,1)` and `cp = 1`. -/
theorem dhdri_is_circumcenter_jacobian_witness :
    cpOf (rijAt (planarEnvOver ℝ) (tetraOver ℝ [⟨0, 0⟩, ⟨1, 0⟩, ⟨0, 1⟩, ⟨-1, -1⟩]) 0 1)
        (rikAt (planarEnvOver ℝ) (tetraOver ℝ [⟨0, 0⟩, ⟨1, 0⟩, ⟨0, 1⟩, ⟨-1, -1⟩]) 0 1) ≠ 0
      ∧ HasDerivAt
        (fun x => (circumcenterFrom (planarEnvOver ℝ)
          ⟨x, ((tetraOver ℝ [⟨0, 0⟩, ⟨1, 0⟩, ⟨0, 1⟩, ⟨-1, -1⟩]).cellPositions 0).y⟩
          ((tetraOver ℝ [⟨0, 0⟩, ⟨1, 0⟩, ⟨0, 1⟩, ⟨-1, -1⟩]).cellPositions
            (otherNeighAt (tetraOver ℝ [⟨0, 0⟩, ⟨1, 0⟩, ⟨0, 1⟩, ⟨-1, -1⟩]) 0 1))
          ((tetraOver ℝ [⟨0, 0⟩, ⟨1, 0⟩, ⟨0, 1⟩, ⟨-1, -1⟩]).cellPositions
            (baseNeighAt (tetraOver ℝ [⟨0, 0⟩, ⟨1, 0⟩, ⟨0, 1⟩, ⟨-1, -1⟩]) 0 1))).x)
        (dhdriAt (planarEnvOver ℝ) (tetraOver ℝ [⟨0, 0⟩, ⟨1, 0⟩, ⟨0, 1⟩, ⟨-1, -1⟩]) 0 1).x11
        ((tetraOver ℝ [⟨0, 0⟩, ⟨1, 0⟩, ⟨0, 1⟩, ⟨-1, -1⟩]).cellPositions 0).x :=
  have hcp : cpOf (rijAt (planarEnvOver ℝ) (tetraOver ℝ [⟨0, 0⟩, ⟨1, 0⟩, ⟨0, 1⟩, ⟨-1, -1⟩]) 0 1)
      (rikAt (planarEnvOver ℝ) (tetraOver ℝ [⟨0, 0⟩, ⟨1, 0⟩, ⟨0, 1⟩, ⟨-1, -1⟩]) 0 1) ≠ 0 := by
    have e1 : Int.toNat 1 = 1 := rfl
    have e2 : Int.toNat 2 = 2 := rfl
    norm_num [cpOf, rijAt, rikAt, planarEnvOver, tetraOver, planarEnv, planarState, pointsOf,
      arrayOf, n_idx, e1, e2]
  ⟨hcp,
    (dhdri_is_circumcenter_jacobian (planarEnvOver ℝ)
      (tetraOver ℝ [⟨0, 0⟩, ⟨1, 0⟩, ⟨0, 1⟩, ⟨-1, -1⟩]) 0 1 (fun _ _ => rfl) (fun _ _ => rfl)
      (by norm_num [planarEnvOver, planarEnv]) (fun _ _ => rfl) (fun _ _ => rfl)
      (fun _ _ => rfl) (by decide) (by decide) rfl rfl hcp).2.1⟩

end JacobianClaims

section LookupClaims

/-- C20: the CPU force lookup and the cached DelOther agree up to a one-slot shift. For a
cell `i` with `k ≥ 3` neighbours and a slot `nn`, if the neighbour list of `ns[nn]` has no
repeated entry and contains `ns[(nn-1) mod k]`, and `getDelSets(i)` reaches slot
`(nn+1) mod k`, then the third point `DT_other_idx` of `computeSPVForceCPU(i)` at slot `nn`
is the value `getDelSets(i)` writes to `delOther` at slot `(nn+1) mod k`. Without the
no-repeat hypothesis the two can differ: in `repeatTetra`, where cell 1 lists cell 3 twice,
the force scan of slot 0 of cell 0 keeps the last match (third point 0) and `getDelSets(0)`
the first (DelOther 2 at slot 1). -/
theorem force_lookup_matches_delOther :
    (∀ (F X : Type) (s : SPV2D F X) (i nn : Int),
      3 ≤ s.cellNeighborNum i → 0 ≤ nn → nn < s.cellNeighborNum i →
      (∀ p q : Int, 0 ≤ p → p < s.cellNeighborNum (baseNeighAt s i nn) → 0 ≤ q →
        q < s.cellNeighborNum (baseNeighAt s i nn) →
        nbr s (baseNeighAt s i nn) p = nbr s (baseNeighAt s i nn) q → p = q) →
      (∃ q : Int, 0 ≤ q ∧ q < s.cellNeighborNum (baseNeighAt s i nn)
        ∧ nbr s (baseNeighAt s i nn) q = otherNeighAt s i nn) →
      reachesSlot s i ((nn + 1) % s.cellNeighborNum i).toNat →
      thirdPoint s i nn
        = (getDelSets s i).2.delOther (n_idx s.neighMax ((nn + 1) % s.cellNeighborNum i) i))
    ∧ (3 ≤ repeatTetra.cellNeighborNum 0
      ∧ (∃ q : Int, 0 ≤ q ∧ q < repeatTetra.cellNeighborNum (baseNeighAt repeatTetra 0 0)
        ∧ nbr repeatTetra (baseNeighAt repeatTetra 0 0) q = otherNeighAt repeatTetra 0 0)
      ∧ reachesSlot repeatTetra 0 ((0 + 1) % repeatTetra.cellNeighborNum 0).toNat
      ∧ thirdPoint repeatTetra 0 0 = 0
      ∧ (getDelSets repeatTetra 0).2.delOther
          (n_idx repeatTetra.neighMax ((0 + 1) % repeatTetra.cellNeighborNum 0) 0) = 2) := by
  constructor
  · intro F X s i nn hk h0 h1 hnorep hex hr
    obtain ⟨q, hq0, hq1, hq⟩ := hex
    have hm0 : 0 ≤ (nn + 1) % s.cellNeighborNum i := Int.emod_nonneg _ (by omega)
    have hm1 : (nn + 1) % s.cellNeighborNum i < s.cellNeighborNum i :=
      Int.emod_lt_of_pos _ (by omega)
    have hcast : ((((nn + 1) % s.cellNeighborNum i).toNat : Nat) : Int)
        = (nn + 1) % s.cellNeighborNum i := Int.toNat_of_nonneg hm0
    have hd := getDelSets_delOther_reached s i ((nn + 1) % s.cellNeighborNum i).toNat
      (by rw [hcast]; exact hm1) hr
    rw [hcast] at hd
    rw [hd, windowAt_succ_eq s i nn hk h0 h1]
    unfold nbr at hq hnorep
    have hfirst : lookupDelOther s.neighMax s.cellNeighborNum s.cellNeighbors
        (otherNeighAt s i nn) (baseNeighAt s i nn)
        = some (s.cellNeighbors (n_idx s.neighMax
          ((q + 1) % s.cellNeighborNum (baseNeighAt s i nn)) (baseNeighAt s i nn))) := by
      unfold lookupDelOther
      refine findDelOther_first s.neighMax s.cellNeighbors (baseNeighAt s i nn)
        (otherNeighAt s i nn) (s.cellNeighborNum (baseNeighAt s i nn)) q
        (s.cellNeighborNum (baseNeighAt s i nn)).toNat 0 hq0 (by omega) ?_ hq
      intro p hp0 hp1 hp
      have := hnorep p q hp0 (by omega) hq0 hq1 (hp.trans hq.symm)
      omega
    rw [hfirst]
    unfold thirdPoint
    refine scanOther_last s.neighMax s.cellNeighbors (baseNeighAt s i nn)
      (otherNeighAt s i nn) (s.cellNeighborNum (baseNeighAt s i nn)) q
      (s.cellNeighborNum (baseNeighAt s i nn)).toNat 0 (-1) hq0 (by omega) hq ?_
    intro p hp0 hp1 hp
    have := hnorep p q (by omega) (by omega) hq0 hq1 (hp.trans hq.symm)
    omega
  · exact ⟨by decide, ⟨0, by decide, by decide, by decide⟩, by decide, by decide, by decide⟩

/-- Witness of C20: slot 0 of cell 0 of the tetrahedral triangulation, where the list
0,3,2 of cell 1 has no repeat and contains cell 3; both lookups give cell 2. -/
theorem force_lookup_matches_delOther_witness :
    3 ≤ tetra.cellNeighborNum 0
      ∧ reachesSlot tetra 0 ((0 + 1) % tetra.cellNeighborNum 0).toNat
      ∧ thirdPoint tetra 0 0 = 2
      ∧ thirdPoint tetra 0 0
        = (getDelSets tetra 0).2.delOther
          (n_idx tetra.neighMax ((0 + 1) % tetra.cellNeighborNum 0) 0) :=
  ⟨by decide, by decide, by decide,
    force_lookup_matches_delOther.1 ℚ Unit tetra 0 0 (by decide) (by decide) (by decide)
      (by
        intro p q hp0 hp1 hq0 hq1
        change p < 3 at hp1
        change q < 3 at hq1
        interval_cases p <;> interval_cases q <;> decide)
      ⟨1, by decide, by decide, by decide⟩ (by decide)⟩

end LookupClaims

section Cyclic

theorem succ_emod_mem (p k : Int) (h0 : 0 ≤ p) (h1 : p < k) :
    0 ≤ (p + 1) % k ∧ (p + 1) % k < k :=
  ⟨Int.emod_nonneg _ (by omega), Int.emod_lt_of_pos _ (by omega)⟩

theorem pred_emod_mem (p k : Int) (h0 : 0 ≤ p) (h1 : p < k) :
    0 ≤ (p - 1) % k ∧ (p - 1) % k < k :=
  ⟨Int.emod_nonneg _ (by omega), Int.emod_lt_of_pos _ (by omega)⟩

end Cyclic

section ForceSum

variable {X : Type}

end ForceSum

section ForceSumCell

variable {X : Type}

end ForceSumCell

section ForceStore

variable {F X : Type} [Add F] [Sub F] [Mul F] [Div F] [Neg F] [OfScientific F] [LT F]
  [DecidableRel (fun a b : F => a < b)]

end ForceStore

section OrbitSum

variable {α : Type}

end OrbitSum

section Telescoping

variable {X : Type}

end Telescoping

section Corners

variable {F X : Type}

end Corners

section CornersThird

variable {F X : Type}

end CornersThird

section PlanarIdentities

end PlanarIdentities

section PlanarIdentitiesBack

end PlanarIdentitiesBack

section PlanarLift

variable {X : Type}

theorem zero_real : (0.0 : ℝ) = 0 := by norm_num

theorem half_real : (0.5 : ℝ) = 1 / 2 := by norm_num

end PlanarLift

section PlanarLiftMore

variable {X : Type}

end PlanarLiftMore

section CornerGeometry

variable {X : Type}

end CornerGeometry

section CornerShift

variable {X : Type}

end CornerShift

section CornerShiftMore

variable {X : Type}

end CornerShiftMore

section CornerEdges

variable {X : Type}

end CornerEdges

section CornerTerms

variable {X : Type}

end CornerTerms

section NetTemp

variable {X : Type}

end NetTemp

section NetForce

variable {X : Type}

end NetForce

section PlainImage

variable {X : Type}

end PlainImage

section ValidExamples

end ValidExamples

section NetForceClaim

end NetForceClaim

section NetForceWitness

end NetForceWitness

section AtomicClaims

variable {F X : Type} [Add F] [Sub F] [Mul F] [Div F] [Neg F] [OfScientific F] [LT F]
  [DecidableRel (fun a b : F => a < b)]

/-- C21: whenever `computeSPVForceCPU(i)` raises the exception of line 654, the arrays
`forces` and `external_forces` hold for every cell `j`, the cell `i` included, what they
held before the call: the slot loop writes local variables only, and lines 724-735, the
only writes to the two arrays, are not reached. -/
theorem computeSPVForceCPU_throw_atomic (E : Env F X) (s : SPV2D F X) (i : Int)
    (h : (computeSPVForceCPU E s i).thrown = true) :
    ∀ j : Int, (computeSPVForceCPU E s i).get.forces j = s.forces j
      ∧ (computeSPVForceCPU E s i).get.external_forces j = s.external_forces j := by
  unfold computeSPVForceCPU at h ⊢
  cases hsum : forceSumCPU E s i with
  | none => intro j; exact ⟨rfl, rfl⟩
  | some f =>
    exfalso
    rw [hsum] at h
    simp only [] at h
    split_ifs at h <;> simp [Outcome.thrown] at h

end AtomicClaims

section AtomicWitness

/-- Witness of C21: `computeSPVForceCPU(0)` on the tetrahedral triangulation in which the
list of cell 3 is 0,0,1, with forces (1,2) and external forces (3,4) stored for every
cell: slot 2 looks for cell 2 in that list, finds no match and throws. -/
theorem computeSPVForceCPU_throw_atomic_witness :
    (computeSPVForceCPU (idleEnv 1 0)
        { looseTetra with forces := fun _ => ⟨1, 2⟩, external_forces := fun _ => ⟨3, 4⟩ }
        0).thrown = true
      ∧ ∀ j : Int,
        (computeSPVForceCPU (idleEnv 1 0)
            { looseTetra with forces := fun _ => ⟨1, 2⟩, external_forces := fun _ => ⟨3, 4⟩ }
            0).get.forces j = ⟨1, 2⟩
          ∧ (computeSPVForceCPU (idleEnv 1 0)
            { looseTetra with forces := fun _ => ⟨1, 2⟩, external_forces := fun _ => ⟨3, 4⟩ }
            0).get.external_forces j = ⟨3, 4⟩ :=
  ⟨by decide,
    computeSPVForceCPU_throw_atomic (idleEnv 1 0)
      { looseTetra with forces := fun _ => ⟨1, 2⟩, external_forces := fun _ => ⟨3, 4⟩ } 0
      (by decide)⟩

end AtomicWitness

section Rotation

/-- Reducing the minuend first does not change the remainder of a difference. -/
theorem emod_sub_emod_left (m n k : Int) : (m % n - k) % n = (m - k) % n := by
  rw [sub_eq_add_neg, sub_eq_add_neg, Int.emod_add_emod]

/-- A sum around a cycle is unchanged by a shift of the positions. -/
theorem sum_cyclic_shift (k sh : Int) (h : Int → ℝ) :
    Finset.sum (Finset.Ico 0 k) (fun nn => h ((nn + sh) % k)) = Finset.sum (Finset.Ico 0 k) h := by
  by_cases hk : 0 < k
  · refine Finset.sum_nbij' (fun nn => (nn + sh) % k) (fun nn => (nn - sh) % k) ?_ ?_ ?_ ?_ ?_
    · intro nn _
      rw [Finset.mem_Ico]
      exact ⟨Int.emod_nonneg _ (by omega), Int.emod_lt_of_pos _ hk⟩
    · intro nn _
      rw [Finset.mem_Ico]
      exact ⟨Int.emod_nonneg _ (by omega), Int.emod_lt_of_pos _ hk⟩
    · intro nn hn
      rw [Finset.mem_Ico] at hn
      show ((nn + sh) % k - sh) % k = nn
      rw [emod_sub_emod_left]
      have e : nn + sh - sh = nn := by ring
      rw [e]
      exact Int.emod_eq_of_lt hn.1 hn.2
    · intro nn hn
      rw [Finset.mem_Ico] at hn
      show ((nn - sh) % k + sh) % k = nn
      rw [Int.emod_add_emod]
      have e : nn - sh + sh = nn := by ring
      rw [e]
      exact Int.emod_eq_of_lt hn.1 hn.2
    · intro nn _
      rfl
  · have he : Finset.Ico 0 k = ∅ := Finset.Ico_eq_empty (by omega)
    rw [he, Finset.sum_empty, Finset.sum_empty]

/-- A left fold that adds up, from `0.0`, a term for each of the first `n` slots is the sum
of the terms. -/
theorem foldl_range_sum (g : Int → ℝ) (k : Int) :
    (List.range k.toNat).foldl (fun (acc : ℝ) (m : Nat) => acc + g (m : Int)) 0.0
      = Finset.sum (Finset.Ico 0 k) g := by
  have hgen : ∀ n : Nat,
      (List.range n).foldl (fun (acc : ℝ) (m : Nat) => acc + g (m : Int)) 0.0
        = Finset.sum (Finset.Ico 0 (n : Int)) g := by
    intro n
    induction n with
    | zero =>
      have he : Finset.Ico (0 : Int) ((0 : Nat) : Int) = ∅ := Finset.Ico_eq_empty (by simp)
      rw [he, Finset.sum_empty]
      exact zero_real
    | succ n ih =>
      have hs : Finset.Ico (0 : Int) ((n + 1 : Nat) : Int)
          = insert (n : Int) (Finset.Ico 0 (n : Int)) := by
        ext x
        simp only [Finset.mem_Ico, Finset.mem_insert]
        push_cast
        omega
      rw [List.range_succ, List.foldl_append, ih, hs, Finset.sum_insert (by simp)]
      show Finset.sum (Finset.Ico 0 (n : Int)) g + g n = _
      ring
  have he : Finset.Ico (0 : Int) (k.toNat : Int) = Finset.Ico 0 k := by
    ext x
    simp only [Finset.mem_Ico]
    omega
  rw [hgen, he]

variable {F X : Type}

/-- The counts, the stride, the positions and the box of the rotated state are those of the
state. -/
theorem rotateNeighbors_fields (s : SPV2D F X) (i sh : Int) :
    (rotateNeighbors s i sh).cellNeighborNum = s.cellNeighborNum
      ∧ (rotateNeighbors s i sh).neighMax = s.neighMax
      ∧ (rotateNeighbors s i sh).Ncells = s.Ncells
      ∧ (rotateNeighbors s i sh).cellPositions = s.cellPositions
      ∧ (rotateNeighbors s i sh).hidden = s.hidden :=
  ⟨rfl, rfl, rfl, rfl, rfl⟩

/-- Slot `nn` of the rotated list of cell `i` holds the neighbour `n_{(nn+sh) mod k}`. -/
theorem rotateNeighbors_nbr (s : SPV2D F X) (i sh nn : Int) (h0 : 0 ≤ nn)
    (h1 : nn < s.cellNeighborNum i) :
    nbr (rotateNeighbors s i sh) i nn = nbr s i ((nn + sh) % s.cellNeighborNum i) := by
  show (if n_idx s.neighMax 0 i ≤ n_idx s.neighMax nn i
        ∧ n_idx s.neighMax nn i < n_idx s.neighMax (s.cellNeighborNum i) i then
      nbr s i ((n_idx s.neighMax nn i - n_idx s.neighMax 0 i + sh) % s.cellNeighborNum i)
    else s.cellNeighbors (n_idx s.neighMax nn i)) = _
  have e : n_idx s.neighMax nn i - n_idx s.neighMax 0 i = nn := by
    unfold n_idx; ring
  rw [if_pos ⟨by unfold n_idx; omega, by unfold n_idx; omega⟩, e]

/-- The lists of the other cells are as before, when cell `i` has at most `neighMax`
neighbours. -/
theorem rotateNeighbors_other (s : SPV2D F X) (i sh j nn : Int) (hj : j ≠ i)
    (hM : s.cellNeighborNum i ≤ s.neighMax) (h0 : 0 ≤ nn) (h1 : nn < s.neighMax) :
    nbr (rotateNeighbors s i sh) j nn = nbr s j nn := by
  show (if n_idx s.neighMax 0 i ≤ n_idx s.neighMax nn j
        ∧ n_idx s.neighMax nn j < n_idx s.neighMax (s.cellNeighborNum i) i then
      nbr s i ((n_idx s.neighMax nn j - n_idx s.neighMax 0 i + sh) % s.cellNeighborNum i)
    else s.cellNeighbors (n_idx s.neighMax nn j)) = _
  rw [if_neg]
  · rfl
  · unfold n_idx
    intro hc
    rcases lt_or_gt_of_ne hj with hlt | hgt
    · have : j * s.neighMax + s.neighMax ≤ i * s.neighMax := by nlinarith
      omega
    · have : i * s.neighMax + s.neighMax ≤ j * s.neighMax := by nlinarith
      omega

/-- The Voronoi vertex of slot `nn` of the rotated list is the vertex of slot
`(nn+sh) mod k` of the list. -/
theorem voroVertex_rotate (E : Env F X) (s : SPV2D F X) (i sh nn : Int) (h0 : 0 ≤ nn)
    (h1 : nn < s.cellNeighborNum i) :
    voroVertex E (rotateNeighbors s i sh) i nn
      = voroVertex E s i ((nn + sh) % s.cellNeighborNum i) := by
  have hk : 0 < s.cellNeighborNum i := by omega
  have hp := pred_emod_mem nn (s.cellNeighborNum i) h0 h1
  have e : ((nn - 1) % s.cellNeighborNum i + sh) % s.cellNeighborNum i
      = ((nn + sh) % s.cellNeighborNum i - 1) % s.cellNeighborNum i := by
    rw [Int.emod_add_emod, emod_sub_emod_left]
    congr 1
    ring
  show E.Circumcenter
      (E.minDist s.hidden
        (s.cellPositions (nbr (rotateNeighbors s i sh) i ((nn - 1) % s.cellNeighborNum i)))
        (s.cellPositions i))
      (E.minDist s.hidden (s.cellPositions (nbr (rotateNeighbors s i sh) i nn))
        (s.cellPositions i)) = _
  rw [rotateNeighbors_nbr s i sh _ hp.1 hp.2, rotateNeighbors_nbr s i sh nn h0 h1, e]
  rfl

/-- The vertex before slot `nn` of the rotated list is the vertex before slot
`(nn+sh) mod k` of the list. -/
theorem voroVertex_rotate_pred (E : Env F X) (s : SPV2D F X) (i sh nn : Int) (h0 : 0 ≤ nn)
    (h1 : nn < s.cellNeighborNum i) :
    voroVertex E (rotateNeighbors s i sh) i ((nn - 1) % s.cellNeighborNum i)
      = voroVertex E s i (((nn + sh) % s.cellNeighborNum i - 1) % s.cellNeighborNum i) := by
  have hp := pred_emod_mem nn (s.cellNeighborNum i) h0 h1
  rw [voroVertex_rotate E s i sh _ hp.1 hp.2, Int.emod_add_emod, emod_sub_emod_left]
  congr 2
  ring

/-- In exact real arithmetic the area sum of the rotated list is the area sum of the list. -/
theorem polygonArea_rotate (E : Env ℝ X) (s : SPV2D ℝ X) (i sh : Int) :
    polygonArea E (rotateNeighbors s i sh) i = polygonArea E s i := by
  have h1 := foldl_range_sum
    (fun x => E.TriangleArea
      (voroVertex E (rotateNeighbors s i sh) i ((x - 1) % s.cellNeighborNum i))
      (voroVertex E (rotateNeighbors s i sh) i x)) (s.cellNeighborNum i)
  have h2 := foldl_range_sum
    (fun x => E.TriangleArea (voroVertex E s i ((x - 1) % s.cellNeighborNum i))
      (voroVertex E s i x)) (s.cellNeighborNum i)
  show (List.range (s.cellNeighborNum i).toNat).foldl
      (fun (acc : ℝ) (m : Nat) => acc + E.TriangleArea
        (voroVertex E (rotateNeighbors s i sh) i (((m : Int) - 1) % s.cellNeighborNum i))
        (voroVertex E (rotateNeighbors s i sh) i m)) 0.0
    = (List.range (s.cellNeighborNum i).toNat).foldl
      (fun (acc : ℝ) (m : Nat) => acc + E.TriangleArea
        (voroVertex E s i (((m : Int) - 1) % s.cellNeighborNum i)) (voroVertex E s i m)) 0.0
  rw [h1, h2, ← sum_cyclic_shift (s.cellNeighborNum i) sh
    (fun x => E.TriangleArea (voroVertex E s i ((x - 1) % s.cellNeighborNum i))
      (voroVertex E s i x))]
  refine Finset.sum_congr rfl ?_
  intro x hx
  rw [Finset.mem_Ico] at hx
  show E.TriangleArea _ _ = E.TriangleArea _ _
  rw [voroVertex_rotate E s i sh x hx.1 hx.2, voroVertex_rotate_pred E s i sh x hx.1 hx.2]

/-- In exact real arithmetic the perimeter sum of the rotated list is the perimeter sum of
the list. -/
theorem polygonPerimeter_rotate (E : Env ℝ X) (s : SPV2D ℝ X) (i sh : Int) :
    polygonPerimeter E (rotateNeighbors s i sh) i = polygonPerimeter E s i := by
  have h1 := foldl_range_sum
    (fun x => E.sqrt
      (((voroVertex E (rotateNeighbors s i sh) i ((x - 1) % s.cellNeighborNum i)).x
            - (voroVertex E (rotateNeighbors s i sh) i x).x)
          * ((voroVertex E (rotateNeighbors s i sh) i ((x - 1) % s.cellNeighborNum i)).x
            - (voroVertex E (rotateNeighbors s i sh) i x).x)
        + ((voroVertex E (rotateNeighbors s i sh) i ((x - 1) % s.cellNeighborNum i)).y
            - (voroVertex E (rotateNeighbors s i sh) i x).y)
          * ((voroVertex E (rotateNeighbors s i sh) i ((x - 1) % s.cellNeighborNum i)).y
            - (voroVertex E (rotateNeighbors s i sh) i x).y))) (s.cellNeighborNum i)
  have h2 := foldl_range_sum
    (fun x => E.sqrt
      (((voroVertex E s i ((x - 1) % s.cellNeighborNum i)).x - (voroVertex E s i x).x)
          * ((voroVertex E s i ((x - 1) % s.cellNeighborNum i)).x - (voroVertex E s i x).x)
        + ((voroVertex E s i ((x - 1) % s.cellNeighborNum i)).y - (voroVertex E s i x).y)
          * ((voroVertex E s i ((x - 1) % s.cellNeighborNum i)).y - (voroVertex E s i x).y)))
    (s.cellNeighborNum i)
  unfold polygonPerimeter
  rw [(rotateNeighbors_fields s i sh).1]
  beta_reduce at h1 h2
  rw [h1, h2, ← sum_cyclic_shift (s.cellNeighborNum i) sh
    (fun x => E.sqrt
      (((voroVertex E s i ((x - 1) % s.cellNeighborNum i)).x - (voroVertex E s i x).x)
          * ((voroVertex E s i ((x - 1) % s.cellNeighborNum i)).x - (voroVertex E s i x).x)
        + ((voroVertex E s i ((x - 1) % s.cellNeighborNum i)).y - (voroVertex E s i x).y)
          * ((voroVertex E s i ((x - 1) % s.cellNeighborNum i)).y - (voroVertex E s i x).y)))]
  refine Finset.sum_congr rfl ?_
  intro x hx
  rw [Finset.mem_Ico] at hx
  beta_reduce
  rw [voroVertex_rotate E s i sh x hx.1 hx.2, voroVertex_rotate_pred E s i sh x hx.1 hx.2]

end Rotation

section RotationClaims

/-- C22: in exact real arithmetic, for a cell `i` of a state whose cells have at most
`neighMax` neighbours each, replacing the neighbour list `n_0..n_{k-1}` of cell `i` by its
cyclic rotation `n_sh..n_{k-1},n_0..n_{sh-1}` (slot `nn` then holds `n_{(nn+sh) mod k}`)
leaves the pair `AreaPeri[i]` that `computeGeometryCPU` stores unchanged, and the Voronoi
vertex stored at slot `nn` of cell `i` is the one stored at slot `(nn+sh) mod k` before the
rotation. `TriangleArea`, `sqrt`, `Circumcenter` and `minDist` are arbitrary functions. -/
theorem computeGeometryCPU_rotation {X : Type} (E : Env ℝ X) (s : SPV2D ℝ X) (i sh : Int)
    (h0 : 0 ≤ i) (h1 : i < s.Ncells)
    (hM : ∀ j : Int, 0 ≤ j → j < s.Ncells → s.cellNeighborNum j ≤ s.neighMax) :
    (computeGeometryCPU E (rotateNeighbors s i sh)).AreaPeri i
        = (computeGeometryCPU E s).AreaPeri i
      ∧ ∀ nn : Int, 0 ≤ nn → nn < s.cellNeighborNum i →
        nbr (rotateNeighbors s i sh) i nn = nbr s i ((nn + sh) % s.cellNeighborNum i)
          ∧ (computeGeometryCPU E (rotateNeighbors s i sh)).voroCur (n_idx s.neighMax nn i)
            = (computeGeometryCPU E s).voroCur
              (n_idx s.neighMax ((nn + sh) % s.cellNeighborNum i) i) := by
  obtain ⟨v, a, hs, hA, hB, _, _⟩ := computeGeometryLoop_spec E s.Ncells.toNat 0 s
    (fun j hj0 hj1 => hM j hj0 (by omega))
  obtain ⟨v2, a2, hs2, hA2, hB2, _, _⟩ := computeGeometryLoop_spec E s.Ncells.toNat 0
    (rotateNeighbors s i sh) (fun j hj0 hj1 => hM j hj0 (by omega))
  have e1 : computeGeometryCPU E s = computeGeometryLoop E s.Ncells.toNat 0 s := rfl
  have e2 : computeGeometryCPU E (rotateNeighbors s i sh)
      = computeGeometryLoop E s.Ncells.toNat 0 (rotateNeighbors s i sh) := rfl
  rw [e1, e2, hs, hs2]
  refine ⟨?_, ?_⟩
  · show a2 i = a i
    rw [hB2 i h0 (by omega), hB i h0 (by omega), polygonArea_rotate,
      polygonPerimeter_rotate]
  · intro nn hn0 hn1
    refine ⟨rotateNeighbors_nbr s i sh nn hn0 hn1, ?_⟩
    show v2 (n_idx s.neighMax nn i) = v (n_idx s.neighMax ((nn + sh) % s.cellNeighborNum i) i)
    have hk : 0 < s.cellNeighborNum i := by omega
    rw [hA i _ h0 (by omega) (Int.emod_nonneg _ (by omega)) (Int.emod_lt_of_pos _ hk)]
    exact (hA2 i nn h0 (by omega) hn0 hn1).trans (voroVertex_rotate E s i sh nn hn0 hn1)

/-- Witness of C22: cell 0 of the tetrahedral triangulation with the cells at (0,0), (3,1),
(1,4) and (-2,-3), in the planar environment over the reals, with its list 1,2,3 rotated by
one place to 2,3,1. -/
theorem computeGeometryCPU_rotation_witness :
    ((0 : Int) ≤ 0 ∧ (0 : Int) < (tetraOver ℝ [⟨0, 0⟩, ⟨3, 1⟩, ⟨1, 4⟩, ⟨-2, -3⟩]).Ncells
        ∧ ∀ j : Int, 0 ≤ j → j < (tetraOver ℝ [⟨0, 0⟩, ⟨3, 1⟩, ⟨1, 4⟩, ⟨-2, -3⟩]).Ncells →
          (tetraOver ℝ [⟨0, 0⟩, ⟨3, 1⟩, ⟨1, 4⟩, ⟨-2, -3⟩]).cellNeighborNum j
            ≤ (tetraOver ℝ [⟨0, 0⟩, ⟨3, 1⟩, ⟨1, 4⟩, ⟨-2, -3⟩]).neighMax)
      ∧ nbr (rotateNeighbors (tetraOver ℝ [⟨0, 0⟩, ⟨3, 1⟩, ⟨1, 4⟩, ⟨-2, -3⟩]) 0 1) 0 0 = 2
      ∧ nbr (rotateNeighbors (tetraOver ℝ [⟨0, 0⟩, ⟨3, 1⟩, ⟨1, 4⟩, ⟨-2, -3⟩]) 0 1) 0 1 = 3
      ∧ nbr (rotateNeighbors (tetraOver ℝ [⟨0, 0⟩, ⟨3, 1⟩, ⟨1, 4⟩, ⟨-2, -3⟩]) 0 1) 0 2 = 1
      ∧ (computeGeometryCPU (planarEnvOver ℝ)
          (rotateNeighbors (tetraOver ℝ [⟨0, 0⟩, ⟨3, 1⟩, ⟨1, 4⟩, ⟨-2, -3⟩]) 0 1)).AreaPeri 0
        = (computeGeometryCPU (planarEnvOver ℝ)
          (tetraOver ℝ [⟨0, 0⟩, ⟨3, 1⟩, ⟨1, 4⟩, ⟨-2, -3⟩])).AreaPeri 0
      ∧ (computeGeometryCPU (planarEnvOver ℝ)
          (rotateNeighbors (tetraOver ℝ [⟨0, 0⟩, ⟨3, 1⟩, ⟨1, 4⟩, ⟨-2, -3⟩]) 0 1)).voroCur
          (n_idx 3 2 0)
        = (computeGeometryCPU (planarEnvOver ℝ)
          (tetraOver ℝ [⟨0, 0⟩, ⟨3, 1⟩, ⟨1, 4⟩, ⟨-2, -3⟩])).voroCur (n_idx 3 0 0) :=
  have hM : ∀ j : Int, 0 ≤ j → j < (tetraOver ℝ [⟨0, 0⟩, ⟨3, 1⟩, ⟨1, 4⟩, ⟨-2, -3⟩]).Ncells →
      (tetraOver ℝ [⟨0, 0⟩, ⟨3, 1⟩, ⟨1, 4⟩, ⟨-2, -3⟩]).cellNeighborNum j
        ≤ (tetraOver ℝ [⟨0, 0⟩, ⟨3, 1⟩, ⟨1, 4⟩, ⟨-2, -3⟩]).neighMax := by
    intro j h0 h1
    change j < 4 at h1
    change arrayOf [3, 3, 3, 3] j ≤ 3
    interval_cases j <;> decide
  ⟨⟨by decide, by decide, hM⟩, by decide, by decide, by decide,
    (computeGeometryCPU_rotation (planarEnvOver ℝ)
      (tetraOver ℝ [⟨0, 0⟩, ⟨3, 1⟩, ⟨1, 4⟩, ⟨-2, -3⟩]) 0 1 (by decide) (by decide) hM).1,
    ((computeGeometryCPU_rotation (planarEnvOver ℝ)
      (tetraOver ℝ [⟨0, 0⟩, ⟨3, 1⟩, ⟨1, 4⟩, ⟨-2, -3⟩]) 0 1 (by decide) (by decide) hM).2
      2 (by decide) (by decide)).2⟩

end RotationClaims

section Divisors

variable {F X : Type} [Add F] [Sub F] [Mul F] [Div F] [Neg F] [OfScientific F] [LT F]
  [DecidableRel (fun a b : F => a < b)]

omit [LT F] [DecidableRel (fun a b : F => a < b)] in
/-- The first loop of `computeSPVForceCPU` copies the stored vertices of the cell. -/
theorem dhdriLoop_copies (E : Env F X) (s : SPV2D F X) (i : Int) (pi : Dscalar2 F)
    (rem : Nat) :
    ∀ (nn0 : Int) (rij : Dscalar2 F) (voro : Int → Dscalar2 F) (dhdri : Int → Matrix2x2 F),
      (∀ x : Int, nn0 ≤ x → x < nn0 + rem →
        (dhdriLoop E s i pi rem nn0 rij voro dhdri).1 x = s.voroCur (n_idx s.neighMax x i))
      ∧ (∀ x : Int, ¬ (nn0 ≤ x ∧ x < nn0 + rem) →
        (dhdriLoop E s i pi rem nn0 rij voro dhdri).1 x = voro x) := by
  induction rem with
  | zero =>
    intro nn0 rij voro dhdri
    refine ⟨?_, ?_⟩
    · intro x h0 h1; exfalso; simp at h1; omega
    · intro x _; rfl
  | succ rem ih =>
    intro nn0 rij voro dhdri
    rw [dhdriLoop]
    obtain ⟨ih1, ih2⟩ := ih (nn0 + 1)
      (E.minDist s.hidden (s.cellPositions (s.cellNeighbors (n_idx s.neighMax nn0 i))) pi)
      (Function.update voro nn0 (s.voroCur (n_idx s.neighMax nn0 i)))
      (Function.update dhdri nn0 (dhdriOf E rij
        (E.minDist s.hidden (s.cellPositions (s.cellNeighbors (n_idx s.neighMax nn0 i))) pi)))
    refine ⟨?_, ?_⟩
    · intro x h0 h1
      by_cases hx : x = nn0
      · subst hx
        refine (ih2 x (by omega)).trans ?_
        simp only [Function.update_same]
      · exact ih1 x (by omega) (by push_cast at h1; omega)
    · intro x hx
      refine (ih2 x (by push_cast at hx; omega)).trans ?_
      exact Function.update_noteq (by push_cast at hx; omega) _ _

omit [Neg F] in
/-- The force loop, when no slot fails the test of line 651, is the left fold that adds
the value of `temp` of each slot to `forceSum`; `w m` is the vertex the loop holds in
`vlast` in slot `m` and `T m` the value of `temp` of the slot. -/
theorem forceLoop_fold (E : Env F X) (s : SPV2D F X) (i : Int) (pi : Dscalar2 F)
    (Adiff Pdiff : F) (voro : Int → Dscalar2 F) (dhdri : Int → Matrix2x2 F)
    (w T : Nat → Dscalar2 F) (rem : Nat) :
    ∀ (n : Nat) (vlast forceSum : Dscalar2 F),
      (∀ m : Nat, n ≤ m → m < n + rem → ¬ slotThrows s i m) →
      vlast = w n →
      (∀ m : Nat, n ≤ m → m < n + rem → w (m + 1) = voro m) →
      (∀ m : Nat, n ≤ m → m < n + rem →
        slotForce E s pi Adiff Pdiff (w m) (voro m)
            (voro (((m : Int) + 1) % s.cellNeighborNum i)) (dhdri m) (baseNeighAt s i m)
            (otherNeighAt s i m) (thirdPoint s i m) = T m) →
      forceLoop E s i (s.cellNeighborNum i) pi Adiff Pdiff voro dhdri rem n vlast forceSum
        = some ((List.range' n rem).foldl
          (fun (acc : Dscalar2 F) (m : Nat) => ⟨acc.x + (T m).x, acc.y + (T m).y⟩)
          forceSum) := by
  induction rem with
  | zero => intro n vlast forceSum _ _ _ _; rfl
  | succ rem ih =>
    intro n vlast forceSum hth hl hw hT
    rw [forceLoop]
    have hth' := hth n (le_refl _) (by omega)
    unfold slotThrows thirdPoint baseNeighAt otherNeighAt at hth'
    simp only [hth', if_false]
    have e : ((n : Int) + 1) = ((n + 1 : Nat) : Int) := by push_cast; rfl
    have hT0 := hT n (le_refl _) (by omega)
    unfold thirdPoint baseNeighAt otherNeighAt at hT0
    rw [hl, hT0, e]
    rw [ih (n + 1) _ _ (fun m h0 h1 => hth m (by omega) (by omega))
      ((hw n (le_refl _) (by omega)).symm)
      (fun m h0 h1 => hw m (by omega) (by omega))
      (fun m h0 h1 => hT m (by omega) (by omega))]
    rfl

omit [LT F] [DecidableRel (fun a b : F => a < b)] in
/-- The matrix `dhdri` is computed with the divisors `D` and `cp` as they are. -/
theorem dhdriOf_unclamped (E : Env F X) (rij rik : Dscalar2 F) :
    dhdriOf E rij rik = unclampedJacobian E rij rik := rfl

/-- The value of `temp` of a slot is its gradient, in which every division is by a clamped
norm, times the matrix `dhdri` of the slot. -/
theorem slotTemp_gradient (E : Env F X) (s : SPV2D F X) (i nn : Int) :
    slotTemp E s i nn = E.vecMat (slotGradient E s i nn) (dhdriAt E s i nn) := rfl

/-- The force of a cell none of whose slots fails the test of line 651 is the left fold
over its slots of the gradients, whose divisors are the clamped norms, times the matrices
`dhdri`, whose divisors are `D` and `cp` as they are. -/
theorem forceSumCPU_clamped (E : Env F X) (s : SPV2D F X) (i : Int)
    (hno : ∀ nn : Int, 0 ≤ nn → nn < s.cellNeighborNum i → ¬ slotThrows s i nn) :
    forceSumCPU E s i = some (clampedForceSum E s i) := by
  by_cases hk : 1 ≤ s.cellNeighborNum i
  · obtain ⟨hv, _⟩ := dhdriLoop_copies E s i (s.cellPositions i) (s.cellNeighborNum i).toNat 0
      (E.minDist s.hidden
        (s.cellPositions (s.cellNeighbors (n_idx s.neighMax (s.cellNeighborNum i - 1) i)))
        (s.cellPositions i)) (fun _ => ⟨0.0, 0.0⟩) (fun _ => E.Id)
    have elast : ((0 : Int) - 1) % s.cellNeighborNum i = s.cellNeighborNum i - 1 := by
      have := neg_emod_of_le ((0 : Int) - 1) (s.cellNeighborNum i) (by omega) (by omega)
      rw [this]; ring
    have hloop := forceLoop_fold E s i (s.cellPositions i) (areaDiff s i) (periDiff s i)
      (dhdriLoop E s i (s.cellPositions i) (s.cellNeighborNum i).toNat 0
        (E.minDist s.hidden
          (s.cellPositions (s.cellNeighbors (n_idx s.neighMax (s.cellNeighborNum i - 1) i)))
          (s.cellPositions i)) (fun _ => ⟨0.0, 0.0⟩) (fun _ => E.Id)).1
      (dhdriLoop E s i (s.cellPositions i) (s.cellNeighborNum i).toNat 0
        (E.minDist s.hidden
          (s.cellPositions (s.cellNeighbors (n_idx s.neighMax (s.cellNeighborNum i - 1) i)))
          (s.cellPositions i)) (fun _ => ⟨0.0, 0.0⟩) (fun _ => E.Id)).2
      (fun m => s.voroCur (n_idx s.neighMax (((m : Int) - 1) % s.cellNeighborNum i) i))
      (fun m => E.vecMat (slotGradient E s i m)
        (unclampedJacobian E (rijAt E s i m) (rikAt E s i m)))
      (s.cellNeighborNum i).toNat 0
      ((dhdriLoop E s i (s.cellPositions i) (s.cellNeighborNum i).toNat 0
        (E.minDist s.hidden
          (s.cellPositions (s.cellNeighbors (n_idx s.neighMax (s.cellNeighborNum i - 1) i)))
          (s.cellPositions i)) (fun _ => ⟨0.0, 0.0⟩) (fun _ => E.Id)).1
        (s.cellNeighborNum i - 1))
      ⟨0.0, 0.0⟩
      (fun m _ h1 => hno m (by omega) (by omega))
      (by
        rw [hv (s.cellNeighborNum i - 1) (by omega) (by omega)]
        show s.voroCur _ = s.voroCur _
        have e0 : (((0 : Nat) : Int) - 1) = (0 : Int) - 1 := by simp
        rw [e0, elast])
      (by
        intro m _ h1
        rw [hv m (by omega) (by omega)]
        show s.voroCur _ = s.voroCur _
        have e1 : (((m + 1 : Nat) : Int) - 1) = (m : Int) := by push_cast; ring
        rw [e1, Int.emod_eq_of_lt (by omega) (by omega)])
      (by
        intro m _ h1
        have hm0 : (0 : Int) ≤ (m : Int) := by omega
        have hm1 : (m : Int) < s.cellNeighborNum i := by omega
        have hs := succ_emod_mem (m : Int) (s.cellNeighborNum i) hm0 hm1
        rw [hv m hm0 (by omega), hv _ hs.1 (by omega)]
        have hJ : (dhdriLoop E s i (s.cellPositions i) (s.cellNeighborNum i).toNat 0
            (E.minDist s.hidden
              (s.cellPositions
                (s.cellNeighbors (n_idx s.neighMax (s.cellNeighborNum i - 1) i)))
              (s.cellPositions i)) (fun _ => ⟨0.0, 0.0⟩) (fun _ => E.Id)).2 (m : Int)
            = unclampedJacobian E (rijAt E s i m) (rikAt E s i m) :=
          (dhdriAt_eq E s i m hm0 hm1).trans (dhdriOf_unclamped E _ _)
        rw [hJ]
        rfl)
    have ez : ((0 : Nat) : Int) = 0 := rfl
    rw [ez] at hloop
    unfold forceSumCPU clampedForceSum
    rw [List.range_eq_range']
    exact hloop
  · have hz : (s.cellNeighborNum i).toNat = 0 := by omega
    unfold forceSumCPU clampedForceSum
    simp only [hz]
    rfl

omit [Sub F] [Div F] [Neg F] [OfScientific F] in
/-- A clamped norm is at least the threshold, wherever the comparison with the threshold is
total. -/
theorem clampedNorm_at_least (E : Env F X)
    (htot : ∀ a : F, ¬ a < E.THRESHOLD → E.THRESHOLD = a ∨ E.THRESHOLD < a)
    (d : Dscalar2 F) :
    E.THRESHOLD = clampedNorm E d ∨ E.THRESHOLD < clampedNorm E d := by
  unfold clampedNorm
  by_cases h : E.sqrt (d.x * d.x + d.y * d.y) < E.THRESHOLD
  · rw [if_pos h]; exact Or.inl rfl
  · rw [if_neg h]; exact htot _ h

end Divisors

section DenominatorClaims

/-- C12 (as stated, refuted): in `computeSPVForceCPU(0)` on the tetrahedral triangulation
with cell 0 and its neighbours on one line, slot 1 of the first loop has `rij = (1,0)` and
`rik = (2,0)`; the matrix `dhdri[1]` is computed from them with the divisors `cp = 0` and
`D = 0`, both below `THRESHOLD`, and the call runs to its end. -/
theorem computeSPVForceCPU_divides_by_zero :
    rijAt (idleEnv 1 0) collinearTetra 0 1 = ⟨1, 0⟩
      ∧ rikAt (idleEnv 1 0) collinearTetra 0 1 = ⟨2, 0⟩
      ∧ dhdriAt (idleEnv 1 0) collinearTetra 0 1
        = dhdriOf (idleEnv 1 0) (⟨1, 0⟩ : Dscalar2 ℚ) ⟨2, 0⟩
      ∧ cpOf (⟨1, 0⟩ : Dscalar2 ℚ) ⟨2, 0⟩ = 0
      ∧ DOf (⟨1, 0⟩ : Dscalar2 ℚ) ⟨2, 0⟩ = 0
      ∧ cpOf (⟨1, 0⟩ : Dscalar2 ℚ) ⟨2, 0⟩ < (idleEnv 1 0).THRESHOLD
      ∧ DOf (⟨1, 0⟩ : Dscalar2 ℚ) ⟨2, 0⟩ < (idleEnv 1 0).THRESHOLD
      ∧ (computeSPVForceCPU (idleEnv 1 0) collinearTetra 0).thrown = false := by
  decide!

variable {F X : Type} [Add F] [Sub F] [Mul F] [Div F] [Neg F] [OfScientific F] [LT F]
  [DecidableRel (fun a b : F => a < b)]

/-- C12 (amended): a call `computeSPVForceCPU(i)` that runs to its end stores the force
`forceSum` (or (0,0), with `-forceSum` as the external force, for an excluded cell) that
is the sum over the slots of the gradient `dEdv` times the matrix `dhdri`, where each of
the six divisions of `dEdv` (two in each of its three perimeter-derivative terms) is by
the edge-length norm after it has been replaced by `THRESHOLD` when it compares below
`THRESHOLD`: no such divisor compares below `THRESHOLD`, and each is at least `THRESHOLD`
wherever the comparison with `THRESHOLD` is total. The denominators `cp` and
`D = 2*cp*cp` of the circumcenter Jacobian are not clamped: `dhdri[nn]` is computed with
the divisors `D` and `cp` as they come out of `rij` and `rik`. -/
theorem computeSPVForceCPU_divisors (E : Env F X) (s : SPV2D F X) (i : Int)
    (hret : (computeSPVForceCPU E s i).thrown = false) :
    forceSumCPU E s i = some (clampedForceSum E s i)
      ∧ (computeSPVForceCPU E s i).get.forces i
        = (if s.particleExclusions = true ∧ s.exclusions i ≠ 0 then ⟨0.0, 0.0⟩
          else clampedForceSum E s i)
      ∧ (s.particleExclusions = true → s.exclusions i ≠ 0 →
        (computeSPVForceCPU E s i).get.external_forces i
          = ⟨-(clampedForceSum E s i).x, -(clampedForceSum E s i).y⟩)
      ∧ (∀ nn : Int, 0 ≤ nn → nn < s.cellNeighborNum i →
        dhdriAt E s i nn = unclampedJacobian E (rijAt E s i nn) (rikAt E s i nn))
      ∧ (¬ E.THRESHOLD < E.THRESHOLD → ∀ d : Dscalar2 F, ¬ clampedNorm E d < E.THRESHOLD)
      ∧ ((∀ a : F, ¬ a < E.THRESHOLD → E.THRESHOLD = a ∨ E.THRESHOLD < a) →
        ∀ d : Dscalar2 F,
          E.THRESHOLD = clampedNorm E d ∨ E.THRESHOLD < clampedNorm E d) := by
  have hno : ∀ nn : Int, 0 ≤ nn → nn < s.cellNeighborNum i → ¬ slotThrows s i nn := by
    intro nn h0 h1 hth
    have hnone := (forceSumCPU_none_iff E s i).2 ⟨nn, h0, h1, hth⟩
    unfold computeSPVForceCPU at hret
    rw [hnone] at hret
    simp [Outcome.thrown] at hret
  have hsum := forceSumCPU_clamped E s i hno
  refine ⟨hsum, ?_, ?_, fun nn h0 h1 => (dhdriAt_eq E s i nn h0 h1).trans rfl,
    fun hirr d => clampedNorm_not_lt E hirr d, fun htot d => clampedNorm_at_least E htot d⟩
  · unfold computeSPVForceCPU
    rw [hsum]
    simp only []
    by_cases hp : s.particleExclusions = true
    · by_cases he : s.exclusions i = 0
      · simp [hp, he, Outcome.get]
      · simp [hp, he, Outcome.get]
    · simp [hp, Outcome.get]
  · intro hp he
    unfold computeSPVForceCPU
    rw [hsum]
    simp [hp, he, Outcome.get]

/-- Witness of C12 (amended): `computeSPVForceCPU(0)` on the tetrahedral triangulation with
the cells at (0,0), (3,1), (1,4) and (-2,-3), after the geometry step, in the planar
environment over the rationals with the identity in the place of `sqrt`: the call runs to
its end and stores the force written out below; the norm of the edge from the vertex of
slot 0 to the vertex before it is 316368/1225 and stays as it is, the norm of an edge of
length 0 is raised to the threshold 1/1000000. -/
theorem computeSPVForceCPU_divisors_witness :
    ((computeSPVForceCPU (planarEnv ℚ (fun x => x) (1 / 1000000)) skewGeometry 0).thrown = false
        ∧ ¬ (planarEnv ℚ (fun x => x) (1 / 1000000)).THRESHOLD
          < (planarEnv ℚ (fun x => x) (1 / 1000000)).THRESHOLD
        ∧ ∀ a : ℚ, ¬ a < (planarEnv ℚ (fun x => x) (1 / 1000000)).THRESHOLD →
          (planarEnv ℚ (fun x => x) (1 / 1000000)).THRESHOLD = a
            ∨ (planarEnv ℚ (fun x => x) (1 / 1000000)).THRESHOLD < a)
      ∧ (computeSPVForceCPU (planarEnv ℚ (fun x => x) (1 / 1000000)) skewGeometry 0).get.forces 0
        = clampedForceSum (planarEnv ℚ (fun x => x) (1 / 1000000)) skewGeometry 0
      ∧ clampedForceSum (planarEnv ℚ (fun x => x) (1 / 1000000)) skewGeometry 0
        = ⟨3272688887502528 / 513200158625, -939589463876544 / 513200158625⟩
      ∧ clampedNorm (planarEnv ℚ (fun x => x) (1 / 1000000))
          (edgeVector (skewGeometry.voroCur 2) (skewGeometry.voroCur 0)) = 316368 / 1225
      ∧ clampedNorm (planarEnv ℚ (fun x => x) (1 / 1000000)) ⟨0, 0⟩ = 1 / 1000000
      ∧ ¬ clampedNorm (planarEnv ℚ (fun x => x) (1 / 1000000))
          (edgeVector (skewGeometry.voroCur 2) (skewGeometry.voroCur 0))
          < (planarEnv ℚ (fun x => x) (1 / 1000000)).THRESHOLD
      ∧ ((planarEnv ℚ (fun x => x) (1 / 1000000)).THRESHOLD
            = clampedNorm (planarEnv ℚ (fun x => x) (1 / 1000000)) ⟨0, 0⟩
          ∨ (planarEnv ℚ (fun x => x) (1 / 1000000)).THRESHOLD
            < clampedNorm (planarEnv ℚ (fun x => x) (1 / 1000000)) ⟨0, 0⟩) :=
  ⟨⟨by decide!, by decide!, fun _ h => (le_of_not_lt h).eq_or_lt⟩,
    (computeSPVForceCPU_divisors (planarEnv ℚ (fun x => x) (1 / 1000000)) skewGeometry 0
      (by decide!)).2.1,
    by decide!, by decide!, by decide!,
    (computeSPVForceCPU_divisors (planarEnv ℚ (fun x => x) (1 / 1000000)) skewGeometry 0
      (by decide!)).2.2.2.2.1 (by decide!) _,
    (computeSPVForceCPU_divisors (planarEnv ℚ (fun x => x) (1 / 1000000)) skewGeometry 0
      (by decide!)).2.2.2.2.2 (fun _ h => (le_of_not_lt h).eq_or_lt) _⟩

end DenominatorClaims

end CellGPU
